import Mathlib

/-!
# SentinelTrack agent: process and connection trackers, anomaly engine

A shallow embedding of `agent/src/ProcessMonitor.cpp`,
`agent/src/NetworkMonitor.cpp` and `agent/src/AnomalyDetector.cpp`, followed by
theorems about the embedded code.

Modelling conventions.

* The operating system is not modelled.  What a call reads from it is an
  explicit argument: a `ProcSnapshot` for one enumeration of processes (one
  entry per pid returned by `getAllPids`, carrying what `parseProcessInfo`
  read for that pid), a `NetSnapshot` for one enumeration of connections.
* `std::unordered_map<int, V>` is an association list `List (Int × V)` read
  with `mapFind` and written with `mapSet`; `std::unordered_set<std::string>`
  is a `List String` written with `setInsert`.  The iteration order of the C++
  containers is unspecified, so statements about what an iteration returns are
  statements about membership.
* `unsigned long long` is `Nat` with explicit reduction modulo `2 ^ 64` where
  the source subtracts.
* `double` is IEEE 754 binary64.  A finite `double` is the rational number it
  denotes (`ℚ`), and a comparison of finite values is the comparison of these
  rationals.  Every arithmetic operation, and every conversion of an integer to
  `double`, rounds its exact result to the nearest binary64 value, a tie going
  to the even significand (`roundFinite`); an operation whose rounded result
  exceeds the largest finite value gives an infinity (`roundToDouble`,
  `DoubleResult`).  Expressions are evaluated in binary64 itself, without a
  wider intermediate format.  Arguments of type `double` are finite and a zero
  carries no sign; no operation of the embedded code produces a NaN from
  finite operands.
* The clock is not modelled: a method that calls `time(nullptr)` takes the
  value read as an argument.
-/

namespace SentinelTrack

/-! ## Containers -/

/-- The modulus of `unsigned long long` arithmetic. -/
def U64 : Nat := 2 ^ 64

/-- The lookup `m.find(key)` of an unordered map: `none` stands for `m.end()`. -/
def mapFind {V : Type} : List (Int × V) → Int → Option V
  | [], _ => none
  | (k, v) :: rest, key => if k = key then some v else mapFind rest key

/-- The assignment `m[key] = v` of an unordered map: the value of an existing
key is overwritten, a missing key is added. -/
def mapSet {V : Type} : List (Int × V) → Int → V → List (Int × V)
  | [], key, v => [(key, v)]
  | (k, w) :: rest, key, v =>
    if k = key then (k, v) :: rest else (k, w) :: mapSet rest key v

/-- The keys held by an unordered map. -/
def mapKeys {V : Type} (m : List (Int × V)) : List Int :=
  m.map Prod.fst

/-- The call `s.insert(key)` of an unordered set: nothing happens when the key
is already present. -/
def setInsert (s : List String) (key : String) : List String :=
  if s.contains key then s else s ++ [key]

/-! ## Binary64 arithmetic -/

/-- The value of `q` rounded to an integer, a tie going to the even neighbour. -/
def roundHalfEven (q : ℚ) : Int :=
  let f := ⌊q⌋
  if q - f < 1 / 2 then f
  else if 1 / 2 < q - f then f + 1
  else if f % 2 = 0 then f else f + 1

/-- The power `2 ^ e` for an integer exponent `e`. -/
def pow2 (e : Int) : ℚ :=
  if 0 ≤ e then ((2 ^ e.toNat : Nat) : ℚ) else 1 / ((2 ^ (-e).toNat : Nat) : ℚ)

/-- The loop of `log2`: one more than the result for `n / 2` while `2 ≤ n`; the
first argument bounds the number of halvings. -/
def log2Loop : Nat → Nat → Nat
  | 0, _ => 0
  | fuel + 1, n => if 2 ≤ n then log2Loop fuel (n / 2) + 1 else 0

/-- The position of the leading binary digit of `n`: the `k` with
`2 ^ k ≤ n < 2 ^ (k + 1)` for `n ≠ 0`, and `0` for `n = 0`. -/
def log2 (n : Nat) : Nat :=
  log2Loop n n

/-- The binary exponent of `q ≠ 0`: the `k` with `2 ^ k ≤ |q| < 2 ^ (k + 1)`.
The difference of the leading digit positions of numerator and denominator is
this `k` or one more. -/
def binaryExponent (q : ℚ) : Int :=
  let k : Int := (log2 q.num.natAbs : Int) - (log2 q.den : Int)
  if pow2 k ≤ |q| then k else k - 1

/-- The binary64 value nearest to `q`, a tie going to the even significand, with
the exponent range unbounded above: the result is a multiple of `2 ^ e` where
`e` leaves 53 significant bits and is not below `-1074`, the exponent of the
smallest subnormal. -/
def roundFinite (q : ℚ) : ℚ :=
  let e := max (binaryExponent q - 52) (-1074)
  (roundHalfEven (q / pow2 e) : ℚ) * pow2 e

/-- The largest finite binary64 value, `DBL_MAX`. -/
def maxDouble : ℚ :=
  (2 ^ 53 - 1) * 2 ^ 971

/-- The value of a `double` expression whose operands are finite: a finite
value or an infinity. -/
inductive DoubleResult where
  | finite (value : ℚ)
  | posInf
  | negInf
  deriving DecidableEq

/-- The `double` that an operation with exact result `q` returns: `q` rounded to
nearest, an infinity when the rounded value exceeds `maxDouble` in magnitude. -/
def roundToDouble (q : ℚ) : DoubleResult :=
  let r := roundFinite q
  if maxDouble < r then DoubleResult.posInf
  else if r < -maxDouble then DoubleResult.negInf
  else DoubleResult.finite r

/-- The sum `a + b` in `double`, for a finite `b`. -/
def DoubleResult.add (a : DoubleResult) (b : ℚ) : DoubleResult :=
  match a with
  | DoubleResult.finite v => roundToDouble (v + b)
  | DoubleResult.posInf => DoubleResult.posInf
  | DoubleResult.negInf => DoubleResult.negInf

/-- The quotient `a / b` in `double`, for a finite `b > 0`. -/
def DoubleResult.div (a : DoubleResult) (b : ℚ) : DoubleResult :=
  match a with
  | DoubleResult.finite v => roundToDouble (v / b)
  | DoubleResult.posInf => DoubleResult.posInf
  | DoubleResult.negInf => DoubleResult.negInf

/-- The product `a * b` in `double`, for a finite `b > 0`. -/
def DoubleResult.mul (a : DoubleResult) (b : ℚ) : DoubleResult :=
  match a with
  | DoubleResult.finite v => roundToDouble (v * b)
  | DoubleResult.posInf => DoubleResult.posInf
  | DoubleResult.negInf => DoubleResult.negInf

/-- The comparison `x > a` in `double`, for a finite `x`. -/
def DoubleResult.lt (a : DoubleResult) (x : ℚ) : Bool :=
  match a with
  | DoubleResult.finite v => decide (v < x)
  | DoubleResult.posInf => false
  | DoubleResult.negInf => true

/-! ## ProcessMonitor -/

/-- The struct `ProcessInfo` of `ProcessMonitor.h`. -/
structure ProcessInfo where
  pid : Int
  name : String
  command : String
  cpu_usage : ℚ
  memory_usage : Int
  state : String
  parent_pid : Int
  start_time : String
  deriving DecidableEq

/-- The private fields of the class `ProcessMonitor`. -/
structure ProcessMonitor where
  previous_processes : List (Int × ProcessInfo)
  previous_cpu_times : List (Int × Nat)
  previous_total_cpu_time : Nat

/-- What `parseProcessInfo(pid)` reads from the operating system when it does
not throw.  A field the system could not supply holds the default the source
assigns before reading (`"Unknown"` for the strings, `0` for the numbers).
`cpu_time` is the argument passed to `calculateCpuUsage`, `none` when the
platform branch skips that call (Windows and macOS when the process cannot be
queried; the Linux branch always makes the call); `total_cpu_time` is what
`getTotalCpuTime()` returns inside that call. -/
structure ProcRead where
  name : String
  command : String
  memory_usage : Int
  state : String
  parent_pid : Int
  cpu_time : Option Nat
  total_cpu_time : Nat
  deriving DecidableEq

/-- One pid of an enumeration by `getAllPids`, with what `parseProcessInfo`
does for it: `none` when it throws a `std::exception` (for instance
`std::stoi` on a malformed field), the data read otherwise. -/
structure ProcEntry where
  pid : Int
  read : Option ProcRead
  deriving DecidableEq

/-- One enumeration of the processes of the host, in the order of `getAllPids`. -/
abbrev ProcSnapshot := List ProcEntry

/-- The constructor's member initialisers, before its call of `updateProcessList`. -/
def ProcessMonitor.init : ProcessMonitor :=
  { previous_processes := [], previous_cpu_times := [], previous_total_cpu_time := 0 }

/-- The result of `getAllPids()` on a snapshot. -/
def getAllPids (snap : ProcSnapshot) : List Int :=
  snap.map ProcEntry.pid

/-- The method `ProcessMonitor::calculateCpuUsage`, with the value returned by
`getTotalCpuTime()` as the argument `current_total_cpu_time`.  In the last
branch the two deltas are converted to `double`, divided, and the quotient is
multiplied by `100.0`; the deltas are below `2 ^ 64` and the divisor is not 0,
so no operation overflows. -/
def calculateCpuUsage (m : ProcessMonitor) (pid : Int)
    (current_cpu_time current_total_cpu_time : Nat) : ℚ × ProcessMonitor :=
  match mapFind m.previous_cpu_times pid with
  | none =>
    (0, { m with
          previous_cpu_times := mapSet m.previous_cpu_times pid current_cpu_time
          previous_total_cpu_time := current_total_cpu_time })
  | some previous =>
    if m.previous_total_cpu_time = 0 then
      (0, { m with
            previous_cpu_times := mapSet m.previous_cpu_times pid current_cpu_time
            previous_total_cpu_time := current_total_cpu_time })
    else
      let cpu_time_delta := (current_cpu_time + U64 - previous) % U64
      let total_cpu_time_delta :=
        (current_total_cpu_time + U64 - m.previous_total_cpu_time) % U64
      if total_cpu_time_delta = 0 then
        (0, m)
      else
        (roundFinite
           (roundFinite
              (roundFinite (cpu_time_delta : ℚ) / roundFinite (total_cpu_time_delta : ℚ)) * 100),
         { m with
           previous_cpu_times := mapSet m.previous_cpu_times pid current_cpu_time
           previous_total_cpu_time := current_total_cpu_time })

/-- The method `ProcessMonitor::parseProcessInfo` on a pid whose read did not
throw. -/
def parseProcessInfo (m : ProcessMonitor) (pid : Int) (r : ProcRead) :
    ProcessInfo × ProcessMonitor :=
  let info : ProcessInfo :=
    { pid := pid, name := r.name, command := r.command, cpu_usage := 0,
      memory_usage := r.memory_usage, state := r.state,
      parent_pid := r.parent_pid, start_time := "" }
  match r.cpu_time with
  | none => (info, m)
  | some current_cpu_time =>
    let res := calculateCpuUsage m pid current_cpu_time r.total_cpu_time
    ({ info with cpu_usage := res.1 }, res.2)

/-- The test `!info.name.empty() && info.name != "Unknown"` of
`getCurrentProcesses`. -/
def nameResolved (name : String) : Bool :=
  !(name == "") && name != "Unknown"

/-- The loop of `getCurrentProcesses` over the enumerated pids; `processes` is
the vector built so far. -/
def getCurrentProcessesLoop :
    ProcSnapshot → List ProcessInfo → ProcessMonitor → List ProcessInfo × ProcessMonitor
  | [], processes, m => (processes, m)
  | e :: rest, processes, m =>
    match e.read with
    | none => getCurrentProcessesLoop rest processes m
    | some r =>
      let res := parseProcessInfo m e.pid r
      if nameResolved res.1.name then
        getCurrentProcessesLoop rest (processes ++ [res.1]) res.2
      else
        getCurrentProcessesLoop rest processes res.2

/-- The method `ProcessMonitor::getCurrentProcesses`. -/
def getCurrentProcesses (m : ProcessMonitor) (snap : ProcSnapshot) :
    List ProcessInfo × ProcessMonitor :=
  getCurrentProcessesLoop snap [] m

/-- The loop of `getNewProcesses` over the current processes. -/
def getNewProcessesLoop (previous_processes : List (Int × ProcessInfo)) :
    List ProcessInfo → List ProcessInfo → List ProcessInfo
  | [], new_processes => new_processes
  | process :: rest, new_processes =>
    match mapFind previous_processes process.pid with
    | none => getNewProcessesLoop previous_processes rest (new_processes ++ [process])
    | some _ => getNewProcessesLoop previous_processes rest new_processes

/-- The method `ProcessMonitor::getNewProcesses`. -/
def getNewProcesses (m : ProcessMonitor) (snap : ProcSnapshot) :
    List ProcessInfo × ProcessMonitor :=
  let res := getCurrentProcesses m snap
  (getNewProcessesLoop res.2.previous_processes res.1 [], res.2)

/-- The loop of `getTerminatedProcesses` over the tracked table. -/
def getTerminatedProcessesLoop (current_pids : List Int) :
    List (Int × ProcessInfo) → List Int → List Int
  | [], terminated_pids => terminated_pids
  | pair :: rest, terminated_pids =>
    if current_pids.contains pair.1 then
      getTerminatedProcessesLoop current_pids rest terminated_pids
    else
      getTerminatedProcessesLoop current_pids rest (terminated_pids ++ [pair.1])

/-- The method `ProcessMonitor::getTerminatedProcesses`; it changes no field. -/
def getTerminatedProcesses (m : ProcessMonitor) (snap : ProcSnapshot) : List Int :=
  getTerminatedProcessesLoop (getAllPids snap) m.previous_processes []

/-- The loop of `updateProcessList` storing the current processes. -/
def updateProcessListLoop :
    List ProcessInfo → List (Int × ProcessInfo) → List (Int × ProcessInfo)
  | [], previous_processes => previous_processes
  | process :: rest, previous_processes =>
    updateProcessListLoop rest (mapSet previous_processes process.pid process)

/-- The method `ProcessMonitor::updateProcessList`. -/
def updateProcessList (m : ProcessMonitor) (snap : ProcSnapshot) : ProcessMonitor :=
  let res := getCurrentProcesses { m with previous_processes := [] } snap
  { res.2 with previous_processes := updateProcessListLoop res.1 res.2.previous_processes }

/-- The pids of a list of processes. -/
def pidsOf (ps : List ProcessInfo) : List Int :=
  ps.map ProcessInfo.pid

/-- The records `parseProcessInfo` produces over an enumeration, in order, each
parsed in the state left by the pids before it; a pid whose read throws
produces none. -/
def parsedInfos : ProcSnapshot → ProcessMonitor → List ProcessInfo
  | [], _ => []
  | e :: rest, m =>
    match e.read with
    | none => parsedInfos rest m
    | some r =>
      (parseProcessInfo m e.pid r).1 :: parsedInfos rest (parseProcessInfo m e.pid r).2

/-- The entry of an enumeration was read and its name resolved. -/
def entryResolved (e : ProcEntry) : Bool :=
  match e.read with
  | none => false
  | some r => nameResolved r.name

/-! ## NetworkMonitor -/

/-- The struct `NetworkConnection` of `NetworkMonitor.h`. -/
structure NetworkConnection where
  local_ip : String
  local_port : Int
  remote_ip : String
  remote_port : Int
  protocol : String
  state : String
  pid : Int
  process_name : String
  deriving DecidableEq

/-- The private field of the class `NetworkMonitor`. -/
structure NetworkMonitor where
  previous_connections : List String

/-- One enumeration of the connections of the host: what `parseTcpConnections()`
and `parseUdpConnections()` return. -/
structure NetSnapshot where
  tcp : List NetworkConnection
  udp : List NetworkConnection

/-- The method `NetworkMonitor::getConnectionKey`; `toString` on `Int` prints
what `std::to_string` prints for an `int`. -/
def getConnectionKey (conn : NetworkConnection) : String :=
  conn.protocol ++ ":" ++ conn.local_ip ++ ":" ++ toString conn.local_port ++
    "->" ++ conn.remote_ip ++ ":" ++ toString conn.remote_port

/-- The method `NetworkMonitor::getCurrentConnections`: the TCP connections
followed by the UDP connections. -/
def getCurrentConnections (snap : NetSnapshot) : List NetworkConnection :=
  snap.tcp ++ snap.udp

/-- The loop of `getNewConnections` over the current connections. -/
def getNewConnectionsLoop (previous_connections : List String) :
    List NetworkConnection → List NetworkConnection → List NetworkConnection
  | [], new_connections => new_connections
  | conn :: rest, new_connections =>
    let key := getConnectionKey conn
    if previous_connections.contains key then
      getNewConnectionsLoop previous_connections rest new_connections
    else
      getNewConnectionsLoop previous_connections rest (new_connections ++ [conn])

/-- The method `NetworkMonitor::getNewConnections`; it changes no field. -/
def getNewConnections (nm : NetworkMonitor) (snap : NetSnapshot) : List NetworkConnection :=
  getNewConnectionsLoop nm.previous_connections (getCurrentConnections snap) []

/-- The loop of `updateConnectionList` inserting the key of every current
connection. -/
def updateConnectionListLoop : List NetworkConnection → List String → List String
  | [], previous_connections => previous_connections
  | conn :: rest, previous_connections =>
    updateConnectionListLoop rest (setInsert previous_connections (getConnectionKey conn))

/-- The method `NetworkMonitor::updateConnectionList`. -/
def updateConnectionList (_nm : NetworkMonitor) (snap : NetSnapshot) : NetworkMonitor :=
  { previous_connections := updateConnectionListLoop (getCurrentConnections snap) [] }

/-- The static method `NetworkMonitor::ipToString`: the four bytes of the
address, lowest first, printed in decimal and joined by dots. -/
def ipToString (ip : Nat) : String :=
  toString ((ip >>> 0) &&& 0xFF) ++ "." ++
  toString ((ip >>> 8) &&& 0xFF) ++ "." ++
  toString ((ip >>> 16) &&& 0xFF) ++ "." ++
  toString ((ip >>> 24) &&& 0xFF)

/-- The string fields of a connection as `parseTcpConnections` and
`parseUdpConnections` fill them, the only connections `getConnectionKey` (a
private method) is called on: the protocol is `"TCP"` or `"UDP"`; an address is
a result of `ipToString` (`"0.0.0.0"` is `ipToString 0`), or the empty string
of the default constructor when a line of `/proc/net` has no `':'` in its
address column. -/
def parsedFields (conn : NetworkConnection) : Prop :=
  (conn.protocol = "TCP" ∨ conn.protocol = "UDP") ∧
  (conn.local_ip = "" ∨ ∃ ip : Nat, conn.local_ip = ipToString ip) ∧
  (conn.remote_ip = "" ∨ ∃ ip : Nat, conn.remote_ip = ipToString ip)

/-- The loop of `getListeningPorts` over the current connections. -/
def getListeningPortsLoop :
    List NetworkConnection → List NetworkConnection → List NetworkConnection
  | [], listening_ports => listening_ports
  | conn :: rest, listening_ports =>
    if conn.state = "LISTEN" ∨ (conn.protocol = "UDP" ∧ conn.remote_ip = "0.0.0.0") then
      getListeningPortsLoop rest (listening_ports ++ [conn])
    else
      getListeningPortsLoop rest listening_ports

/-- The method `NetworkMonitor::getListeningPorts`; it changes no field. -/
def getListeningPorts (snap : NetSnapshot) : List NetworkConnection :=
  getListeningPortsLoop (getCurrentConnections snap) []

/-- The loop of `getOpenPorts` collecting the local port of every listening
connection. -/
def getOpenPortsLoop : List NetworkConnection → List Int → List Int
  | [], open_ports => open_ports
  | conn :: rest, open_ports => getOpenPortsLoop rest (open_ports ++ [conn.local_port])

/-- The call `v.erase(std::unique(v.begin(), v.end()), v.end())`: of every run
of equal consecutive values one is kept. -/
def stdUnique : List Int → List Int
  | [] => []
  | [x] => [x]
  | x :: y :: rest => if x = y then stdUnique (y :: rest) else x :: stdUnique (y :: rest)

/-- The method `NetworkMonitor::getOpenPorts`.  `std::sort` on `int` returns the
ascending arrangement of its input, which is what `List.insertionSort` returns. -/
def getOpenPorts (snap : NetSnapshot) : List Int :=
  stdUnique ((getOpenPortsLoop (getListeningPorts snap) []).insertionSort (· ≤ ·))

/-! ## AnomalyDetector -/

/-- The value an `int` holds after a result that left its range is stored in
it: reduction modulo `2 ^ 32` into `[-2 ^ 31, 2 ^ 31)`. -/
def wrapInt32 (x : Int) : Int :=
  (x + 2 ^ 31) % 2 ^ 32 - 2 ^ 31

/-- The struct `AnomalyAlert` of `AnomalyDetector.h`. -/
structure AnomalyAlert where
  type : String
  severity : String
  message : String
  details : String
  timestamp : String
  deriving DecidableEq

/-- The private fields of the class `AnomalyDetector`; `time_t` is `Int`. -/
structure AnomalyDetector where
  high_cpu_threshold : ℚ
  high_memory_threshold : Int
  max_new_processes_per_minute : Int
  max_new_connections_per_minute : Int
  cpu_history : List ℚ
  memory_history : List Int
  known_processes : List (String × Int)
  port_usage_history : List (Int × Int)
  new_processes_count : Int
  new_connections_count : Int
  last_reset_time : Int

/-- The constructor `AnomalyDetector::AnomalyDetector`, with the value of
`time(nullptr)` as the argument `now`. -/
def AnomalyDetector.init (now : Int) : AnomalyDetector :=
  { high_cpu_threshold := 80, high_memory_threshold := 1024 * 1024,
    max_new_processes_per_minute := 10, max_new_connections_per_minute := 50,
    cpu_history := [], memory_history := [], known_processes := [],
    port_usage_history := [], new_processes_count := 0, new_connections_count := 0,
    last_reset_time := now }

/-- The lookup `known_processes.find(key)`: `none` stands for `end()`. -/
def knownFind : List (String × Int) → String → Option Int
  | [], _ => none
  | (k, v) :: rest, key => if k = key then some v else knownFind rest key

/-- The assignment `known_processes[key] = v`. -/
def knownSet : List (String × Int) → String → Int → List (String × Int)
  | [], key, v => [(key, v)]
  | (k, w) :: rest, key, v =>
    if k = key then (k, v) :: rest else (k, w) :: knownSet rest key v

/-- The statement `known_processes[key]++`: a missing key is first inserted
with the value 0. -/
def knownIncr (m : List (String × Int)) (key : String) : List (String × Int) :=
  match knownFind m key with
  | none => knownSet m key 1
  | some v => knownSet m key (wrapInt32 (v + 1))

/-- The names held by the known-process map. -/
def knownKeys (m : List (String × Int)) : List String :=
  m.map Prod.fst

/-- The test `haystack.find(needle) != std::string::npos`: the needle occurs
at some position of the haystack. -/
def strContains (haystack needle : String) : Bool :=
  haystack.data.tails.any (fun t => needle.data.isPrefixOf t)

/-- The call `s.substr(0, n)`: the first `n` characters of `s`, all of `s` when
it is shorter. -/
def substr0 (s : String) (n : Nat) : String :=
  ⟨s.data.take n⟩

/-- The call `std::to_string(x)` on a `double`, which prints like `"%f"`: the
value rounded to six decimals. -/
def doubleToString (q : ℚ) : String :=
  let n := (roundHalfEven (|q| * 1000000)).toNat
  let frac := toString (n % 1000000)
  (if q < 0 then "-" else "") ++ toString (n / 1000000) ++ "." ++
    String.mk (List.replicate (6 - frac.length) '0') ++ frac

/-- The vector `common_processes` of `isUnknownProcess`. -/
def common_processes : List String :=
  ["init", "kthreadd", "ksoftirqd", "systemd", "bash", "sh", "ssh", "sshd",
   "dbus", "networkd", "resolved", "cron", "rsyslog", "kernel", "migration"]

/-- The loop of `isUnknownProcess` over the common names, followed by the
lookup in the learned names when no common name occurs in the process name. -/
def isUnknownProcessLoop (d : AnomalyDetector) (process : ProcessInfo) : List String → Bool
  | [] => (knownFind d.known_processes process.name).isNone
  | known :: rest =>
    if strContains process.name known then false
    else isUnknownProcessLoop d process rest

/-- The method `AnomalyDetector::isUnknownProcess`. -/
def isUnknownProcess (d : AnomalyDetector) (process : ProcessInfo) : Bool :=
  isUnknownProcessLoop d process common_processes

/-- The vector `suspicious_ports` of `isSuspiciousPort`. -/
def suspicious_ports : List Int :=
  [4444, 5555, 6666, 7777, 8888, 9999,
   1234, 12345, 54321,
   31337, 1337,
   6667, 6668, 6669,
   8080, 8888, 9000, 9001]

/-- The method `AnomalyDetector::isSuspiciousPort`. -/
def isSuspiciousPort (port : Int) : Bool :=
  suspicious_ports.contains port

/-- The erasure of the oldest sample once a history holds more than 10. -/
def capHistory {α : Type} (history : List α) : List α :=
  if history.length > 10 then history.tail else history

/-- The method `AnomalyDetector::isRapidMemoryIncrease`.  `std::accumulate`
starts at `0.0` and adds the samples from the oldest on, each converted from
`long` to `double`; the sum is divided by the size converted to `double`, and
the current value is converted to `double` for the comparison. -/
def isRapidMemoryIncrease (d : AnomalyDetector) (current_memory : Int) :
    Bool × AnomalyDetector :=
  if d.memory_history.length < 2 then
    (false, { d with memory_history := d.memory_history ++ [current_memory] })
  else
    let avg_memory : DoubleResult :=
      (d.memory_history.foldl
          (fun (acc : DoubleResult) (x : Int) => acc.add (roundFinite (x : ℚ)))
          (DoubleResult.finite 0)).div
        (roundFinite (d.memory_history.length : ℚ))
    let is_rapid_increase : Bool :=
      (avg_memory.mul (3 / 2)).lt (roundFinite (current_memory : ℚ))
    (is_rapid_increase,
     { d with memory_history := capHistory (d.memory_history ++ [current_memory]) })

/-- The method `AnomalyDetector::isRapidCpuSpike`.  `std::accumulate` starts at
`0.0` and adds the samples from the oldest on; the sum is divided by the size
converted to `double`. -/
def isRapidCpuSpike (d : AnomalyDetector) (current_cpu : ℚ) : Bool × AnomalyDetector :=
  if d.cpu_history.length < 2 then
    (false, { d with cpu_history := d.cpu_history ++ [current_cpu] })
  else
    let avg_cpu : DoubleResult :=
      (d.cpu_history.foldl (fun (acc : DoubleResult) (x : ℚ) => acc.add x)
          (DoubleResult.finite 0)).div
        (roundFinite (d.cpu_history.length : ℚ))
    let is_rapid_spike : Bool := (avg_cpu.add 30).lt current_cpu && decide (current_cpu > 70)
    (is_rapid_spike, { d with cpu_history := capHistory (d.cpu_history ++ [current_cpu]) })

/-- The method `AnomalyDetector::updateBaselines`. -/
def updateBaselines (d : AnomalyDetector) : List ProcessInfo → AnomalyDetector
  | [] => d
  | process :: rest =>
    updateBaselines { d with known_processes := knownIncr d.known_processes process.name } rest

/-- The method `AnomalyDetector::resetCounters`, with the value of
`time(nullptr)` as the argument `current_time`. -/
def resetCounters (d : AnomalyDetector) (current_time : Int) : AnomalyDetector :=
  if current_time - d.last_reset_time ≥ 60 then
    { d with new_processes_count := 0, new_connections_count := 0,
             last_reset_time := current_time }
  else d

/-- The HIGH_CPU alert built by `checkProcessAnomalies` for a process. -/
def highCpuAlert (process : ProcessInfo) : AnomalyAlert :=
  { type := "HIGH_CPU", severity := "WARNING",
    message := "Process " ++ process.name ++ " using excessive CPU",
    details := "PID: " ++ toString process.pid ++ ", CPU: " ++
      doubleToString process.cpu_usage ++ "%",
    timestamp := "" }

/-- The HIGH_MEMORY alert built by `checkProcessAnomalies` for a process. -/
def highMemoryAlert (process : ProcessInfo) : AnomalyAlert :=
  { type := "HIGH_MEMORY", severity := "WARNING",
    message := "Process " ++ process.name ++ " using excessive memory",
    details := "PID: " ++ toString process.pid ++ ", Memory: " ++
      toString process.memory_usage ++ " KB",
    timestamp := "" }

/-- The UNKNOWN_PROCESS alert built by `checkProcessAnomalies` for a process. -/
def unknownProcessAlert (process : ProcessInfo) : AnomalyAlert :=
  { type := "UNKNOWN_PROCESS", severity := "INFO",
    message := "Unknown process detected: " ++ process.name,
    details := "PID: " ++ toString process.pid ++ ", Command: " ++ process.command,
    timestamp := "" }

/-- The body of the loop of `checkProcessAnomalies` for one process; `alerts`
is the vector built so far. -/
def checkProcessAnomaliesStep (d : AnomalyDetector) (alerts : List AnomalyAlert)
    (process : ProcessInfo) : List AnomalyAlert :=
  let alerts :=
    if process.cpu_usage > d.high_cpu_threshold then alerts ++ [highCpuAlert process]
    else alerts
  let alerts :=
    if process.memory_usage > d.high_memory_threshold then alerts ++ [highMemoryAlert process]
    else alerts
  if isUnknownProcess d process then alerts ++ [unknownProcessAlert process]
  else alerts

/-- The loop of `checkProcessAnomalies` over the batch. -/
def checkProcessAnomaliesLoop (d : AnomalyDetector) :
    List ProcessInfo → List AnomalyAlert → List AnomalyAlert
  | [], alerts => alerts
  | process :: rest, alerts =>
    checkProcessAnomaliesLoop d rest (checkProcessAnomaliesStep d alerts process)

/-- The method `AnomalyDetector::checkProcessAnomalies`, with the value of
`time(nullptr)` read by `resetCounters` as the argument `now`. -/
def checkProcessAnomalies (d : AnomalyDetector) (now : Int) (processes : List ProcessInfo) :
    List AnomalyAlert × AnomalyDetector :=
  let d1 := resetCounters d now
  let alerts := checkProcessAnomaliesLoop d1 processes []
  (alerts, updateBaselines d1 processes)

/-- The SUSPICIOUS_PORT alert built for the local port of a connection. -/
def suspiciousLocalPortAlert (connection : NetworkConnection) : AnomalyAlert :=
  { type := "SUSPICIOUS_PORT", severity := "WARNING",
    message := "Suspicious port detected: " ++ toString connection.local_port,
    details := "Protocol: " ++ connection.protocol ++ ", State: " ++ connection.state,
    timestamp := "" }

/-- The SUSPICIOUS_PORT alert built for the remote port of a connection. -/
def suspiciousRemotePortAlert (connection : NetworkConnection) : AnomalyAlert :=
  { type := "SUSPICIOUS_PORT", severity := "WARNING",
    message := "Connection to suspicious port: " ++ toString connection.remote_port,
    details := "Remote IP: " ++ connection.remote_ip ++ ", Protocol: " ++ connection.protocol,
    timestamp := "" }

/-- The EXTERNAL_CONNECTION alert built for a connection. -/
def externalConnectionAlert (connection : NetworkConnection) : AnomalyAlert :=
  { type := "EXTERNAL_CONNECTION", severity := "INFO",
    message := "External connection detected",
    details := "Local: " ++ connection.local_ip ++ ":" ++ toString connection.local_port ++
      " -> Remote: " ++ connection.remote_ip ++ ":" ++ toString connection.remote_port,
    timestamp := "" }

/-- The RAPID_CONNECTIONS alert built for a value of the connection counter. -/
def rapidConnectionsAlert (new_connections_count : Int) : AnomalyAlert :=
  { type := "RAPID_CONNECTIONS", severity := "WARNING",
    message := "Rapid network connections detected",
    details := "Count: " ++ toString new_connections_count ++
      " connections in the last minute",
    timestamp := "" }

/-- The body of the loop of `checkNetworkAnomalies` for one connection. -/
def checkNetworkAnomaliesStep (alerts : List AnomalyAlert) (connection : NetworkConnection) :
    List AnomalyAlert :=
  let alerts :=
    if isSuspiciousPort connection.local_port then
      alerts ++ [suspiciousLocalPortAlert connection]
    else alerts
  let alerts :=
    if isSuspiciousPort connection.remote_port then
      alerts ++ [suspiciousRemotePortAlert connection]
    else alerts
  if substr0 connection.remote_ip 3 ≠ "127" ∧
      substr0 connection.remote_ip 3 ≠ "192" ∧
      substr0 connection.remote_ip 2 ≠ "10" ∧
      substr0 connection.local_ip 3 = "192" then
    alerts ++ [externalConnectionAlert connection]
  else alerts

/-- The loop of `checkNetworkAnomalies` over the batch. -/
def checkNetworkAnomaliesLoop :
    List NetworkConnection → List AnomalyAlert → List AnomalyAlert
  | [], alerts => alerts
  | connection :: rest, alerts =>
    checkNetworkAnomaliesLoop rest (checkNetworkAnomaliesStep alerts connection)

/-- The method `AnomalyDetector::checkNetworkAnomalies`. -/
def checkNetworkAnomalies (d : AnomalyDetector) (connections : List NetworkConnection) :
    List AnomalyAlert × AnomalyDetector :=
  let alerts := checkNetworkAnomaliesLoop connections []
  let new_connections_count := wrapInt32 (d.new_connections_count + connections.length)
  let d1 := { d with new_connections_count := new_connections_count }
  if new_connections_count > d.max_new_connections_per_minute then
    (alerts ++ [rapidConnectionsAlert new_connections_count], d1)
  else
    (alerts, d1)

/-- The CPU_SPIKE alert built by `checkSystemAnomalies`. -/
def cpuSpikeAlert (cpu_usage : ℚ) : AnomalyAlert :=
  { type := "CPU_SPIKE", severity := "WARNING",
    message := "Rapid CPU usage increase detected",
    details := "Current CPU: " ++ doubleToString cpu_usage ++ "%",
    timestamp := "" }

/-- The MEMORY_SPIKE alert built by `checkSystemAnomalies`. -/
def memorySpikeAlert (memory_usage : Int) : AnomalyAlert :=
  { type := "MEMORY_SPIKE", severity := "WARNING",
    message := "Rapid memory usage increase detected",
    details := "Current Memory: " ++ toString memory_usage ++ " KB",
    timestamp := "" }

/-- The SYSTEM_OVERLOAD alert built by `checkSystemAnomalies`. -/
def systemOverloadAlert (cpu_usage : ℚ) : AnomalyAlert :=
  { type := "SYSTEM_OVERLOAD", severity := "CRITICAL",
    message := "System CPU overload detected",
    details := "CPU Usage: " ++ doubleToString cpu_usage ++ "%",
    timestamp := "" }

/-- The method `AnomalyDetector::checkSystemAnomalies`. -/
def checkSystemAnomalies (d : AnomalyDetector) (cpu_usage : ℚ) (memory_usage : Int) :
    List AnomalyAlert × AnomalyDetector :=
  let alerts : List AnomalyAlert := []
  let spike := isRapidCpuSpike d cpu_usage
  let alerts := if spike.1 then alerts ++ [cpuSpikeAlert cpu_usage] else alerts
  let increase := isRapidMemoryIncrease spike.2 memory_usage
  let alerts := if increase.1 then alerts ++ [memorySpikeAlert memory_usage] else alerts
  let alerts := if cpu_usage > 90 then alerts ++ [systemOverloadAlert cpu_usage] else alerts
  (alerts, increase.2)

/-- The method `AnomalyDetector::updateConfiguration`. -/
def updateConfiguration (d : AnomalyDetector) (cpu_thresh : ℚ) (mem_thresh : Int)
    (proc_rate conn_rate : Int) : AnomalyDetector :=
  { d with high_cpu_threshold := cpu_thresh, high_memory_threshold := mem_thresh,
           max_new_processes_per_minute := proc_rate,
           max_new_connections_per_minute := conn_rate }

/-- The loop of `loadKnownProcesses` over the lines of the file. -/
def loadKnownProcessesLoop (d : AnomalyDetector) : List String → AnomalyDetector
  | [] => d
  | line :: rest =>
    if line ≠ "" ∧ line.data.head? ≠ some '#' then
      loadKnownProcessesLoop { d with known_processes := knownSet d.known_processes line 1 } rest
    else
      loadKnownProcessesLoop d rest

/-- The method `AnomalyDetector::loadKnownProcesses`; the file is `none` when
it cannot be opened and the list of its lines otherwise. -/
def loadKnownProcesses (d : AnomalyDetector) (file : Option (List String)) : AnomalyDetector :=
  match file with
  | none => d
  | some lines => loadKnownProcessesLoop d lines

/-- The alerts one process of a batch raises, in the order of the three tests
of `checkProcessAnomalies`. -/
def alertsOfProcess (d : AnomalyDetector) (process : ProcessInfo) : List AnomalyAlert :=
  (if process.cpu_usage > d.high_cpu_threshold then [highCpuAlert process] else []) ++
  (if process.memory_usage > d.high_memory_threshold then [highMemoryAlert process] else []) ++
  (if isUnknownProcess d process = true then [unknownProcessAlert process] else [])

/-- One call of a public method of `AnomalyDetector`, with its arguments and
what it reads from the system. -/
inductive EngineOp where
  | checkProcess (now : Int) (processes : List ProcessInfo)
  | checkNetwork (connections : List NetworkConnection)
  | checkSystem (cpu_usage : ℚ) (memory_usage : Int)
  | configure (cpu_thresh : ℚ) (mem_thresh : Int) (proc_rate conn_rate : Int)
  | loadKnown (file : Option (List String))

/-- The engine after one call. -/
def applyOp (d : AnomalyDetector) : EngineOp → AnomalyDetector
  | .checkProcess now processes => (checkProcessAnomalies d now processes).2
  | .checkNetwork connections => (checkNetworkAnomalies d connections).2
  | .checkSystem cpu_usage memory_usage => (checkSystemAnomalies d cpu_usage memory_usage).2
  | .configure cpu_thresh mem_thresh proc_rate conn_rate =>
    updateConfiguration d cpu_thresh mem_thresh proc_rate conn_rate
  | .loadKnown file => loadKnownProcesses d file

/-- The engine after a sequence of calls, first call first. -/
def runOps (d : AnomalyDetector) (ops : List EngineOp) : AnomalyDetector :=
  ops.foldl applyOp d

/-- The arithmetic mean of a list of samples. -/
def mean (samples : List ℚ) : ℚ :=
  samples.sum / (samples.length : ℚ)

/-- Whether `q` is a finite `double`: rounding returns `q` itself. -/
def isDouble (q : ℚ) : Bool :=
  decide (roundToDouble q = DoubleResult.finite q)

/-- The sum of a list of samples in `double` arithmetic, added to `acc` from the
first sample on, every addition rounding. -/
def doubleSum (acc : DoubleResult) : List ℚ → DoubleResult
  | [] => acc
  | x :: rest => doubleSum (acc.add x) rest

/-- The mean of a list of samples in `double` arithmetic: the `double` sum from
`0.0` on, divided by the number of samples, the division rounding. -/
def doubleMean (samples : List ℚ) : DoubleResult :=
  (doubleSum (DoubleResult.finite 0) samples).div (roundFinite (samples.length : ℚ))

/-- Whether the `double` mean of a list involves no rounding: every partial sum
from the first sample on, the number of samples and the exact mean are finite
`double`s. -/
def meanIsExact (samples : List ℚ) : Bool :=
  (samples.scanl (fun (acc x : ℚ) => acc + x) 0).all isDouble &&
    isDouble (samples.length : ℚ) && isDouble (mean samples)

/-- The samples of a memory history converted from `long` to `double`. -/
def toDoubles (history : List Int) : List ℚ :=
  history.map (fun (v : Int) => roundFinite (v : ℚ))

/-- The last `n` elements of a list, all of it when it is shorter. -/
def lastN {α : Type} (n : Nat) (l : List α) : List α :=
  l.drop (l.length - n)


/-- The alerts one connection of a batch raises, in the order of the three
tests of `checkNetworkAnomalies`. -/
def alertsOfConnection (connection : NetworkConnection) : List AnomalyAlert :=
  (if isSuspiciousPort connection.local_port = true then
    [suspiciousLocalPortAlert connection] else []) ++
  (if isSuspiciousPort connection.remote_port = true then
    [suspiciousRemotePortAlert connection] else []) ++
  (if substr0 connection.remote_ip 3 ≠ "127" ∧
      substr0 connection.remote_ip 3 ≠ "192" ∧
      substr0 connection.remote_ip 2 ≠ "10" ∧
      substr0 connection.local_ip 3 = "192" then
    [externalConnectionAlert connection] else [])

/-- The alerts a call returns; the two `void` methods return none. -/
def opAlerts (d : AnomalyDetector) : EngineOp → List AnomalyAlert
  | .checkProcess now processes => (checkProcessAnomalies d now processes).1
  | .checkNetwork connections => (checkNetworkAnomalies d connections).1
  | .checkSystem cpu_usage memory_usage => (checkSystemAnomalies d cpu_usage memory_usage).1
  | .configure _ _ _ _ => []
  | .loadKnown _ => []

/-- The alert lists returned by a sequence of calls, one list per call. -/
def runAlerts (d : AnomalyDetector) : List EngineOp → List (List AnomalyAlert)
  | [] => []
  | op :: rest => opAlerts d op :: runAlerts (applyOp d op) rest

/-- The engine with `max_new_processes_per_minute` replaced. -/
def setProcRate (proc_rate : Int) (d : AnomalyDetector) : AnomalyDetector :=
  { d with max_new_processes_per_minute := proc_rate }

/-- The call with the `proc_rate` argument of `updateConfiguration` blanked:
two calls with the same image differ at most in that argument. -/
def eraseProcRate : EngineOp → EngineOp
  | .configure cpu_thresh mem_thresh _ conn_rate => .configure cpu_thresh mem_thresh 0 conn_rate
  | .checkProcess now processes => .checkProcess now processes
  | .checkNetwork connections => .checkNetwork connections
  | .checkSystem cpu_usage memory_usage => .checkSystem cpu_usage memory_usage
  | .loadKnown file => .loadKnown file

/-! ## The monitoring loop of main.cpp -/

/-- What the provider returns to the calls of one iteration of the monitoring
loop that read processes or connections, in call order: `updateProcessList`,
`getCurrentProcesses`, `getNewProcesses`, `getTerminatedProcesses`,
`updateConnectionList`, `getCurrentConnections`, `getNewConnections`. -/
structure CycleReads where
  update_processes : ProcSnapshot
  current_processes : ProcSnapshot
  new_processes : ProcSnapshot
  terminated_processes : ProcSnapshot
  update_connections : NetSnapshot
  current_connections : NetSnapshot
  new_connections : NetSnapshot

/-- The local variables the monitoring passes of one iteration assign. -/
structure CycleTracking where
  current_processes : List ProcessInfo
  new_processes : List ProcessInfo
  terminated_processes : List Int
  current_connections : List NetworkConnection
  new_connections : List NetworkConnection

/-- The process and network monitoring passes of one iteration of the loop of
`main` (the statements from `processMonitor.updateProcessList()` to
`networkMonitor.getNewConnections()`). -/
def monitorCycleTracking (processMonitor : ProcessMonitor) (networkMonitor : NetworkMonitor)
    (reads : CycleReads) : CycleTracking × ProcessMonitor × NetworkMonitor :=
  let pm1 := updateProcessList processMonitor reads.update_processes
  let current := getCurrentProcesses pm1 reads.current_processes
  let fresh := getNewProcesses current.2 reads.new_processes
  let terminated_processes := getTerminatedProcesses fresh.2 reads.terminated_processes
  let nm1 := updateConnectionList networkMonitor reads.update_connections
  let current_connections := getCurrentConnections reads.current_connections
  let new_connections := getNewConnections nm1 reads.new_connections
  ({ current_processes := current.1, new_processes := fresh.1,
     terminated_processes := terminated_processes,
     current_connections := current_connections, new_connections := new_connections },
   fresh.2, nm1)

/-- The reads of an iteration during which the provider returns the same
process enumeration and the same connection list to every call. -/
def steadyReads (S : ProcSnapshot) (L : NetSnapshot) : CycleReads :=
  { update_processes := S, current_processes := S, new_processes := S,
    terminated_processes := S, update_connections := L, current_connections := L,
    new_connections := L }

/-! ## Concrete inputs used by the closed statements -/

/-- A Linux read of a live process: name, cumulative ticks of the process, and
total ticks of the system at that moment. -/
def liveRead (name : String) (cpu_time total_cpu_time : Nat) : ProcRead :=
  { name := name, command := name, memory_usage := 1024, state := "S", parent_pid := 1,
    cpu_time := some cpu_time, total_cpu_time := total_cpu_time }

/-- A Linux read of a pid whose `/proc/<pid>/stat` could not be opened: every
field keeps its default and `getProcessCpuTime` returns 0. -/
def failedRead (total_cpu_time : Nat) : ProcRead :=
  { name := "Unknown", command := "Unknown", memory_usage := 0, state := "Unknown",
    parent_pid := 0, cpu_time := some 0, total_cpu_time := total_cpu_time }

/-- A TCP connection between two endpoints, in the shape the Linux branch of
`parseTcpConnections` produces. -/
def tcpConn (local_port : Int) (remote_ip : String) (remote_port : Int) : NetworkConnection :=
  { local_ip := "192.168.1.5", local_port := local_port, remote_ip := remote_ip,
    remote_port := remote_port, protocol := "TCP", state := "ESTABLISHED", pid := 0,
    process_name := "Unknown" }

/-- A first process enumeration: pids 1 and 2, both readable, the system total
at 1000 ticks. -/
def cycleOne : ProcSnapshot :=
  [{ pid := 1, read := some (liveRead "init" 100 1000) },
   { pid := 2, read := some (liveRead "worker" 200 1000) }]

/-- The next enumeration of the same two pids: each has run 250 more ticks and
the system total reads 2000 ticks at both reads. -/
def cycleTwo : ProcSnapshot :=
  [{ pid := 1, read := some (liveRead "init" 350 2000) },
   { pid := 2, read := some (liveRead "worker" 450 2000) }]

/-- The enumeration of `cycleTwo` with the system total advancing by one tick
between the two reads. -/
def cycleTwoJitter : ProcSnapshot :=
  [{ pid := 1, read := some (liveRead "init" 350 2000) },
   { pid := 2, read := some (liveRead "worker" 450 2001) }]

/-- An enumeration in which pid 2 is still listed but could not be read. -/
def cycleUnread : ProcSnapshot :=
  [{ pid := 1, read := some (liveRead "init" 350 2000) },
   { pid := 2, read := some (failedRead 2000) }]

/-- An enumeration from which pid 2 has gone. -/
def cycleGone : ProcSnapshot :=
  [{ pid := 1, read := some (liveRead "init" 350 2000) }]

/-- An enumeration with a new pid 3 and without pid 2. -/
def cycleChurn : ProcSnapshot :=
  [{ pid := 1, read := some (liveRead "init" 350 2000) },
   { pid := 3, read := some (liveRead "fresh" 5 2000) }]

/-- A monitor that has observed pid 1 at 100 ticks when the total was 1000. -/
def observedOnce : ProcessMonitor :=
  { previous_processes := [], previous_cpu_times := [(1, 100)],
    previous_total_cpu_time := 1000 }

/-- A connection snapshot holding two TCP connections. -/
def netBoth : NetSnapshot :=
  { tcp := [tcpConn 50000 "93.184.216.34" 443, tcpConn 50001 "10.0.0.7" 22], udp := [] }

/-- The snapshot `netBoth` without its first connection. -/
def netOne : NetSnapshot :=
  { tcp := [tcpConn 50001 "10.0.0.7" 22], udp := [] }

/-- A listening TCP socket on a local port. -/
def tcpListener (local_port : Int) : NetworkConnection :=
  { local_ip := "0.0.0.0", local_port := local_port, remote_ip := "0.0.0.0",
    remote_port := 0, protocol := "TCP", state := "LISTEN", pid := 0,
    process_name := "Unknown" }

/-- A UDP socket without a peer, in the shape `parseUdpConnections` produces. -/
def udpSocket (local_port : Int) : NetworkConnection :=
  { local_ip := "0.0.0.0", local_port := local_port, remote_ip := "0.0.0.0",
    remote_port := 0, protocol := "UDP", state := "ESTABLISHED", pid := 0,
    process_name := "Unknown" }

/-- A snapshot with two listeners on port 80, one on port 22, a UDP socket on
port 53 and an established TCP connection. -/
def netListening : NetSnapshot :=
  { tcp := [tcpListener 80, tcpConn 50000 "93.184.216.34" 443, tcpListener 22,
            { tcpListener 80 with local_ip := "127.0.0.1" }],
    udp := [udpSocket 53] }

/-- An engine whose CPU baseline holds ten samples of 50 and whose memory
baseline holds two samples of 1000 KB. -/
def steadyEngine : AnomalyDetector :=
  { AnomalyDetector.init 0 with
    cpu_history := [50, 50, 50, 50, 50, 50, 50, 50, 50, 50],
    memory_history := [1000, 1000] }

/-- The engine after three system passes with the CPU readings 40, 40 and 41. -/
def unevenEngine : AnomalyDetector :=
  runOps (AnomalyDetector.init 0)
    [EngineOp.checkSystem 40 1000, EngineOp.checkSystem 40 1000, EngineOp.checkSystem 41 1000]

/-- The `double` printed as 70.33333333333334, the one next above 211 / 3. -/
def readingAboveThird : ℚ :=
  2474634170247851 / 35184372088832

/-- The engine after two system passes with the memory value `2 ^ 53 + 3`. -/
def wideMemoryEngine : AnomalyDetector :=
  runOps (AnomalyDetector.init 0)
    [EngineOp.checkSystem 10 9007199254740995, EngineOp.checkSystem 10 9007199254740995]

/-- A process record with a name, a CPU share and a resident size. -/
def procOf (pid : Int) (name : String) (cpu_usage : ℚ) (memory_usage : Int) : ProcessInfo :=
  { pid := pid, name := name, command := "/usr/bin/" ++ name, cpu_usage := cpu_usage,
    memory_usage := memory_usage, state := "S", parent_pid := 1, start_time := "" }

/-- An engine whose connection counter holds the largest `int`. -/
def saturatedEngine : AnomalyDetector :=
  { AnomalyDetector.init 0 with new_connections_count := 2147483647 }

/-- An allowlist file with a comment line, an empty line and two names. -/
def allowlistLines : List String :=
  ["# trusted tools", "", "backupd", "#disabled", "metricsd"]

/-- A sequence of calls: a configuration with process rate 10, a process pass,
a network pass of 51 connections and a system pass. -/
def sampleOps : List EngineOp :=
  [EngineOp.configure 80 1048576 10 50,
   EngineOp.checkProcess 5 [procOf 21 "mystery" 95 2000000],
   EngineOp.checkNetwork (List.replicate 51 (tcpConn 4444 "8.8.8.8" 443)),
   EngineOp.checkSystem 95 1000]

/-- The sequence `sampleOps` with the process rate 1 in its configuration. -/
def sampleOpsOtherRate : List EngineOp :=
  [EngineOp.configure 80 1048576 1 50,
   EngineOp.checkProcess 5 [procOf 21 "mystery" 95 2000000],
   EngineOp.checkNetwork (List.replicate 51 (tcpConn 4444 "8.8.8.8" 443)),
   EngineOp.checkSystem 95 1000]

/-! ## Lemmas on the containers -/

theorem mapFind_eq_none_iff {V : Type} (m : List (Int × V)) (key : Int) :
    mapFind m key = none ↔ key ∉ mapKeys m := by
  induction m with
  | nil => simp [mapFind, mapKeys]
  | cons kv rest ih =>
    obtain ⟨k, v⟩ := kv
    by_cases h : k = key
    · simp [mapFind, mapKeys, h]
    · have h2 : ¬ key = k := fun e => h e.symm
      simp [mapFind, h, h2, ih, mapKeys]

theorem mapFind_isSome_iff {V : Type} (m : List (Int × V)) (key : Int) :
    (∃ v, mapFind m key = some v) ↔ key ∈ mapKeys m := by
  rw [← not_iff_not, ← mapFind_eq_none_iff]
  cases mapFind m key <;> simp

theorem mem_mapKeys_mapSet {V : Type} (m : List (Int × V)) (key : Int) (v : V) (k : Int) :
    k ∈ mapKeys (mapSet m key v) ↔ k = key ∨ k ∈ mapKeys m := by
  induction m with
  | nil => simp [mapSet, mapKeys]
  | cons kv rest ih =>
    obtain ⟨k0, w⟩ := kv
    by_cases h : k0 = key
    · subst h
      simp [mapSet, mapKeys]
    · simp only [mapSet, h, if_false, mapKeys, List.map_cons, List.mem_cons] at ih ⊢
      rw [ih]
      tauto

theorem mapFind_mapSet_self {V : Type} (m : List (Int × V)) (key : Int) (v : V) :
    mapFind (mapSet m key v) key = some v := by
  induction m with
  | nil => simp [mapSet, mapFind]
  | cons kv rest ih =>
    obtain ⟨k0, w⟩ := kv
    by_cases h : k0 = key
    · simp [mapSet, mapFind, h]
    · simp [mapSet, mapFind, h, ih]

theorem mapFind_mapSet_of_ne {V : Type} (m : List (Int × V)) (key : Int) (v : V) (k : Int)
    (hk : k ≠ key) : mapFind (mapSet m key v) k = mapFind m k := by
  induction m with
  | nil =>
    have h2 : ¬ key = k := fun e => hk e.symm
    simp [mapSet, mapFind, h2]
  | cons kv rest ih =>
    obtain ⟨k0, w⟩ := kv
    by_cases h : k0 = key
    · subst h
      have h2 : ¬ k0 = k := fun e => hk e.symm
      simp [mapSet, mapFind, h2]
    · by_cases h3 : k0 = k
      · subst h3
        simp [mapSet, mapFind, h]
      · simp [mapSet, mapFind, h, h3, ih]

/-! ## Lemmas on binary64 arithmetic -/

theorem roundToDouble_of_isDouble (q : ℚ) (h : isDouble q = true) :
    roundToDouble q = DoubleResult.finite q := by
  simpa [isDouble] using h

theorem roundFinite_of_isDouble (q : ℚ) (h : isDouble q = true) : roundFinite q = q := by
  have h1 := roundToDouble_of_isDouble q h
  unfold roundToDouble at h1
  dsimp only at h1
  split at h1
  · exact absurd h1 (by simp)
  · split at h1
    · exact absurd h1 (by simp)
    · exact DoubleResult.finite.inj h1

theorem pow2_eq_zpow (e : Int) : pow2 e = (2 : ℚ) ^ e := by
  unfold pow2
  split
  · next h =>
    obtain ⟨n, rfl⟩ := Int.eq_ofNat_of_zero_le h
    simp
  · next h =>
    have h' : 0 ≤ -e := by omega
    obtain ⟨n, hn⟩ := Int.eq_ofNat_of_zero_le h'
    have he : e = -(n : Int) := by omega
    subst he
    simp

theorem log2Loop_spec (fuel : Nat) : ∀ n : Nat, n ≤ fuel → 0 < n →
    2 ^ log2Loop fuel n ≤ n ∧ n < 2 ^ (log2Loop fuel n + 1) := by
  induction fuel with
  | zero => intro n h hn; omega
  | succ f ih =>
    intro n h hn
    unfold log2Loop
    split
    · next h2 =>
      have hdiv : n / 2 ≤ f := by omega
      have hpos : 0 < n / 2 := by omega
      obtain ⟨l, r⟩ := ih (n / 2) hdiv hpos
      constructor
      · rw [pow_succ]; omega
      · rw [pow_succ]; omega
    · next h2 =>
      have : n = 1 := by omega
      subst this
      simp

/-- The function `log2` returns the position of the leading binary digit. -/
theorem log2_spec (n : Nat) (hn : 0 < n) : 2 ^ log2 n ≤ n ∧ n < 2 ^ (log2 n + 1) :=
  log2Loop_spec n n (Nat.le_refl n) hn

theorem abs_eq_natAbs_div_den (q : ℚ) : |q| = (q.num.natAbs : ℚ) / (q.den : ℚ) := by
  have hden : (0 : ℚ) < q.den := by exact_mod_cast q.den_pos
  conv_lhs => rw [← Rat.num_div_den q]
  rw [abs_div, abs_of_pos hden]
  rw [Nat.cast_natAbs, Int.cast_abs]

/-- The function `binaryExponent` returns the exponent of the binade of `q`. -/
theorem binaryExponent_spec (q : ℚ) (hq : q ≠ 0) :
    (2 : ℚ) ^ binaryExponent q ≤ |q| ∧ |q| < (2 : ℚ) ^ (binaryExponent q + 1) := by
  have hnum : 0 < q.num.natAbs := Int.natAbs_pos.2 (Rat.num_ne_zero.2 hq)
  obtain ⟨a1, a2⟩ := log2_spec q.num.natAbs hnum
  obtain ⟨b1, b2⟩ := log2_spec q.den q.den_pos
  have hden : (0 : ℚ) < q.den := by exact_mod_cast q.den_pos
  have a1' : (2 : ℚ) ^ (log2 q.num.natAbs : Int) ≤ (q.num.natAbs : ℚ) := by
    rw [zpow_natCast]; exact_mod_cast a1
  have a2' : (q.num.natAbs : ℚ) < (2 : ℚ) ^ ((log2 q.num.natAbs : Int) + 1) := by
    rw [show ((log2 q.num.natAbs : Int) + 1) = ((log2 q.num.natAbs + 1 : Nat) : Int) by simp,
      zpow_natCast]
    exact_mod_cast a2
  have b1' : (2 : ℚ) ^ (log2 q.den : Int) ≤ (q.den : ℚ) := by
    rw [zpow_natCast]; exact_mod_cast b1
  have b2' : (q.den : ℚ) < (2 : ℚ) ^ ((log2 q.den : Int) + 1) := by
    rw [show ((log2 q.den : Int) + 1) = ((log2 q.den + 1 : Nat) : Int) by simp, zpow_natCast]
    exact_mod_cast b2
  have h2 : (0 : ℚ) < 2 := by norm_num
  have habs := abs_eq_natAbs_div_den q
  unfold binaryExponent
  dsimp only
  rw [pow2_eq_zpow]
  split
  · next hle =>
    refine ⟨hle, ?_⟩
    rw [habs, div_lt_iff₀ hden]
    calc (q.num.natAbs : ℚ) < (2 : ℚ) ^ ((log2 q.num.natAbs : Int) + 1) := a2'
      _ = (2 : ℚ) ^ ((log2 q.num.natAbs : Int) - (log2 q.den : Int) + 1) *
            (2 : ℚ) ^ (log2 q.den : Int) := by
          rw [← zpow_add₀ (by norm_num : (2 : ℚ) ≠ 0)]; congr 1; ring
      _ ≤ (2 : ℚ) ^ ((log2 q.num.natAbs : Int) - (log2 q.den : Int) + 1) * (q.den : ℚ) :=
          mul_le_mul_of_nonneg_left b1' (le_of_lt (zpow_pos h2 _))
  · next hnle =>
    constructor
    · rw [habs, le_div_iff₀ hden]
      calc (2 : ℚ) ^ ((log2 q.num.natAbs : Int) - (log2 q.den : Int) - 1) * (q.den : ℚ)
          ≤ (2 : ℚ) ^ ((log2 q.num.natAbs : Int) - (log2 q.den : Int) - 1) *
              (2 : ℚ) ^ ((log2 q.den : Int) + 1) :=
            mul_le_mul_of_nonneg_left (le_of_lt b2') (le_of_lt (zpow_pos h2 _))
        _ = (2 : ℚ) ^ (log2 q.num.natAbs : Int) := by
            rw [← zpow_add₀ (by norm_num : (2 : ℚ) ≠ 0)]; congr 1; ring
        _ ≤ (q.num.natAbs : ℚ) := a1'
    · rw [sub_add_cancel]
      exact lt_of_not_le hnle

/-- Rounding to an integer moves a value by at most one half. -/
theorem roundHalfEven_abs_sub_le (y : ℚ) : |(roundHalfEven y : ℚ) - y| ≤ 1 / 2 := by
  have h1 : ((⌊y⌋ : Int) : ℚ) ≤ y := Int.floor_le y
  have h2 : y < ((⌊y⌋ : Int) : ℚ) + 1 := Int.lt_floor_add_one y
  unfold roundHalfEven
  dsimp only
  rw [abs_le]
  split
  · constructor <;> linarith
  · split
    · push_cast; constructor <;> linarith
    · split
      · constructor <;> linarith
      · push_cast; constructor <;> linarith


/-- In the normal range, rounding to `double` moves a value by at most the
fraction `2 ^ -53` of its magnitude. -/
theorem roundFinite_abs_sub_le (q : ℚ) (hq : (2 : ℚ) ^ (-1022 : Int) ≤ |q|) :
    |roundFinite q - q| ≤ |q| / 2 ^ 53 := by
  have h2 : (0 : ℚ) < 2 := by norm_num
  have hq0 : q ≠ 0 := by
    intro h
    rw [h, abs_zero] at hq
    exact absurd hq (not_le.2 (zpow_pos h2 _))
  obtain ⟨k1, k2⟩ := binaryExponent_spec q hq0
  have hk : (-1022 : Int) < binaryExponent q + 1 := by
    have := lt_of_le_of_lt hq k2
    exact (zpow_lt_zpow_iff_right₀ (by norm_num : (1 : ℚ) < 2)).1 this
  have he : max (binaryExponent q - 52) (-1074) = binaryExponent q - 52 := by
    apply max_eq_left
    omega
  unfold roundFinite
  dsimp only
  rw [he, pow2_eq_zpow]
  have hp : (0 : ℚ) < (2 : ℚ) ^ (binaryExponent q - 52) := zpow_pos h2 _
  have hr := roundHalfEven_abs_sub_le (q / (2 : ℚ) ^ (binaryExponent q - 52))
  have heq : (roundHalfEven (q / (2 : ℚ) ^ (binaryExponent q - 52)) : ℚ) *
        (2 : ℚ) ^ (binaryExponent q - 52) - q =
      ((roundHalfEven (q / (2 : ℚ) ^ (binaryExponent q - 52)) : ℚ) -
        q / (2 : ℚ) ^ (binaryExponent q - 52)) * (2 : ℚ) ^ (binaryExponent q - 52) := by
    field_simp
  rw [heq, abs_mul, abs_of_pos hp]
  have hsplit : (2 : ℚ) ^ (binaryExponent q) =
      (2 : ℚ) ^ (binaryExponent q - 52) * 2 ^ 52 := by
    rw [← zpow_natCast (2 : ℚ) 52, ← zpow_add₀ (by norm_num : (2 : ℚ) ≠ 0)]
    congr 1
    ring
  calc |(roundHalfEven (q / (2 : ℚ) ^ (binaryExponent q - 52)) : ℚ) -
          q / (2 : ℚ) ^ (binaryExponent q - 52)| * (2 : ℚ) ^ (binaryExponent q - 52)
      ≤ 1 / 2 * (2 : ℚ) ^ (binaryExponent q - 52) :=
        mul_le_mul_of_nonneg_right hr (le_of_lt hp)
    _ = (2 : ℚ) ^ (binaryExponent q) / 2 ^ 53 := by
        rw [hsplit]; ring
    _ ≤ |q| / 2 ^ 53 := by
        apply div_le_div_of_nonneg_right k1
        positivity

theorem roundFinite_zero : roundFinite 0 = 0 := by decide!

theorem roundFinite_bounds (q : ℚ) (hq : (2 : ℚ) ^ (-1022 : Int) ≤ q) :
    (1 - 1 / 2 ^ 53) * q ≤ roundFinite q ∧ roundFinite q ≤ (1 + 1 / 2 ^ 53) * q := by
  have hpos : 0 < q := lt_of_lt_of_le (zpow_pos (by norm_num) _) hq
  have h := roundFinite_abs_sub_le q (by rwa [abs_of_pos hpos])
  rw [abs_of_pos hpos, abs_le] at h
  constructor <;> linarith [h.1, h.2]

/-- The three roundings of the conversion, the division and the multiplication
by 100 move the result by at most the fraction `2 ^ -50` of the exact value. -/
theorem cpuPercent_error (cpu_time_delta total_cpu_time_delta : Nat)
    (h0 : 0 < total_cpu_time_delta) (h64 : total_cpu_time_delta < 2 ^ 64) :
    |roundFinite (roundFinite (roundFinite (cpu_time_delta : ℚ) /
          roundFinite (total_cpu_time_delta : ℚ)) * 100) -
        100 * (cpu_time_delta : ℚ) / (total_cpu_time_delta : ℚ)| ≤
      100 * (cpu_time_delta : ℚ) / (total_cpu_time_delta : ℚ) / 2 ^ 50 := by
  rcases Nat.eq_zero_or_pos cpu_time_delta with hz | hpos
  · subst hz
    simp [roundFinite_zero]
  · have hd1 : (1 : ℚ) ≤ (cpu_time_delta : ℚ) := by exact_mod_cast hpos
    have ht1 : (1 : ℚ) ≤ (total_cpu_time_delta : ℚ) := by exact_mod_cast h0
    have ht64 : (total_cpu_time_delta : ℚ) ≤ 2 ^ 64 := by exact_mod_cast (le_of_lt h64)
    have hsmall : (2 : ℚ) ^ (-1022 : Int) ≤ 1 / 2 ^ 70 := by
      rw [one_div, ← zpow_natCast (2 : ℚ) 70, ← zpow_neg]
      exact zpow_le_zpow_right₀ (by norm_num) (by norm_num)
    have hs1 : (1 : ℚ) / 2 ^ 70 ≤ 1 := by norm_num
    have rb : ∀ q : ℚ, 1 / 2 ^ 70 ≤ q →
        (1 - 1 / 2 ^ 53) * q ≤ roundFinite q ∧ roundFinite q ≤ (1 + 1 / 2 ^ 53) * q :=
      fun q hq => roundFinite_bounds q (le_trans hsmall hq)
    clear hsmall
    obtain ⟨a1, a2⟩ := rb (cpu_time_delta : ℚ) (le_trans hs1 hd1)
    obtain ⟨b1, b2⟩ := rb (total_cpu_time_delta : ℚ) (le_trans hs1 ht1)
    set a := roundFinite (cpu_time_delta : ℚ) with ha
    set b := roundFinite (total_cpu_time_delta : ℚ) with hb
    set x := (cpu_time_delta : ℚ) with hx
    set t := (total_cpu_time_delta : ℚ) with ht
    have hxpos : 0 < x := by linarith
    have htpos : 0 < t := by linarith
    have hapos : 0 < a := lt_of_lt_of_le (by positivity) a1
    have hbpos : 0 < b := lt_of_lt_of_le (by positivity) b1
    have hlow : 0 < (1 - 1 / 2 ^ 53 : ℚ) * t := by positivity
    have hq1u : a / b ≤ ((1 + 1 / 2 ^ 53) * x) / ((1 - 1 / 2 ^ 53) * t) :=
      div_le_div₀ (by positivity) a2 hlow b1
    have hq1l : ((1 - 1 / 2 ^ 53) * x) / ((1 + 1 / 2 ^ 53) * t) ≤ a / b :=
      div_le_div₀ (le_of_lt hapos) a1 hbpos b2
    have hr : 0 < x / t := div_pos hxpos htpos
    have hq1u' : a / b ≤ ((1 + 1 / 2 ^ 53) / (1 - 1 / 2 ^ 53)) * (x / t) := by
      rw [div_mul_div_comm]; exact hq1u
    have hq1l' : ((1 - 1 / 2 ^ 53) / (1 + 1 / 2 ^ 53)) * (x / t) ≤ a / b := by
      rw [div_mul_div_comm]; exact hq1l
    have hrl : (1 : ℚ) / 2 ^ 64 ≤ x / t := by
      rw [div_le_div_iff₀ (by positivity) htpos]
      have := mul_le_mul_of_nonneg_right hd1 (by norm_num : (0 : ℚ) ≤ 2 ^ 64)
      linarith
    have hq1 : (1 : ℚ) / 2 ^ 70 ≤ a / b := by
      refine le_trans ?_ hq1l'
      have : ((1 - 1 / 2 ^ 53) / (1 + 1 / 2 ^ 53) : ℚ) * (1 / 2 ^ 64) ≤
          ((1 - 1 / 2 ^ 53) / (1 + 1 / 2 ^ 53)) * (x / t) :=
        mul_le_mul_of_nonneg_left hrl (by norm_num)
      refine le_trans ?_ this
      norm_num
    obtain ⟨c1, c2⟩ := rb (a / b) hq1
    set q2 := roundFinite (a / b) with hq2
    have hq1pos : 0 < a / b := div_pos hapos hbpos
    have hq2pos : 0 < q2 := lt_of_lt_of_le (by positivity) c1
    have hq2low : (1 : ℚ) / 2 ^ 70 ≤ q2 * 100 := by
      have : (1 : ℚ) / 2 ^ 70 ≤ q2 := by
        refine le_trans ?_ c1
        have h3 : ((1 - 1 / 2 ^ 53 : ℚ)) * (((1 - 1 / 2 ^ 53) / (1 + 1 / 2 ^ 53)) * (1 / 2 ^ 64)) ≤
            (1 - 1 / 2 ^ 53) * (a / b) :=
          mul_le_mul_of_nonneg_left
            (le_trans (mul_le_mul_of_nonneg_left hrl (by norm_num)) hq1l') (by norm_num)
        refine le_trans ?_ h3
        norm_num
      linarith
    obtain ⟨d1, d2⟩ := rb (q2 * 100) hq2low
    set q3 := roundFinite (q2 * 100) with hq3
    have hup : q3 ≤ (1 + 1 / 2 ^ 50) * (100 * (x / t)) := by
      have s1 : q2 ≤ (1 + 1 / 2 ^ 53) * (((1 + 1 / 2 ^ 53) / (1 - 1 / 2 ^ 53)) * (x / t)) :=
        le_trans c2 (mul_le_mul_of_nonneg_left hq1u' (by norm_num))
      have s2 : q3 ≤ (1 + 1 / 2 ^ 53) *
          (((1 + 1 / 2 ^ 53) * (((1 + 1 / 2 ^ 53) / (1 - 1 / 2 ^ 53)) * (x / t))) * 100) :=
        le_trans d2 (mul_le_mul_of_nonneg_left
          (mul_le_mul_of_nonneg_right s1 (by norm_num)) (by norm_num))
      refine le_trans s2 ?_
      have e : (1 + 1 / 2 ^ 53 : ℚ) *
          (((1 + 1 / 2 ^ 53) * (((1 + 1 / 2 ^ 53) / (1 - 1 / 2 ^ 53)) * (x / t))) * 100) =
          ((1 + 1 / 2 ^ 53) * (1 + 1 / 2 ^ 53) * ((1 + 1 / 2 ^ 53) / (1 - 1 / 2 ^ 53))) *
            (100 * (x / t)) := by ring
      rw [e]
      exact mul_le_mul_of_nonneg_right (by norm_num) (by positivity)
    have hdown : (1 - 1 / 2 ^ 50) * (100 * (x / t)) ≤ q3 := by
      have s1 : (1 - 1 / 2 ^ 53) * (((1 - 1 / 2 ^ 53) / (1 + 1 / 2 ^ 53)) * (x / t)) ≤ q2 :=
        le_trans (mul_le_mul_of_nonneg_left hq1l' (by norm_num)) c1
      have s2 : (1 - 1 / 2 ^ 53) *
          (((1 - 1 / 2 ^ 53) * (((1 - 1 / 2 ^ 53) / (1 + 1 / 2 ^ 53)) * (x / t))) * 100) ≤ q3 :=
        le_trans (mul_le_mul_of_nonneg_left
          (mul_le_mul_of_nonneg_right s1 (by norm_num)) (by norm_num)) d1
      refine le_trans ?_ s2
      have e : (1 - 1 / 2 ^ 53 : ℚ) *
          (((1 - 1 / 2 ^ 53) * (((1 - 1 / 2 ^ 53) / (1 + 1 / 2 ^ 53)) * (x / t))) * 100) =
          ((1 - 1 / 2 ^ 53) * (1 - 1 / 2 ^ 53) * ((1 - 1 / 2 ^ 53) / (1 + 1 / 2 ^ 53))) *
            (100 * (x / t)) := by ring
      rw [e]
      exact mul_le_mul_of_nonneg_right (by norm_num) (by positivity)
    rw [abs_le]
    have e1 : 100 * x / t = 100 * (x / t) := by ring
    rw [e1]
    constructor <;> linarith

theorem roundHalfEven_intCast (z : Int) : roundHalfEven (z : ℚ) = z := by
  unfold roundHalfEven
  simp

/-- An integer below `2 ^ 53` in magnitude is a `double`: its conversion is exact. -/
theorem roundFinite_intCast (n : Int) (h : |n| < 2 ^ 53) : roundFinite (n : ℚ) = n := by
  rcases eq_or_ne n 0 with h0 | h0
  · subst h0
    simpa using roundFinite_zero
  · have hq0 : (n : ℚ) ≠ 0 := by exact_mod_cast h0
    obtain ⟨k1, k2⟩ := binaryExponent_spec (n : ℚ) hq0
    have habs : |(n : ℚ)| = ((|n| : Int) : ℚ) := by rw [Int.cast_abs]
    have h1 : (1 : ℚ) ≤ |(n : ℚ)| := by
      rw [habs]
      exact_mod_cast Int.one_le_abs h0
    have h53 : |(n : ℚ)| < (2 : ℚ) ^ (53 : Int) := by
      rw [habs]
      have : ((|n| : Int) : ℚ) < ((2 ^ 53 : Int) : ℚ) := by exact_mod_cast h
      have e : (2 : ℚ) ^ (53 : Int) = ((2 ^ 53 : Int) : ℚ) := by norm_num
      rw [e]
      exact this
    have hk0 : 0 ≤ binaryExponent (n : ℚ) := by
      have : (2 : ℚ) ^ (0 : Int) < (2 : ℚ) ^ (binaryExponent (n : ℚ) + 1) := by
        rw [zpow_zero]; exact lt_of_le_of_lt h1 k2
      have := (zpow_lt_zpow_iff_right₀ (by norm_num : (1 : ℚ) < 2)).1 this
      omega
    have hk52 : binaryExponent (n : ℚ) ≤ 52 := by
      have : (2 : ℚ) ^ (binaryExponent (n : ℚ)) < (2 : ℚ) ^ (53 : Int) := lt_of_le_of_lt k1 h53
      have := (zpow_lt_zpow_iff_right₀ (by norm_num : (1 : ℚ) < 2)).1 this
      omega
    have he : max (binaryExponent (n : ℚ) - 52) (-1074) = binaryExponent (n : ℚ) - 52 := by
      apply max_eq_left
      omega
    obtain ⟨j, hj⟩ := Int.eq_ofNat_of_zero_le (by omega : 0 ≤ 52 - binaryExponent (n : ℚ))
    have hexp : binaryExponent (n : ℚ) - 52 = -(j : Int) := by omega
    unfold roundFinite
    dsimp only
    rw [he, pow2_eq_zpow, hexp, zpow_neg, zpow_natCast]
    have hy : (n : ℚ) / ((2 : ℚ) ^ j)⁻¹ = ((n * 2 ^ j : Int) : ℚ) := by
      push_cast
      field_simp
    rw [hy, roundHalfEven_intCast]
    push_cast
    field_simp

/-- Rounding to an integer returns `Z` within one half of `Z`, a tie included
when `Z` is even. -/
theorem roundHalfEven_near (Z : Int) (θ : ℚ)
    (h : |θ| < 1 / 2 ∨ (|θ| = 1 / 2 ∧ Z % 2 = 0)) :
    roundHalfEven ((Z : ℚ) + θ) = Z := by
  have hle : |θ| ≤ 1 / 2 := by
    rcases h with h | h
    · exact le_of_lt h
    · exact le_of_eq h.1
  have hb := abs_le.1 hle
  by_cases hθ : 0 ≤ θ
  · have hfl : ⌊(Z : ℚ) + θ⌋ = Z := by
      rw [Int.floor_eq_iff]
      constructor <;> linarith [hb.2]
    unfold roundHalfEven
    dsimp only
    rw [hfl]
    rcases h with h | h
    · rw [abs_of_nonneg hθ] at h
      rw [if_pos (by linarith)]
    · rw [abs_of_nonneg hθ] at h
      rw [if_neg (by linarith [h.1]), if_neg (by linarith [h.1]), if_pos h.2]
  · have hθ' : θ < 0 := lt_of_not_le hθ
    have hfl : ⌊(Z : ℚ) + θ⌋ = Z - 1 := by
      rw [Int.floor_eq_iff]
      push_cast
      constructor <;> linarith [hb.1]
    unfold roundHalfEven
    dsimp only
    rw [hfl]
    push_cast
    rcases h with h | h
    · rw [abs_of_neg hθ'] at h
      rw [if_neg (by linarith), if_pos (by linarith)]
      ring
    · rw [abs_of_neg hθ'] at h
      have hodd : ¬ ((Z - 1) % 2 = 0) := by omega
      rw [if_neg (by linarith [h.1]), if_neg (by linarith [h.1]), if_neg hodd]
      ring

theorem roundFinite_near (x : ℚ) (Z : Int) (θ : ℚ) (hnorm : -1022 ≤ binaryExponent x)
    (hrep : x = ((Z : ℚ) + θ) * (2 : ℚ) ^ (binaryExponent x - 52))
    (hθ : |θ| < 1 / 2 ∨ (|θ| = 1 / 2 ∧ Z % 2 = 0)) :
    roundFinite x = (Z : ℚ) * (2 : ℚ) ^ (binaryExponent x - 52) := by
  have he : max (binaryExponent x - 52) (-1074) = binaryExponent x - 52 := by
    apply max_eq_left
    omega
  have hE : (2 : ℚ) ^ (binaryExponent x - 52) ≠ 0 := ne_of_gt (zpow_pos (by norm_num) _)
  have hdiv : x / (2 : ℚ) ^ (binaryExponent x - 52) = (Z : ℚ) + θ := by
    rw [div_eq_iff hE]
    exact hrep
  unfold roundFinite
  dsimp only
  rw [he, pow2_eq_zpow, hdiv, roundHalfEven_near Z θ hθ]

theorem binaryExponent_between (x : ℚ) (k : Int) (hx0 : x ≠ 0)
    (h1 : (2 : ℚ) ^ k ≤ |x|) (h2 : |x| < (2 : ℚ) ^ (k + 2)) :
    binaryExponent x = k ∨ binaryExponent x = k + 1 := by
  obtain ⟨s1, s2⟩ := binaryExponent_spec x hx0
  have a := (zpow_lt_zpow_iff_right₀ (by norm_num : (1 : ℚ) < 2)).1 (lt_of_le_of_lt h1 s2)
  have b := (zpow_lt_zpow_iff_right₀ (by norm_num : (1 : ℚ) < 2)).1 (lt_of_le_of_lt s1 h2)
  omega

theorem roundFinite_near_int (m : Int) (k : Int) (j : ℕ) (hkj : k - 52 = -((j : Int) + 1))
    (hk : -1022 ≤ k) (h1 : 3 / 2 * (2 : ℚ) ^ k ≤ (m : ℚ)) (h2 : (m : ℚ) < 3 * (2 : ℚ) ^ k)
    (x : ℚ)
    (hx : x = (m : ℚ) - (2 : ℚ) ^ (k - 52) / 2 ∨ x = (m : ℚ) + (2 : ℚ) ^ (k - 52) / 2) :
    roundFinite x = (m : ℚ) := by
  have hA : (0 : ℚ) < (2 : ℚ) ^ k := zpow_pos (by norm_num) _
  have hEA : (2 : ℚ) ^ (k - 52) = (2 : ℚ) ^ k / 2 ^ 52 := by
    rw [zpow_sub₀ (by norm_num : (2 : ℚ) ≠ 0)]
    norm_num
  have hEP : (2 : ℚ) ^ (k - 52) * 2 ^ (j + 1) = 1 := by
    rw [hkj, zpow_neg, show ((j : Int) + 1) = ((j + 1 : ℕ) : Int) by simp, zpow_natCast]
    exact inv_mul_cancel₀ (by positivity)
  have hE2 : (2 : ℚ) ^ (k + 1 - 52) = 2 * (2 : ℚ) ^ (k - 52) := by
    rw [show k + 1 - 52 = (k - 52) + 1 by ring, zpow_add_one₀ (by norm_num : (2 : ℚ) ≠ 0)]
    ring
  have hA2 : (2 : ℚ) ^ (k + 2) = 4 * (2 : ℚ) ^ k := by
    rw [zpow_add₀ (by norm_num : (2 : ℚ) ≠ 0)]
    norm_num
    ring
  set A : ℚ := (2 : ℚ) ^ k with hAdef
  set E : ℚ := (2 : ℚ) ^ (k - 52) with hEdef
  have hEpos : 0 < E := zpow_pos (by norm_num) _
  have hxlo : A ≤ x := by
    rcases hx with hx | hx <;> rw [hx, hEA] <;> linarith
  have hxhi : x < 4 * A := by
    rcases hx with hx | hx <;> rw [hx, hEA] <;> linarith
  have hxpos : 0 < x := lt_of_lt_of_le hA hxlo
  have hx0 : x ≠ 0 := ne_of_gt hxpos
  have hbet := binaryExponent_between x k hx0 (by rw [abs_of_pos hxpos]; exact hxlo)
    (by rw [abs_of_pos hxpos, hA2]; exact hxhi)
  have hP : E * (2 : ℚ) ^ (j + 1) = 1 := hEP
  rcases hbet with hkx | hkx
  · have hev : (m * 2 ^ (j + 1)) % 2 = 0 := by
      rw [pow_succ, ← mul_assoc]
      exact Int.mul_emod_left _ _
    rcases hx with hx | hx
    · have := roundFinite_near x (m * 2 ^ (j + 1)) (-(1 / 2)) (by rw [hkx]; omega)
        (by
          rw [hkx, hx]
          push_cast
          have : (m : ℚ) * 2 ^ (j + 1) * E = m := by rw [mul_assoc, mul_comm _ E, hP, mul_one]
          linear_combination (-1 : ℚ) * this)
        (Or.inr ⟨by rw [abs_neg]; norm_num, hev⟩)
      rw [this, hkx]
      push_cast
      rw [mul_assoc, mul_comm _ E, hP, mul_one]
    · have := roundFinite_near x (m * 2 ^ (j + 1)) (1 / 2) (by rw [hkx]; omega)
        (by
          rw [hkx, hx]
          push_cast
          have : (m : ℚ) * 2 ^ (j + 1) * E = m := by rw [mul_assoc, mul_comm _ E, hP, mul_one]
          linear_combination (-1 : ℚ) * this)
        (Or.inr ⟨by norm_num, hev⟩)
      rw [this, hkx]
      push_cast
      rw [mul_assoc, mul_comm _ E, hP, mul_one]
  · have hP' : (m : ℚ) * 2 ^ j * (2 * E) = m := by
      have : (m : ℚ) * 2 ^ j * (2 * E) = m * (E * 2 ^ (j + 1)) := by rw [pow_succ]; ring
      rw [this, hP, mul_one]
    rcases hx with hx | hx
    · have := roundFinite_near x (m * 2 ^ j) (-(1 / 4)) (by rw [hkx]; omega)
        (by
          rw [hkx, hx, hE2]
          push_cast
          linear_combination (-1 : ℚ) * hP')
        (Or.inl (by rw [abs_neg, abs_of_pos (by norm_num : (0 : ℚ) < 1 / 4)]; norm_num))
      rw [this, hkx, hE2]
      push_cast
      exact hP'
    · have := roundFinite_near x (m * 2 ^ j) (1 / 4) (by rw [hkx]; omega)
        (by
          rw [hkx, hx, hE2]
          push_cast
          linear_combination (-1 : ℚ) * hP')
        (Or.inl (by rw [abs_of_pos (by norm_num : (0 : ℚ) < 1 / 4)]; norm_num))
      rw [this, hkx, hE2]
      push_cast
      exact hP'

/-- For an integer `0 < m < 2 ^ 50`, rounding `2 * m / 3` and rounding its
product with 1.5 returns `m`. -/
theorem roundFinite_two_thirds (m : Int) (hm : 0 < m) (hm50 : m < 2 ^ 50) :
    roundFinite (roundFinite (2 * (m : ℚ) / 3) * (3 / 2)) = (m : ℚ) := by
  have hmq : (1 : ℚ) ≤ (m : ℚ) := by exact_mod_cast hm
  have hm50q : (m : ℚ) < 2 ^ 50 := by exact_mod_cast hm50
  by_cases h3 : (3 : Int) ∣ m
  · obtain ⟨c, rfl⟩ := h3
    have e1 : 2 * ((3 * c : Int) : ℚ) / 3 = ((2 * c : Int) : ℚ) := by push_cast; ring
    rw [e1, roundFinite_intCast (2 * c) (by rw [abs_of_nonneg (by omega)]; omega)]
    have e2 : ((2 * c : Int) : ℚ) * (3 / 2) = ((3 * c : Int) : ℚ) := by push_cast; ring
    rw [e2, roundFinite_intCast (3 * c) (by rw [abs_of_nonneg (by omega)]; omega)]
  · have hqpos : (0 : ℚ) < 2 * (m : ℚ) / 3 := by positivity
    have hq0 : 2 * (m : ℚ) / 3 ≠ 0 := ne_of_gt hqpos
    obtain ⟨s1, s2⟩ := binaryExponent_spec (2 * (m : ℚ) / 3) hq0
    rw [abs_of_pos hqpos] at s1 s2
    obtain ⟨k, hk⟩ : ∃ k, binaryExponent (2 * (m : ℚ) / 3) = k := ⟨_, rfl⟩
    rw [hk] at s1 s2
    have hk49 : k ≤ 49 := by
      have h50 : 2 * (m : ℚ) / 3 < (2 : ℚ) ^ (50 : Int) := by
        have : (2 : ℚ) ^ (50 : Int) = 2 ^ 50 := by norm_num
        rw [this]
        linarith
      have := (zpow_lt_zpow_iff_right₀ (by norm_num : (1 : ℚ) < 2)).1 (lt_of_le_of_lt s1 h50)
      omega
    have hk1 : -1 ≤ k := by
      have h23 : (2 : ℚ) ^ (-1 : Int) < 2 * (m : ℚ) / 3 := by
        have : (2 : ℚ) ^ (-1 : Int) = 1 / 2 := by norm_num
        rw [this]
        linarith
      have := (zpow_lt_zpow_iff_right₀ (by norm_num : (1 : ℚ) < 2)).1 (lt_trans h23 s2)
      omega
    obtain ⟨j, hj⟩ := Int.eq_ofNat_of_zero_le (by omega : 0 ≤ 51 - k)
    have hkj : k - 52 = -((j : Int) + 1) := by omega
    have hEP : (2 : ℚ) ^ (k - 52) * 2 ^ (j + 1) = 1 := by
      rw [hkj, zpow_neg, show ((j : Int) + 1) = ((j + 1 : ℕ) : Int) by simp, zpow_natCast]
      exact inv_mul_cancel₀ (by positivity)
    have hs2 : (2 : ℚ) ^ (k + 1) = 2 * (2 : ℚ) ^ k := by
      rw [zpow_add_one₀ (by norm_num : (2 : ℚ) ≠ 0)]
      ring
    rw [hs2] at s2
    have hN3 : ¬ (3 : Int) ∣ 2 * m * 2 ^ (j + 1) := by
      intro hd
      rcases Int.prime_three.dvd_mul.1 hd with hd | hd
      · rcases Int.prime_three.dvd_mul.1 hd with hd | hd
        · exact absurd hd (by decide)
        · exact h3 hd
      · exact absurd (Int.prime_three.dvd_of_dvd_pow hd) (by decide)
    have hNq : ((2 * m * 2 ^ (j + 1) : Int) : ℚ) / 3 * (2 : ℚ) ^ (k - 52) = 2 * (m : ℚ) / 3 := by
      push_cast
      have : 2 * (m : ℚ) * 2 ^ (j + 1) / 3 * (2 : ℚ) ^ (k - 52) =
          2 * (m : ℚ) / 3 * ((2 : ℚ) ^ (k - 52) * 2 ^ (j + 1)) := by ring
      rw [this, hEP, mul_one]
    have hdiv := Int.emod_add_ediv (2 * m * 2 ^ (j + 1)) 3
    have hcase : (2 * m * 2 ^ (j + 1)) % 3 = 1 ∨ (2 * m * 2 ^ (j + 1)) % 3 = 2 := by omega
    have hR := roundFinite_near_int m k j hkj (by omega) (by linarith) (by linarith)
    rcases hcase with hc | hc
    · have hNa : ((2 * m * 2 ^ (j + 1) : Int) : ℚ) =
          3 * (((2 * m * 2 ^ (j + 1)) / 3 : Int) : ℚ) + 1 := by
        have : 2 * m * 2 ^ (j + 1) = 3 * ((2 * m * 2 ^ (j + 1)) / 3) + 1 := by omega
        exact_mod_cast this
      have havg := roundFinite_near (2 * (m : ℚ) / 3) ((2 * m * 2 ^ (j + 1)) / 3) (1 / 3)
        (by rw [hk]; omega)
        (by
          rw [hk, ← hNq, hNa]
          ring)
        (Or.inl (by rw [abs_of_pos (by norm_num : (0 : ℚ) < 1 / 3)]; norm_num))
      rw [hk] at havg
      rw [havg]
      apply hR
      left
      have h3a : 3 * (((2 * m * 2 ^ (j + 1)) / 3 : Int) : ℚ) =
          2 * (m : ℚ) * 2 ^ (j + 1) - 1 := by
        have := hNa
        push_cast at this
        linarith
      have : (((2 * m * 2 ^ (j + 1)) / 3 : Int) : ℚ) * (2 : ℚ) ^ (k - 52) * (3 / 2) =
          (3 * (((2 * m * 2 ^ (j + 1)) / 3 : Int) : ℚ)) * (2 : ℚ) ^ (k - 52) / 2 := by ring
      rw [this, h3a]
      linear_combination (m : ℚ) * hEP
    · have hNa : ((2 * m * 2 ^ (j + 1) : Int) : ℚ) =
          3 * (((2 * m * 2 ^ (j + 1)) / 3 + 1 : Int) : ℚ) - 1 := by
        have : 2 * m * 2 ^ (j + 1) = 3 * ((2 * m * 2 ^ (j + 1)) / 3 + 1) - 1 := by omega
        exact_mod_cast this
      have havg := roundFinite_near (2 * (m : ℚ) / 3) ((2 * m * 2 ^ (j + 1)) / 3 + 1) (-(1 / 3))
        (by rw [hk]; omega)
        (by
          rw [hk, ← hNq, hNa]
          ring)
        (Or.inl (by rw [abs_neg, abs_of_pos (by norm_num : (0 : ℚ) < 1 / 3)]; norm_num))
      rw [hk] at havg
      rw [havg]
      apply hR
      right
      have h3a : 3 * (((2 * m * 2 ^ (j + 1)) / 3 + 1 : Int) : ℚ) =
          2 * (m : ℚ) * 2 ^ (j + 1) + 1 := by
        have := hNa
        push_cast at this ⊢
        linarith
      have : (((2 * m * 2 ^ (j + 1)) / 3 + 1 : Int) : ℚ) * (2 : ℚ) ^ (k - 52) * (3 / 2) =
          (3 * (((2 * m * 2 ^ (j + 1)) / 3 + 1 : Int) : ℚ)) * (2 : ℚ) ^ (k - 52) / 2 := by ring
      rw [this, h3a]
      linear_combination (m : ℚ) * hEP

theorem roundToDouble_of_abs_le (q : ℚ) (h : |roundFinite q| ≤ maxDouble) :
    roundToDouble q = DoubleResult.finite (roundFinite q) := by
  rw [abs_le] at h
  unfold roundToDouble
  dsimp only
  rw [if_neg (not_lt.2 h.2), if_neg (not_lt.2 h.1)]

theorem maxDouble_ge : (2 : ℚ) ^ 1000 ≤ maxDouble := by
  unfold maxDouble
  norm_num

theorem roundToDouble_intCast (n : Int) (h : |n| < 2 ^ 53) :
    roundToDouble (n : ℚ) = DoubleResult.finite (n : ℚ) := by
  have e := roundFinite_intCast n h
  have hb : |(n : ℚ)| ≤ maxDouble := by
    have h1 : |(n : ℚ)| ≤ (2 : ℚ) ^ 53 := by
      rw [← Int.cast_abs]
      exact_mod_cast le_of_lt h
    refine le_trans h1 (le_trans ?_ maxDouble_ge)
    exact pow_le_pow_right₀ (by norm_num) (by norm_num)
  rw [roundToDouble_of_abs_le _ (by rw [e]; exact hb), e]

theorem maxDouble_ge_1020 : (2 : ℚ) ^ 1020 ≤ maxDouble := by
  unfold maxDouble
  norm_num

theorem one_sub_pow_ge (i : ℕ) (hi : i ≤ 12) : (1 : ℚ) / 2 ≤ (1 - 1 / 2 ^ 53) ^ i := by
  have h12 : (1 : ℚ) / 2 ≤ (1 - 1 / 2 ^ 53) ^ 12 := by norm_num
  exact le_trans h12 (pow_le_pow_of_le_one (by norm_num) (by norm_num) hi)

theorem one_add_pow_le (i : ℕ) (hi : i ≤ 12) : (1 + 1 / 2 ^ 53 : ℚ) ^ i ≤ 1 + 1 / 2 ^ 49 := by
  have h12 : (1 + 1 / 2 ^ 53 : ℚ) ^ 12 ≤ 1 + 1 / 2 ^ 49 := by norm_num
  exact le_trans (pow_le_pow_right₀ (by norm_num) hi) h12

theorem one_sub_pow_ge_tol (i : ℕ) (hi : i ≤ 12) :
    (1 - 1 / 2 ^ 49 : ℚ) ≤ (1 - 1 / 2 ^ 53) ^ i := by
  have h12 : (1 - 1 / 2 ^ 49 : ℚ) ≤ (1 - 1 / 2 ^ 53) ^ 12 := by norm_num
  exact le_trans h12 (pow_le_pow_of_le_one (by norm_num) (by norm_num) hi)

theorem roundToDouble_zero : roundToDouble 0 = DoubleResult.finite 0 := by decide!

theorem minNormal_le_sixteenth : (2 : ℚ) ^ (-1022 : Int) ≤ 1 / 2 * (1 / 2 ^ 1000) / 16 := by
  have e : (1 : ℚ) / 2 * (1 / 2 ^ 1000) / 16 = (2 : ℚ) ^ (-1005 : Int) := by
    rw [zpow_neg, zpow_ofNat, show (1005 : ℕ) = 1000 + 5 by norm_num, pow_add (2 : ℚ) 1000 5]
    field_simp
    norm_num
  rw [e]
  exact zpow_le_zpow_right₀ (by norm_num) (by norm_num)

/-! ## Lemmas on the loops of ProcessMonitor -/

theorem parseProcessInfo_pid (m : ProcessMonitor) (pid : Int) (r : ProcRead) :
    (parseProcessInfo m pid r).1.pid = pid := by
  unfold parseProcessInfo
  cases r.cpu_time <;> rfl

theorem parseProcessInfo_name (m : ProcessMonitor) (pid : Int) (r : ProcRead) :
    (parseProcessInfo m pid r).1.name = r.name := by
  unfold parseProcessInfo
  cases r.cpu_time <;> rfl

theorem calculateCpuUsage_previous_processes (m : ProcessMonitor) (pid : Int) (c t : Nat) :
    (calculateCpuUsage m pid c t).2.previous_processes = m.previous_processes := by
  unfold calculateCpuUsage
  split
  · rfl
  · split
    · rfl
    · dsimp only
      split <;> rfl

theorem parseProcessInfo_previous_processes (m : ProcessMonitor) (pid : Int) (r : ProcRead) :
    (parseProcessInfo m pid r).2.previous_processes = m.previous_processes := by
  unfold parseProcessInfo
  cases r.cpu_time with
  | none => rfl
  | some c => exact calculateCpuUsage_previous_processes m pid c r.total_cpu_time

theorem getCurrentProcessesLoop_acc (snap : ProcSnapshot) (acc : List ProcessInfo)
    (m : ProcessMonitor) :
    getCurrentProcessesLoop snap acc m =
      (acc ++ (getCurrentProcessesLoop snap [] m).1, (getCurrentProcessesLoop snap [] m).2) := by
  induction snap generalizing acc m with
  | nil => simp [getCurrentProcessesLoop]
  | cons e rest ih =>
    unfold getCurrentProcessesLoop
    cases e.read with
    | none => exact ih acc m
    | some r =>
      dsimp only
      split
      · rw [ih (acc ++ [(parseProcessInfo m e.pid r).1]), ih ([] ++ [(parseProcessInfo m e.pid r).1])]
        simp
      · exact ih acc _

theorem getCurrentProcesses_eq_filter (m : ProcessMonitor) (snap : ProcSnapshot) :
    (getCurrentProcesses m snap).1 =
      (parsedInfos snap m).filter (fun p => nameResolved p.name) := by
  unfold getCurrentProcesses
  induction snap generalizing m with
  | nil => simp [getCurrentProcessesLoop, parsedInfos]
  | cons e rest ih =>
    unfold getCurrentProcessesLoop parsedInfos
    cases e.read with
    | none => exact ih m
    | some r =>
      dsimp only
      by_cases h : nameResolved (parseProcessInfo m e.pid r).1.name = true
      · rw [if_pos h, getCurrentProcessesLoop_acc]
        simp only [List.filter_cons, h, if_true, ih, List.nil_append, List.singleton_append]
      · rw [if_neg h]
        simp only [List.filter_cons, h, ih]
        rfl

theorem pidsOf_parsedInfos_filter (m : ProcessMonitor) (snap : ProcSnapshot) :
    pidsOf ((parsedInfos snap m).filter (fun p => nameResolved p.name)) =
      (snap.filter entryResolved).map ProcEntry.pid := by
  induction snap generalizing m with
  | nil => simp [parsedInfos, pidsOf]
  | cons e rest ih =>
    unfold parsedInfos
    cases hr : e.read with
    | none =>
      have h : entryResolved e = false := by simp [entryResolved, hr]
      simp only [List.filter_cons, h]
      simpa using ih m
    | some r =>
      dsimp only
      by_cases h : nameResolved r.name = true
      · have h2 : entryResolved e = true := by simp [entryResolved, hr, h]
        have h3 : nameResolved (parseProcessInfo m e.pid r).1.name = true := by
          rw [parseProcessInfo_name]; exact h
        simp only [List.filter_cons, h3, h2, if_true, pidsOf, List.map_cons, parseProcessInfo_pid]
        congr 1
        exact ih _
      · have h2 : ¬ entryResolved e = true := by simp [entryResolved, hr, h]
        have h3 : ¬ nameResolved (parseProcessInfo m e.pid r).1.name = true := by
          rw [parseProcessInfo_name]; exact h
        simp only [List.filter_cons, h3, h2]
        exact ih _

theorem getCurrentProcessesLoop_previous_processes (snap : ProcSnapshot)
    (acc : List ProcessInfo) (m : ProcessMonitor) :
    (getCurrentProcessesLoop snap acc m).2.previous_processes = m.previous_processes := by
  induction snap generalizing acc m with
  | nil => rfl
  | cons e rest ih =>
    unfold getCurrentProcessesLoop
    cases e.read with
    | none => exact ih acc m
    | some r =>
      dsimp only
      split
      · rw [ih, parseProcessInfo_previous_processes]
      · rw [ih, parseProcessInfo_previous_processes]

theorem getCurrentProcesses_previous_processes (m : ProcessMonitor) (snap : ProcSnapshot) :
    (getCurrentProcesses m snap).2.previous_processes = m.previous_processes :=
  getCurrentProcessesLoop_previous_processes snap [] m

theorem calculateCpuUsage_table_irrelevant (m : ProcessMonitor) (tbl : List (Int × ProcessInfo))
    (pid : Int) (c t : Nat) :
    calculateCpuUsage { m with previous_processes := tbl } pid c t =
      ((calculateCpuUsage m pid c t).1,
       { (calculateCpuUsage m pid c t).2 with previous_processes := tbl }) := by
  unfold calculateCpuUsage
  dsimp only
  split
  · rfl
  · split
    · rfl
    · split <;> rfl

theorem parseProcessInfo_table_irrelevant (m : ProcessMonitor) (tbl : List (Int × ProcessInfo))
    (pid : Int) (r : ProcRead) :
    parseProcessInfo { m with previous_processes := tbl } pid r =
      ((parseProcessInfo m pid r).1,
       { (parseProcessInfo m pid r).2 with previous_processes := tbl }) := by
  unfold parseProcessInfo
  cases r.cpu_time with
  | none => rfl
  | some c =>
    dsimp only
    rw [calculateCpuUsage_table_irrelevant]

theorem getCurrentProcessesLoop_table_irrelevant (snap : ProcSnapshot) (acc : List ProcessInfo)
    (m : ProcessMonitor) (tbl : List (Int × ProcessInfo)) :
    getCurrentProcessesLoop snap acc { m with previous_processes := tbl } =
      ((getCurrentProcessesLoop snap acc m).1,
       { (getCurrentProcessesLoop snap acc m).2 with previous_processes := tbl }) := by
  induction snap generalizing acc m with
  | nil => rfl
  | cons e rest ih =>
    unfold getCurrentProcessesLoop
    cases e.read with
    | none => exact ih acc m
    | some r =>
      dsimp only
      rw [parseProcessInfo_table_irrelevant]
      dsimp only
      split
      · exact ih _ _
      · exact ih _ _

theorem getCurrentProcesses_table_irrelevant (m : ProcessMonitor) (snap : ProcSnapshot)
    (tbl : List (Int × ProcessInfo)) :
    getCurrentProcesses { m with previous_processes := tbl } snap =
      ((getCurrentProcesses m snap).1,
       { (getCurrentProcesses m snap).2 with previous_processes := tbl }) :=
  getCurrentProcessesLoop_table_irrelevant snap [] m tbl

theorem getNewProcessesLoop_eq (tbl : List (Int × ProcessInfo)) (ps acc : List ProcessInfo) :
    getNewProcessesLoop tbl ps acc =
      acc ++ ps.filter (fun p => decide (p.pid ∉ mapKeys tbl)) := by
  induction ps generalizing acc with
  | nil => simp [getNewProcessesLoop]
  | cons p rest ih =>
    unfold getNewProcessesLoop
    cases h : mapFind tbl p.pid with
    | none =>
      have h2 : p.pid ∉ mapKeys tbl := (mapFind_eq_none_iff tbl p.pid).1 h
      simp only [ih, List.filter_cons, h2, not_false_eq_true, decide_True, if_true]
      simp
    | some v =>
      have h2 : p.pid ∈ mapKeys tbl := (mapFind_isSome_iff tbl p.pid).1 ⟨v, h⟩
      simp only [ih, List.filter_cons, h2, not_true_eq_false, decide_False]
      simp

theorem getTerminatedProcessesLoop_eq (cur : List Int) (tbl : List (Int × ProcessInfo))
    (acc : List Int) :
    getTerminatedProcessesLoop cur tbl acc =
      acc ++ (mapKeys tbl).filter (fun k => decide (k ∉ cur)) := by
  induction tbl generalizing acc with
  | nil => simp [getTerminatedProcessesLoop, mapKeys]
  | cons pair rest ih =>
    unfold getTerminatedProcessesLoop
    by_cases h : pair.1 ∈ cur
    · simp [h, ih, mapKeys]
    · simp [h, ih, mapKeys]

theorem mem_mapKeys_updateProcessListLoop (ps : List ProcessInfo) (tbl : List (Int × ProcessInfo))
    (k : Int) :
    k ∈ mapKeys (updateProcessListLoop ps tbl) ↔ k ∈ pidsOf ps ∨ k ∈ mapKeys tbl := by
  induction ps generalizing tbl with
  | nil => simp [updateProcessListLoop, pidsOf]
  | cons p rest ih =>
    unfold updateProcessListLoop
    rw [ih, mem_mapKeys_mapSet]
    simp only [pidsOf, List.map_cons, List.mem_cons]
    tauto

theorem mem_tracked_updateProcessList (m : ProcessMonitor) (snap : ProcSnapshot) (k : Int) :
    k ∈ mapKeys (updateProcessList m snap).previous_processes ↔
      k ∈ pidsOf (getCurrentProcesses m snap).1 := by
  unfold updateProcessList
  dsimp only
  rw [mem_mapKeys_updateProcessListLoop, getCurrentProcesses_previous_processes,
    getCurrentProcesses_table_irrelevant]
  simp [mapKeys]

/-! ## Lemmas on the CPU accumulator -/

theorem u64_sub_of_le (a b : Nat) (hba : b ≤ a) (ha : a < U64) :
    (a + U64 - b) % U64 = a - b := by
  have h64 : U64 = 18446744073709551616 := by norm_num [U64]
  rw [h64] at ha ⊢
  omega

theorem calculateCpuUsage_find_of_ne (m : ProcessMonitor) (pid : Int) (c t : Nat) (k : Int)
    (hk : k ≠ pid) :
    mapFind (calculateCpuUsage m pid c t).2.previous_cpu_times k =
      mapFind m.previous_cpu_times k := by
  unfold calculateCpuUsage
  split
  · exact mapFind_mapSet_of_ne _ _ _ _ hk
  · split
    · exact mapFind_mapSet_of_ne _ _ _ _ hk
    · dsimp only
      split
      · rfl
      · exact mapFind_mapSet_of_ne _ _ _ _ hk

theorem calculateCpuUsage_keys_mono (m : ProcessMonitor) (pid : Int) (c t : Nat) (k : Int)
    (hk : k ∈ mapKeys m.previous_cpu_times) :
    k ∈ mapKeys (calculateCpuUsage m pid c t).2.previous_cpu_times := by
  unfold calculateCpuUsage
  split
  · exact (mem_mapKeys_mapSet _ _ _ _).2 (Or.inr hk)
  · split
    · exact (mem_mapKeys_mapSet _ _ _ _).2 (Or.inr hk)
    · dsimp only
      split
      · exact hk
      · exact (mem_mapKeys_mapSet _ _ _ _).2 (Or.inr hk)

theorem parseProcessInfo_find_of_ne (m : ProcessMonitor) (pid : Int) (r : ProcRead) (k : Int)
    (hk : k ≠ pid) :
    mapFind (parseProcessInfo m pid r).2.previous_cpu_times k =
      mapFind m.previous_cpu_times k := by
  unfold parseProcessInfo
  cases r.cpu_time with
  | none => rfl
  | some c => exact calculateCpuUsage_find_of_ne m pid c r.total_cpu_time k hk

theorem parseProcessInfo_keys_mono (m : ProcessMonitor) (pid : Int) (r : ProcRead) (k : Int)
    (hk : k ∈ mapKeys m.previous_cpu_times) :
    k ∈ mapKeys (parseProcessInfo m pid r).2.previous_cpu_times := by
  unfold parseProcessInfo
  cases r.cpu_time with
  | none => exact hk
  | some c => exact calculateCpuUsage_keys_mono m pid c r.total_cpu_time k hk

theorem getCurrentProcessesLoop_find_of_absent (snap : ProcSnapshot) (acc : List ProcessInfo)
    (m : ProcessMonitor) (k : Int) (hk : k ∉ getAllPids snap) :
    mapFind (getCurrentProcessesLoop snap acc m).2.previous_cpu_times k =
      mapFind m.previous_cpu_times k := by
  induction snap generalizing acc m with
  | nil => rfl
  | cons e rest ih =>
    have hne : k ≠ e.pid := fun h => hk (by simp [getAllPids, h])
    have hrest : k ∉ getAllPids rest := fun h => hk (by
      simp only [getAllPids, List.map_cons, List.mem_cons] at h ⊢
      exact Or.inr h)
    unfold getCurrentProcessesLoop
    cases e.read with
    | none => exact ih acc m hrest
    | some r =>
      dsimp only
      split
      · rw [ih _ _ hrest, parseProcessInfo_find_of_ne _ _ _ _ hne]
      · rw [ih _ _ hrest, parseProcessInfo_find_of_ne _ _ _ _ hne]

theorem getCurrentProcessesLoop_keys_mono (snap : ProcSnapshot) (acc : List ProcessInfo)
    (m : ProcessMonitor) (k : Int) (hk : k ∈ mapKeys m.previous_cpu_times) :
    k ∈ mapKeys (getCurrentProcessesLoop snap acc m).2.previous_cpu_times := by
  induction snap generalizing acc m with
  | nil => exact hk
  | cons e rest ih =>
    unfold getCurrentProcessesLoop
    cases e.read with
    | none => exact ih acc m hk
    | some r =>
      dsimp only
      split
      · exact ih _ _ (parseProcessInfo_keys_mono m e.pid r k hk)
      · exact ih _ _ (parseProcessInfo_keys_mono m e.pid r k hk)

theorem updateProcessList_previous_cpu_times (m : ProcessMonitor) (snap : ProcSnapshot) :
    (updateProcessList m snap).previous_cpu_times =
      (getCurrentProcesses m snap).2.previous_cpu_times := by
  unfold updateProcessList
  dsimp only
  rw [getCurrentProcesses_table_irrelevant]

theorem getNewProcesses_fst (m : ProcessMonitor) (snap : ProcSnapshot) :
    (getNewProcesses m snap).1 =
      (getCurrentProcesses m snap).1.filter
        (fun p => decide (p.pid ∉ mapKeys m.previous_processes)) := by
  unfold getNewProcesses
  dsimp only
  rw [getNewProcessesLoop_eq, getCurrentProcesses_previous_processes]
  simp

theorem mem_getTerminatedProcesses (m : ProcessMonitor) (snap : ProcSnapshot) (k : Int) :
    k ∈ getTerminatedProcesses m snap ↔
      k ∈ mapKeys m.previous_processes ∧ k ∉ getAllPids snap := by
  unfold getTerminatedProcesses
  rw [getTerminatedProcessesLoop_eq]
  simp

theorem mapKeys_mapSet_nodup {V : Type} (m : List (Int × V)) (key : Int) (v : V)
    (h : (mapKeys m).Nodup) : (mapKeys (mapSet m key v)).Nodup := by
  induction m with
  | nil => simp [mapSet, mapKeys]
  | cons kv rest ih =>
    obtain ⟨k0, w⟩ := kv
    simp only [mapKeys, List.map_cons, List.nodup_cons] at h
    by_cases hk : k0 = key
    · simp only [mapSet, hk, if_true, mapKeys, List.map_cons, List.nodup_cons]
      rw [hk] at h
      exact h
    · simp only [mapSet, hk, if_false, mapKeys, List.map_cons, List.nodup_cons]
      refine ⟨?_, ih h.2⟩
      intro hmem
      have := (mem_mapKeys_mapSet rest key v k0).1 hmem
      rcases this with h1 | h1
      · exact hk h1
      · exact h.1 h1

theorem updateProcessListLoop_nodup (ps : List ProcessInfo) (tbl : List (Int × ProcessInfo))
    (h : (mapKeys tbl).Nodup) : (mapKeys (updateProcessListLoop ps tbl)).Nodup := by
  induction ps generalizing tbl with
  | nil => exact h
  | cons p rest ih =>
    unfold updateProcessListLoop
    exact ih _ (mapKeys_mapSet_nodup tbl p.pid p h)

theorem updateProcessList_nodup (m : ProcessMonitor) (snap : ProcSnapshot) :
    (mapKeys (updateProcessList m snap).previous_processes).Nodup := by
  unfold updateProcessList
  dsimp only
  apply updateProcessListLoop_nodup
  rw [getCurrentProcesses_previous_processes]
  simp [mapKeys]

/-! ## Lemmas on NetworkMonitor -/

theorem setInsert_of_mem (s : List String) (key : String) (h : key ∈ s) :
    setInsert s key = s := by
  simp [setInsert, h]

theorem setInsert_of_not_mem (s : List String) (key : String) (h : key ∉ s) :
    setInsert s key = s ++ [key] := by
  simp [setInsert, h]

theorem mem_setInsert (s : List String) (key k : String) :
    k ∈ setInsert s key ↔ k = key ∨ k ∈ s := by
  by_cases h : key ∈ s
  · rw [setInsert_of_mem s key h]
    constructor
    · exact Or.inr
    · rintro (h1 | h1)
      · rw [h1]; exact h
      · exact h1
  · rw [setInsert_of_not_mem s key h, List.mem_append, List.mem_singleton]
    tauto

theorem setInsert_nodup (s : List String) (key : String) (h : s.Nodup) :
    (setInsert s key).Nodup := by
  by_cases hk : key ∈ s
  · rw [setInsert_of_mem s key hk]
    exact h
  · rw [setInsert_of_not_mem s key hk, List.nodup_append]
    refine ⟨h, List.nodup_singleton key, ?_⟩
    intro a ha hb
    rw [List.mem_singleton] at hb
    exact hk (hb ▸ ha)

theorem mem_updateConnectionListLoop (cs : List NetworkConnection) (s : List String)
    (k : String) :
    k ∈ updateConnectionListLoop cs s ↔ k ∈ cs.map getConnectionKey ∨ k ∈ s := by
  induction cs generalizing s with
  | nil => simp [updateConnectionListLoop]
  | cons c rest ih =>
    unfold updateConnectionListLoop
    rw [ih, mem_setInsert]
    simp only [List.map_cons, List.mem_cons]
    tauto

theorem updateConnectionListLoop_nodup (cs : List NetworkConnection) (s : List String)
    (h : s.Nodup) : (updateConnectionListLoop cs s).Nodup := by
  induction cs generalizing s with
  | nil => exact h
  | cons c rest ih =>
    unfold updateConnectionListLoop
    exact ih _ (setInsert_nodup s _ h)

theorem getNewConnectionsLoop_eq (prev : List String) (cs acc : List NetworkConnection) :
    getNewConnectionsLoop prev cs acc =
      acc ++ cs.filter (fun c => decide (getConnectionKey c ∉ prev)) := by
  induction cs generalizing acc with
  | nil => simp [getNewConnectionsLoop]
  | cons c rest ih =>
    unfold getNewConnectionsLoop
    by_cases h : getConnectionKey c ∈ prev
    · simp [h, ih]
    · simp [h, ih]

theorem getNewConnections_eq (nm : NetworkMonitor) (snap : NetSnapshot) :
    getNewConnections nm snap =
      (getCurrentConnections snap).filter
        (fun c => decide (getConnectionKey c ∉ nm.previous_connections)) := by
  unfold getNewConnections
  rw [getNewConnectionsLoop_eq]
  simp

theorem mem_updateConnectionList (nm : NetworkMonitor) (snap : NetSnapshot) (k : String) :
    k ∈ (updateConnectionList nm snap).previous_connections ↔
      k ∈ (getCurrentConnections snap).map getConnectionKey := by
  unfold updateConnectionList
  rw [mem_updateConnectionListLoop]
  simp

/-! ## ProcessMonitor: new and terminated processes -/

/-- C1. `getNewProcesses` returns, in the order of the current live set, exactly
the current processes whose pid is not a key of the tracked table; the keys of
the table built by `updateProcessList` from a snapshot `S1` are the pids of the
live set of `S1`; so after tracking `S1` the new processes of a fresh snapshot
`S2` are the live entries of `S2` whose pid is not a live pid of `S1`. -/
theorem getNewProcesses_eq_current_minus_tracked (m : ProcessMonitor) (S1 S2 : ProcSnapshot) :
    (getNewProcesses m S2).1 =
        (getCurrentProcesses m S2).1.filter
          (fun p => decide (p.pid ∉ mapKeys m.previous_processes)) ∧
    (∀ k, k ∈ mapKeys (updateProcessList m S1).previous_processes ↔
        k ∈ pidsOf (getCurrentProcesses m S1).1) ∧
    (getNewProcesses (updateProcessList m S1) S2).1 =
        (getCurrentProcesses (updateProcessList m S1) S2).1.filter
          (fun p => decide (p.pid ∉ pidsOf (getCurrentProcesses m S1).1)) := by
  refine ⟨getNewProcesses_fst m S2, mem_tracked_updateProcessList m S1, ?_⟩
  rw [getNewProcesses_fst]
  apply List.filter_congr
  intro p _
  simp only [mem_tracked_updateProcessList]

/-- C2, as the code has it. `getTerminatedProcesses` returns, each once, exactly
the tracked pids that `getAllPids` no longer enumerates, whether or not the
names of the enumerated pids resolve: after tracking `S1`, the terminated pids
at a fresh snapshot `S2` are the live pids of `S1` that are not listed in `S2`. -/
theorem getTerminatedProcesses_eq_tracked_minus_enumerated (m : ProcessMonitor)
    (S1 S2 : ProcSnapshot) :
    (∀ k, k ∈ getTerminatedProcesses m S2 ↔
        k ∈ mapKeys m.previous_processes ∧ k ∉ getAllPids S2) ∧
    (∀ k, k ∈ getTerminatedProcesses (updateProcessList m S1) S2 ↔
        k ∈ pidsOf (getCurrentProcesses m S1).1 ∧ k ∉ getAllPids S2) ∧
    (getTerminatedProcesses (updateProcessList m S1) S2).Nodup := by
  refine ⟨mem_getTerminatedProcesses m S2, ?_, ?_⟩
  · intro k
    rw [mem_getTerminatedProcesses, mem_tracked_updateProcessList]
  · unfold getTerminatedProcesses
    rw [getTerminatedProcessesLoop_eq, List.nil_append]
    exact (updateProcessList_nodup m S1).filter _

/-- C2 fails as stated: pid 2 is tracked after `cycleOne`, it is not a pid of
the live set of `cycleUnread` (its name did not resolve), and yet
`getTerminatedProcesses` does not return it, because it is still enumerated. -/
theorem getTerminatedProcesses_ignores_unresolved :
    (2 : Int) ∈ mapKeys (updateProcessList ProcessMonitor.init cycleOne).previous_processes ∧
    (2 : Int) ∉ pidsOf
      (getCurrentProcesses (updateProcessList ProcessMonitor.init cycleOne) cycleUnread).1 ∧
    (2 : Int) ∉ getTerminatedProcesses
      (updateProcessList ProcessMonitor.init cycleOne) cycleUnread := by
  decide!

/-- C3. No pid occurs both among the processes returned by `getNewProcesses`
and among the pids returned by `getTerminatedProcesses`, whether the latter is
called after the former (as the monitoring loop does) or on the same monitor,
and whatever snapshot either call reads. -/
theorem new_disjoint_terminated (m : ProcessMonitor) (S S' : ProcSnapshot) :
    ∀ p ∈ (getNewProcesses m S).1,
      p.pid ∉ getTerminatedProcesses (getNewProcesses m S).2 S' ∧
      p.pid ∉ getTerminatedProcesses m S' := by
  intro p hp
  rw [getNewProcesses_fst, List.mem_filter] at hp
  have hnew : p.pid ∉ mapKeys m.previous_processes := by
    have := hp.2
    simp only [decide_eq_true_eq] at this
    exact this
  have htbl : (getNewProcesses m S).2.previous_processes = m.previous_processes :=
    getCurrentProcesses_previous_processes m S
  constructor
  · intro hterm
    rw [mem_getTerminatedProcesses, htbl] at hterm
    exact hnew hterm.1
  · intro hterm
    rw [mem_getTerminatedProcesses] at hterm
    exact hnew hterm.1

/-- C3 at a concrete input: after tracking `cycleOne`, the snapshot `cycleChurn`
has the new process 3 and the terminated pid 2, and 3 is not terminated. -/
theorem new_disjoint_terminated_witness :
    (getNewProcesses (updateProcessList ProcessMonitor.init cycleOne) cycleChurn).1.map
        ProcessInfo.pid = [3] ∧
    getTerminatedProcesses
        (getNewProcesses (updateProcessList ProcessMonitor.init cycleOne) cycleChurn).2
        cycleChurn = [2] ∧
    ∀ p ∈ (getNewProcesses (updateProcessList ProcessMonitor.init cycleOne) cycleChurn).1,
      p.pid ∉ getTerminatedProcesses
        (getNewProcesses (updateProcessList ProcessMonitor.init cycleOne) cycleChurn).2
        cycleChurn :=
  ⟨by decide!, by decide!, fun p hp =>
    (new_disjoint_terminated (updateProcessList ProcessMonitor.init cycleOne)
      cycleChurn cycleChurn p hp).1⟩

/-! ## ProcessMonitor: CPU normalisation -/

/-- C4, evaluated on the code. Two pids are observed in `cycleOne` (total 1000
ticks) and again in `cycleTwo` (total 2000 ticks), each having run 250 more
ticks, so the stated formula gives 100 * 250 / 1000 = 25 for both.  The refresh
returns 25 for pid 1 only: the call for pid 1 overwrites
`previous_total_cpu_time` with 2000, so pid 2 is divided by the ticks elapsed
since the call for pid 1, giving 0 when none elapsed (and then pid 2 keeps its
old entry of 200 ticks) and 100 * 250 / 1 = 25000 when one tick elapsed. -/
theorem getCurrentProcesses_normalises_first_pid_only :
    (getCurrentProcesses (updateProcessList ProcessMonitor.init cycleOne) cycleTwo).1.map
        (fun p => (p.pid, p.cpu_usage)) = [(1, 25), (2, 0)] ∧
    mapFind (getCurrentProcesses (updateProcessList ProcessMonitor.init cycleOne)
        cycleTwo).2.previous_cpu_times 2 = some 200 ∧
    (getCurrentProcesses (updateProcessList ProcessMonitor.init cycleOne) cycleTwoJitter).1.map
        (fun p => (p.pid, p.cpu_usage)) = [(1, 25), (2, 25000)] ∧
    (100 * ((450 : ℚ) - 200) / ((2000 : ℚ) - 1000) = 25) := by
  refine ⟨by decide!, by decide!, by decide!, by norm_num⟩

/-- C5 fails as stated: for pid 1 stored at 100 ticks with the total at 1000
(the state `observedOnce`, which one refresh of a new monitor leaves) and
observed at 107 ticks with the total at 1100, `calculateCpuUsage` returns
7881299347898369 / 2 ^ 50, the `double` printed as 7.000000000000001, and not
100 * (107 - 100) / (1100 - 1000) = 7: the quotient 7 / 100 is not a `double`,
and the product of its rounded value with 100 rounds to the `double` next
above 7. -/
theorem calculateCpuUsage_rounds :
    (getCurrentProcesses ProcessMonitor.init
      [{ pid := 1, read := some (liveRead "init" 100 1000) }]).2.previous_cpu_times =
        observedOnce.previous_cpu_times ∧
    (getCurrentProcesses ProcessMonitor.init
      [{ pid := 1, read := some (liveRead "init" 100 1000) }]).2.previous_total_cpu_time =
        observedOnce.previous_total_cpu_time ∧
    mapFind observedOnce.previous_cpu_times 1 = some 100 ∧
    observedOnce.previous_total_cpu_time = 1000 ∧
    (calculateCpuUsage observedOnce 1 107 1100).1 = 7881299347898369 / 2 ^ 50 ∧
    (calculateCpuUsage observedOnce 1 107 1100).1 ≠
      100 * ((107 : ℚ) - 100) / ((1100 : ℚ) - 1000) := by
  decide!

/-- C5, as the code has it. When the pid has the stored cumulative ticks `p0`,
the stored total `t0` is not 0, and the call gets `p1 ≥ p0` and a total
`t1 > t0` (both below 2 ^ 64), `calculateCpuUsage` stores `p1` for the pid and
`t1` as the total, and returns the `double` that results from converting
`p1 - p0` and `t1 - t0` to `double`, dividing, and multiplying by 100, each
step rounding to nearest.  The result differs from 100 * (p1 - p0) / (t1 - t0)
by at most the fraction 2 ^ -50 of that value, and is that value when the two
deltas, their quotient and 100 times the quotient are `double`s; with a total
delta of 1000 and a pid delta of 250 it is 25. -/
theorem calculateCpuUsage_formula (m : ProcessMonitor) (pid : Int) (p0 p1 t1 : Nat)
    (hfind : mapFind m.previous_cpu_times pid = some p0)
    (ht0 : m.previous_total_cpu_time ≠ 0)
    (hp : p0 ≤ p1) (ht : m.previous_total_cpu_time < t1)
    (hp1 : p1 < U64) (ht1 : t1 < U64) :
    (calculateCpuUsage m pid p1 t1).1 =
        roundFinite (roundFinite (roundFinite ((p1 : ℚ) - (p0 : ℚ)) /
          roundFinite ((t1 : ℚ) - (m.previous_total_cpu_time : ℚ))) * 100) ∧
    |(calculateCpuUsage m pid p1 t1).1 -
        100 * ((p1 : ℚ) - (p0 : ℚ)) / ((t1 : ℚ) - (m.previous_total_cpu_time : ℚ))| ≤
      100 * ((p1 : ℚ) - (p0 : ℚ)) / ((t1 : ℚ) - (m.previous_total_cpu_time : ℚ)) / 2 ^ 50 ∧
    (isDouble ((p1 : ℚ) - (p0 : ℚ)) = true →
      isDouble ((t1 : ℚ) - (m.previous_total_cpu_time : ℚ)) = true →
      isDouble (((p1 : ℚ) - (p0 : ℚ)) / ((t1 : ℚ) - (m.previous_total_cpu_time : ℚ))) = true →
      isDouble (((p1 : ℚ) - (p0 : ℚ)) / ((t1 : ℚ) - (m.previous_total_cpu_time : ℚ)) * 100) =
        true →
      (calculateCpuUsage m pid p1 t1).1 =
        100 * ((p1 : ℚ) - (p0 : ℚ)) / ((t1 : ℚ) - (m.previous_total_cpu_time : ℚ))) ∧
    mapFind (calculateCpuUsage m pid p1 t1).2.previous_cpu_times pid = some p1 ∧
    (calculateCpuUsage m pid p1 t1).2.previous_total_cpu_time = t1 ∧
    (t1 - m.previous_total_cpu_time = 1000 → p1 - p0 = 250 →
      (calculateCpuUsage m pid p1 t1).1 = 25) := by
  have hdp : (p1 + U64 - p0) % U64 = p1 - p0 := u64_sub_of_le p1 p0 hp hp1
  have hdt : (t1 + U64 - m.previous_total_cpu_time) % U64 = t1 - m.previous_total_cpu_time :=
    u64_sub_of_le t1 _ (Nat.le_of_lt ht) ht1
  have hne : t1 - m.previous_total_cpu_time ≠ 0 := by omega
  have hval : calculateCpuUsage m pid p1 t1 =
      (roundFinite (roundFinite (roundFinite ((p1 - p0 : Nat) : ℚ) /
          roundFinite ((t1 - m.previous_total_cpu_time : Nat) : ℚ)) * 100),
       { m with
         previous_cpu_times := mapSet m.previous_cpu_times pid p1
         previous_total_cpu_time := t1 }) := by
    unfold calculateCpuUsage
    rw [hfind]
    simp only [ht0, if_false, hdp, hdt, hne]
  rw [hval]
  refine ⟨?_, ?_, ?_, mapFind_mapSet_self _ _ _, rfl, ?_⟩
  · dsimp only
    rw [Nat.cast_sub hp, Nat.cast_sub (Nat.le_of_lt ht)]
  · dsimp only
    rw [← Nat.cast_sub hp, ← Nat.cast_sub (Nat.le_of_lt ht)]
    exact cpuPercent_error (p1 - p0) (t1 - m.previous_total_cpu_time) (by omega)
      (by unfold U64 at ht1; omega)
  · intro e1 e2 e3 e4
    dsimp only
    rw [Nat.cast_sub hp, Nat.cast_sub (Nat.le_of_lt ht), roundFinite_of_isDouble _ e1,
      roundFinite_of_isDouble _ e2, roundFinite_of_isDouble _ e3, roundFinite_of_isDouble _ e4]
    ring
  · intro h1 h2
    dsimp only
    rw [h1, h2]
    decide!

/-- C5 at a concrete input: pid 1 stored at 100 ticks with the total at 1000,
then observed at 350 ticks with the total at 2000, gives 25, which is
100 * (350 - 100) / (2000 - 1000), and the two values are stored. -/
theorem calculateCpuUsage_formula_witness :
    (calculateCpuUsage observedOnce 1 350 2000).1 = 25 ∧
    (calculateCpuUsage observedOnce 1 350 2000).1 =
      100 * ((350 : ℚ) - 100) / ((2000 : ℚ) - 1000) ∧
    mapFind (calculateCpuUsage observedOnce 1 350 2000).2.previous_cpu_times 1 = some 350 ∧
    (calculateCpuUsage observedOnce 1 350 2000).2.previous_total_cpu_time = 2000 := by
  have h := calculateCpuUsage_formula observedOnce 1 100 350 2000 (by decide) (by decide)
    (by decide) (by decide) (by decide) (by decide)
  exact ⟨h.2.2.2.2.2 (by decide) (by decide),
    h.2.2.1 (by decide!) (by decide!) (by decide!) (by decide!), h.2.2.2.1, h.2.2.2.2.1⟩

/-- C6. `calculateCpuUsage` returns 0, for every value of the current ticks and
of the current total, when the pid has no stored entry, when the stored total
is 0, and when the total-ticks delta it computes is zero (in particular when
the current total equals the stored one). -/
theorem calculateCpuUsage_zero (m : ProcessMonitor) (pid : Int) (c t : Nat) :
    (mapFind m.previous_cpu_times pid = none → (calculateCpuUsage m pid c t).1 = 0) ∧
    (m.previous_total_cpu_time = 0 → (calculateCpuUsage m pid c t).1 = 0) ∧
    ((t + U64 - m.previous_total_cpu_time) % U64 = 0 → (calculateCpuUsage m pid c t).1 = 0) ∧
    (t = m.previous_total_cpu_time → (calculateCpuUsage m pid c t).1 = 0) := by
  have hdelta : (t + U64 - m.previous_total_cpu_time) % U64 = 0 →
      (calculateCpuUsage m pid c t).1 = 0 := by
    intro h
    unfold calculateCpuUsage
    split
    · rfl
    · split
      · rfl
      · simp only [h, if_true]
  refine ⟨?_, ?_, hdelta, ?_⟩
  · intro h
    unfold calculateCpuUsage
    rw [h]
  · intro h
    unfold calculateCpuUsage
    split
    · rfl
    · simp only [h, if_true]
  · intro h
    apply hdelta
    rw [h, Nat.add_sub_cancel_left, Nat.mod_self]

/-- C6 at concrete inputs: a pid never seen, a pid seen while the stored total
is 0, and a pid seen with an unchanged total all get 0. -/
theorem calculateCpuUsage_zero_witness :
    (calculateCpuUsage observedOnce 2 450 2000).1 = 0 ∧
    (calculateCpuUsage { observedOnce with previous_total_cpu_time := 0 } 1 350 2000).1 = 0 ∧
    (calculateCpuUsage observedOnce 1 350 1000).1 = 0 :=
  ⟨(calculateCpuUsage_zero observedOnce 2 450 2000).1 (by decide),
   (calculateCpuUsage_zero { observedOnce with previous_total_cpu_time := 0 } 1 350 2000).2.1
     (by decide),
   (calculateCpuUsage_zero observedOnce 1 350 1000).2.2.2 (by decide)⟩

/-- C7, as the code has it. No operation of `ProcessMonitor` removes a key of
`previous_cpu_times`: a pid that has an entry keeps one through
`getCurrentProcesses`, `getNewProcesses` and `updateProcessList`; and after a
refresh on a snapshot from which a pid is absent (a tracked pid is then
reported terminated) the entry of that pid is exactly what it was before. -/
theorem previous_cpu_times_never_purged (m : ProcessMonitor) (snap : ProcSnapshot) (k : Int) :
    (k ∈ mapKeys m.previous_cpu_times →
      k ∈ mapKeys (getCurrentProcesses m snap).2.previous_cpu_times ∧
      k ∈ mapKeys (getNewProcesses m snap).2.previous_cpu_times ∧
      k ∈ mapKeys (updateProcessList m snap).previous_cpu_times) ∧
    (k ∉ getAllPids snap →
      mapFind (updateProcessList m snap).previous_cpu_times k =
        mapFind m.previous_cpu_times k) ∧
    (k ∈ mapKeys m.previous_processes → k ∉ getAllPids snap →
      k ∈ getTerminatedProcesses m snap) := by
  refine ⟨fun hk => ?_, fun habs => ?_, fun htr habs => ?_⟩
  · have h1 : k ∈ mapKeys (getCurrentProcesses m snap).2.previous_cpu_times :=
      getCurrentProcessesLoop_keys_mono snap [] m k hk
    refine ⟨h1, h1, ?_⟩
    rw [updateProcessList_previous_cpu_times]
    exact h1
  · rw [updateProcessList_previous_cpu_times]
    exact getCurrentProcessesLoop_find_of_absent snap [] m k habs
  · exact (mem_getTerminatedProcesses m snap k).2 ⟨htr, habs⟩

/-- C7 at a concrete input: pid 2 has an entry after `cycleOne` and is gone in
`cycleGone`; after the refresh on `cycleGone` its entry is still the 200 ticks
stored in the first cycle. -/
theorem previous_cpu_times_never_purged_witness :
    (2 : Int) ∈ mapKeys (updateProcessList (updateProcessList ProcessMonitor.init cycleOne)
        cycleGone).previous_cpu_times ∧
    mapFind (updateProcessList (updateProcessList ProcessMonitor.init cycleOne)
        cycleGone).previous_cpu_times 2 = some 200 := by
  have h := previous_cpu_times_never_purged (updateProcessList ProcessMonitor.init cycleOne)
    cycleGone 2
  refine ⟨(h.1 (by decide!)).2.2, ?_⟩
  rw [h.2.1 (by decide)]
  decide!

/-- C7 fails as stated: pid 2 is tracked after `cycleOne`, is absent from
`cycleGone` and is reported terminated there, yet after the refresh on
`cycleGone` the accumulator still holds an entry for pid 2, which is not among
the live pids. -/
theorem previous_cpu_times_keeps_terminated_pid :
    (2 : Int) ∈ getTerminatedProcesses
      (updateProcessList ProcessMonitor.init cycleOne) cycleGone ∧
    (2 : Int) ∈ mapKeys (updateProcessList (updateProcessList ProcessMonitor.init cycleOne)
      cycleGone).previous_cpu_times ∧
    (2 : Int) ∉ pidsOf (getCurrentProcesses (updateProcessList ProcessMonitor.init cycleOne)
      cycleGone).1 := by
  decide!

/-- C8. `getCurrentProcesses` returns, in enumeration order, exactly the parsed
records whose name is neither empty nor "Unknown": its pids are the pids of the
enumeration entries that were read with such a name, every returned record has
such a name, a pid that was not read does not change the result, and an empty
enumeration yields an empty result and leaves the monitor unchanged. -/
theorem getCurrentProcesses_keeps_resolved (m : ProcessMonitor) (snap : ProcSnapshot) :
    (getCurrentProcesses m snap).1 =
        (parsedInfos snap m).filter (fun p => nameResolved p.name) ∧
    pidsOf (getCurrentProcesses m snap).1 =
        (snap.filter entryResolved).map ProcEntry.pid ∧
    (∀ p ∈ (getCurrentProcesses m snap).1, p.name ≠ "" ∧ p.name ≠ "Unknown") ∧
    (∀ pid, (getCurrentProcesses m ({ pid := pid, read := none } :: snap)) =
        getCurrentProcesses m snap) ∧
    getCurrentProcesses m [] = ([], m) := by
  refine ⟨getCurrentProcesses_eq_filter m snap, ?_, ?_, fun _ => rfl, rfl⟩
  · rw [getCurrentProcesses_eq_filter, pidsOf_parsedInfos_filter]
  · intro p hp
    rw [getCurrentProcesses_eq_filter, List.mem_filter] at hp
    have h := hp.2
    simp only [nameResolved, Bool.and_eq_true, Bool.not_eq_true', beq_eq_false_iff_ne,
      bne_iff_ne, ne_eq] at h
    exact h

/-- C8 at a concrete input: of the two enumerated pids of `cycleUnread` only
pid 1, whose name resolved, is returned. -/
theorem getCurrentProcesses_keeps_resolved_witness :
    pidsOf (getCurrentProcesses ProcessMonitor.init cycleUnread).1 = [1] ∧
    ∀ p ∈ (getCurrentProcesses ProcessMonitor.init cycleUnread).1,
      p.name ≠ "" ∧ p.name ≠ "Unknown" :=
  ⟨by decide!, (getCurrentProcesses_keeps_resolved ProcessMonitor.init cycleUnread).2.2.1⟩

/-! ## NetworkMonitor: new connections -/

/-- C9. `getNewConnections` returns, in snapshot order, exactly the current
connections whose key is not in the stored key set; and after
`updateConnectionList` has read a connection list, `getNewConnections` on the
same list returns the empty list. -/
theorem getNewConnections_eq_and_resubmission (nm : NetworkMonitor) (snap : NetSnapshot) :
    getNewConnections nm snap =
        (getCurrentConnections snap).filter
          (fun c => decide (getConnectionKey c ∉ nm.previous_connections)) ∧
    getNewConnections (updateConnectionList nm snap) snap = [] := by
  refine ⟨getNewConnections_eq nm snap, ?_⟩
  rw [getNewConnections_eq, List.filter_eq_nil_iff]
  intro c hc
  simp only [decide_eq_true_eq, not_not, mem_updateConnectionList]
  exact List.mem_map_of_mem getConnectionKey hc

/-- C10. After `updateConnectionList` on a snapshot the stored key set holds,
each once, exactly the keys of that snapshot, whatever it held before; so a
connection of the snapshot `S3` whose key is not a key of `S2` is returned by
`getNewConnections` on `S3` against the state left by the update on `S2`, also
when the update before that, on `S1`, had stored its key. -/
theorem updateConnectionList_replaces (nm : NetworkMonitor) (S1 S2 S3 : NetSnapshot) :
    (∀ k, k ∈ (updateConnectionList nm S2).previous_connections ↔
        k ∈ (getCurrentConnections S2).map getConnectionKey) ∧
    (updateConnectionList nm S2).previous_connections.Nodup ∧
    (∀ c, c ∈ getCurrentConnections S3 →
      getConnectionKey c ∉ (getCurrentConnections S2).map getConnectionKey →
      c ∈ getNewConnections (updateConnectionList (updateConnectionList nm S1) S2) S3) := by
  refine ⟨mem_updateConnectionList nm S2, ?_, ?_⟩
  · unfold updateConnectionList
    exact updateConnectionListLoop_nodup _ [] List.nodup_nil
  · intro c hback habsent
    rw [getNewConnections_eq, List.mem_filter]
    refine ⟨hback, ?_⟩
    simp only [decide_eq_true_eq, mem_updateConnectionList]
    exact habsent

/-- C10 at a concrete input: the first connection of `netBoth` is stored in
cycle 1, absent from `netOne` in cycle 2, and returned as new when `netBoth`
is read again in cycle 3. -/
theorem updateConnectionList_replaces_witness :
    getConnectionKey (tcpConn 50000 "93.184.216.34" 443) ∈
        (updateConnectionList { previous_connections := [] } netBoth).previous_connections ∧
    tcpConn 50000 "93.184.216.34" 443 ∈
        getNewConnections
          (updateConnectionList (updateConnectionList { previous_connections := [] } netBoth)
            netOne) netBoth :=
  ⟨by decide,
   (updateConnectionList_replaces { previous_connections := [] } netBoth netOne netBoth).2.2
      (tcpConn 50000 "93.184.216.34" 443) (by decide) (by decide)⟩

/-! ## Lemmas on the printing of integers and on connection keys -/

theorem digitChar_isDigit (n : Nat) (h : n < 10) : (Nat.digitChar n).isDigit = true := by
  interval_cases n <;> decide

theorem digitChar_toNat (n : Nat) (h : n < 10) : (Nat.digitChar n).toNat - 48 = n := by
  interval_cases n <;> decide

theorem toDigitsCore_append (f n : Nat) (ds : List Char) :
    Nat.toDigitsCore 10 f n ds = Nat.toDigitsCore 10 f n [] ++ ds := by
  induction f generalizing n ds with
  | zero => simp [Nat.toDigitsCore]
  | succ f ih =>
    simp only [Nat.toDigitsCore]
    split
    · simp
    · rw [ih (n / 10) (Nat.digitChar (n % 10) :: ds), ih (n / 10) [Nat.digitChar (n % 10)]]
      simp

theorem toDigitsCore_isDigit (f n : Nat) :
    ∀ c ∈ Nat.toDigitsCore 10 f n [], c.isDigit = true := by
  induction f generalizing n with
  | zero => simp [Nat.toDigitsCore]
  | succ f ih =>
    intro c hc
    simp only [Nat.toDigitsCore] at hc
    have hd : (Nat.digitChar (n % 10)).isDigit = true :=
      digitChar_isDigit _ (Nat.mod_lt _ (by decide))
    split at hc
    · rw [List.mem_singleton] at hc
      rw [hc]; exact hd
    · rw [toDigitsCore_append, List.mem_append, List.mem_singleton] at hc
      rcases hc with h | h
      · exact ih _ c h
      · rw [h]; exact hd

theorem toDigitsCore_ne_nil (f n : Nat) : Nat.toDigitsCore 10 (f + 1) n [] ≠ [] := by
  simp only [Nat.toDigitsCore]
  split
  · simp
  · rw [toDigitsCore_append]
    simp

theorem decVal_toDigitsCore (f n : Nat) (h : n < f) :
    (Nat.toDigitsCore 10 f n []).foldl (fun a c => 10 * a + (c.toNat - 48)) 0 = n := by
  induction f generalizing n with
  | zero => omega
  | succ f ih =>
    simp only [Nat.toDigitsCore]
    split
    · next h0 =>
      have hlt : n < 10 := by omega
      simp only [List.foldl_cons, List.foldl_nil, Nat.mul_zero, Nat.zero_add]
      rw [Nat.mod_eq_of_lt hlt]
      exact digitChar_toNat n hlt
    · next h0 =>
      rw [toDigitsCore_append, List.foldl_append]
      simp only [List.foldl_cons, List.foldl_nil]
      rw [ih (n / 10) (by omega), digitChar_toNat _ (Nat.mod_lt _ (by decide))]
      omega

theorem natRepr_data (n : Nat) : (Nat.repr n).data = Nat.toDigits 10 n := rfl

theorem natRepr_injective (m n : Nat) (h : Nat.repr m = Nat.repr n) : m = n := by
  have hd : Nat.toDigits 10 m = Nat.toDigits 10 n := by
    rw [← natRepr_data, ← natRepr_data, h]
  have hm := decVal_toDigitsCore (m + 1) m (Nat.lt_succ_self m)
  have hn := decVal_toDigitsCore (n + 1) n (Nat.lt_succ_self n)
  unfold Nat.toDigits at hd
  rw [hd] at hm
  omega

theorem natRepr_isDigit (n : Nat) : ∀ c ∈ (Nat.repr n).data, c.isDigit = true :=
  toDigitsCore_isDigit (n + 1) n

theorem natRepr_data_ne_nil (n : Nat) : (Nat.repr n).data ≠ [] :=
  toDigitsCore_ne_nil n n

theorem toString_ofNat (m : Nat) : toString (Int.ofNat m) = Nat.repr m := rfl

theorem toString_negSucc (m : Nat) :
    toString (Int.negSucc m) = "-" ++ Nat.repr (m + 1) := rfl

/-- Every character of a printed `int` is a digit or the minus sign. -/
theorem toString_int_chars (n : Int) :
    ∀ c ∈ (toString n).data, c.isDigit = true ∨ c = '-' := by
  intro c hc
  cases n with
  | ofNat m =>
    rw [toString_ofNat] at hc
    exact Or.inl (natRepr_isDigit m c hc)
  | negSucc m =>
    rw [toString_negSucc, String.data_append, List.mem_append] at hc
    rcases hc with h | h
    · right
      have : "-".data = ['-'] := rfl
      rw [this, List.mem_singleton] at h
      exact h
    · exact Or.inl (natRepr_isDigit _ c h)

theorem toString_int_injective (m n : Int) (h : toString m = toString n) : m = n := by
  have hhead : ∀ k : Nat, ∀ j : Nat, Nat.repr k ≠ "-" ++ Nat.repr j := by
    intro k j he
    have hne := natRepr_data_ne_nil k
    have hdig := natRepr_isDigit k
    have hdata : (Nat.repr k).data = '-' :: (Nat.repr j).data := by
      rw [he, String.data_append]; rfl
    have := hdig '-' (by rw [hdata]; exact List.mem_cons_self _ _)
    exact absurd this (by decide)
  cases m with
  | ofNat a =>
    cases n with
    | ofNat b =>
      rw [toString_ofNat, toString_ofNat] at h
      rw [natRepr_injective a b h]
    | negSucc b =>
      rw [toString_ofNat, toString_negSucc] at h
      exact absurd h (hhead a (b + 1))
  | negSucc a =>
    cases n with
    | ofNat b =>
      rw [toString_ofNat, toString_negSucc] at h
      exact absurd h.symm (hhead b (a + 1))
    | negSucc b =>
      rw [toString_negSucc, toString_negSucc] at h
      have hd : (Nat.repr (a + 1)).data = (Nat.repr (b + 1)).data := by
        have := congrArg String.data h
        rw [String.data_append, String.data_append] at this
        exact List.append_cancel_left this
      have := natRepr_injective (a + 1) (b + 1) (String.ext hd)
      have hab : a = b := by omega
      rw [hab]

/-- Two lists that agree after a separator absent from both heads agree on the
heads and on the tails. -/
theorem append_cons_cancel {a : Char} :
    ∀ {xs xs' ys ys' : List Char}, a ∉ xs → a ∉ xs' →
      xs ++ a :: ys = xs' ++ a :: ys' → xs = xs' ∧ ys = ys' := by
  intro xs
  induction xs with
  | nil =>
    intro xs' ys ys' _ h2 h
    cases xs' with
    | nil => simpa using h
    | cons x rest =>
      simp only [List.nil_append, List.cons_append, List.cons.injEq] at h
      exact absurd (h.1 ▸ List.mem_cons_self _ _) h2
  | cons x rest ih =>
    intro xs' ys ys' h1 h2 h
    cases xs' with
    | nil =>
      simp only [List.nil_append, List.cons_append, List.cons.injEq] at h
      exact absurd (h.1 ▸ List.mem_cons_self _ _) h1
    | cons x' rest' =>
      simp only [List.cons_append, List.cons.injEq] at h
      have h1' : a ∉ rest := fun hm => h1 (List.mem_cons_of_mem _ hm)
      have h2' : a ∉ rest' := fun hm => h2 (List.mem_cons_of_mem _ hm)
      obtain ⟨e1, e2⟩ := ih h1' h2' h.2
      exact ⟨by rw [h.1, e1], e2⟩

theorem getConnectionKey_data (c : NetworkConnection) :
    (getConnectionKey c).data =
      c.protocol.data ++ ':' :: (c.local_ip.data ++ ':' ::
        (((toString c.local_port).data ++ ['-']) ++ '>' ::
          (c.remote_ip.data ++ ':' :: (toString c.remote_port).data))) := by
  simp only [getConnectionKey, String.data_append]
  simp

theorem gt_not_mem_port (n : Int) : '>' ∉ (toString n).data ++ ['-'] := by
  intro h
  rw [List.mem_append, List.mem_singleton] at h
  rcases h with h | h
  · rcases toString_int_chars n '>' h with h1 | h1
    · exact absurd h1 (by decide)
    · exact absurd h1 (by decide)
  · exact absurd h (by decide)

/-- The key determines the five fields it is built from when the protocol and
the two addresses hold no colon. -/
theorem getConnectionKey_injective (c1 c2 : NetworkConnection)
    (hp1 : ':' ∉ c1.protocol.data) (hp2 : ':' ∉ c2.protocol.data)
    (hl1 : ':' ∉ c1.local_ip.data) (hl2 : ':' ∉ c2.local_ip.data)
    (hr1 : ':' ∉ c1.remote_ip.data) (hr2 : ':' ∉ c2.remote_ip.data)
    (h : getConnectionKey c1 = getConnectionKey c2) :
    c1.protocol = c2.protocol ∧ c1.local_ip = c2.local_ip ∧
    c1.local_port = c2.local_port ∧ c1.remote_ip = c2.remote_ip ∧
    c1.remote_port = c2.remote_port := by
  have hd := congrArg String.data h
  rw [getConnectionKey_data, getConnectionKey_data] at hd
  obtain ⟨e1, hd⟩ := append_cons_cancel hp1 hp2 hd
  obtain ⟨e2, hd⟩ := append_cons_cancel hl1 hl2 hd
  obtain ⟨e3, hd⟩ := append_cons_cancel (gt_not_mem_port _) (gt_not_mem_port _) hd
  obtain ⟨e4, e5⟩ := append_cons_cancel hr1 hr2 hd
  refine ⟨String.ext e1, String.ext e2, ?_, String.ext e4, ?_⟩
  · exact toString_int_injective _ _ (String.ext (List.append_cancel_right e3))
  · exact toString_int_injective _ _ (String.ext e5)

theorem natRepr_no_colon (n : Nat) : ':' ∉ (toString n).data := by
  intro h
  exact absurd (natRepr_isDigit n ':' h) (by decide)

theorem ipToString_no_colon (ip : Nat) : ':' ∉ (ipToString ip).data := by
  unfold ipToString
  simp only [String.data_append, List.mem_append, not_or]
  have hdot : ':' ∉ ".".data := by decide
  exact ⟨⟨⟨⟨⟨⟨natRepr_no_colon _, hdot⟩, natRepr_no_colon _⟩, hdot⟩, natRepr_no_colon _⟩, hdot⟩,
    natRepr_no_colon _⟩

/-- The string fields the parsers store hold no colon. -/
theorem parsedFields_no_colon (c : NetworkConnection) (h : parsedFields c) :
    ':' ∉ c.protocol.data ∧ ':' ∉ c.local_ip.data ∧ ':' ∉ c.remote_ip.data := by
  obtain ⟨hp, hl, hr⟩ := h
  refine ⟨?_, ?_, ?_⟩
  · rcases hp with e | e <;> rw [e] <;> decide
  · rcases hl with e | ⟨ip, e⟩
    · rw [e]; decide
    · rw [e]; exact ipToString_no_colon ip
  · rcases hr with e | ⟨ip, e⟩
    · rw [e]; decide
    · rw [e]; exact ipToString_no_colon ip

/-! ## NetworkMonitor: keys, listening ports and open ports -/

theorem getListeningPortsLoop_eq (cs acc : List NetworkConnection) :
    getListeningPortsLoop cs acc =
      acc ++ cs.filter (fun c =>
        decide (c.state = "LISTEN" ∨ (c.protocol = "UDP" ∧ c.remote_ip = "0.0.0.0"))) := by
  induction cs generalizing acc with
  | nil => simp [getListeningPortsLoop]
  | cons c rest ih =>
    unfold getListeningPortsLoop
    by_cases h : c.state = "LISTEN" ∨ (c.protocol = "UDP" ∧ c.remote_ip = "0.0.0.0")
    · rw [if_pos h, ih, List.filter_cons_of_pos (by simpa using h)]
      simp
    · rw [if_neg h, ih, List.filter_cons_of_neg (by simpa using h)]

theorem getListeningPorts_eq (snap : NetSnapshot) :
    getListeningPorts snap =
      (getCurrentConnections snap).filter (fun c =>
        decide (c.state = "LISTEN" ∨ (c.protocol = "UDP" ∧ c.remote_ip = "0.0.0.0"))) := by
  unfold getListeningPorts
  rw [getListeningPortsLoop_eq, List.nil_append]

theorem getOpenPortsLoop_eq (cs : List NetworkConnection) (acc : List Int) :
    getOpenPortsLoop cs acc = acc ++ cs.map NetworkConnection.local_port := by
  induction cs generalizing acc with
  | nil => simp [getOpenPortsLoop]
  | cons c rest ih =>
    unfold getOpenPortsLoop
    rw [ih]
    simp

theorem mem_stdUnique (l : List Int) (x : Int) : x ∈ stdUnique l ↔ x ∈ l := by
  induction l with
  | nil => simp [stdUnique]
  | cons a t ih =>
    cases t with
    | nil => simp [stdUnique]
    | cons b t' =>
      simp only [stdUnique]
      split
      · next hab =>
        rw [ih, hab]
        simp
      · rw [List.mem_cons, ih, List.mem_cons (a := x) (b := a)]

theorem stdUnique_sorted (l : List Int) (h : l.Sorted (· ≤ ·)) :
    (stdUnique l).Sorted (· < ·) := by
  induction l with
  | nil => simp [stdUnique]
  | cons a t ih =>
    cases t with
    | nil => simp [stdUnique]
    | cons b t' =>
      have hs := List.sorted_cons.1 h
      have hab : a ≤ b := hs.1 b (List.mem_cons_self _ _)
      have hb := List.sorted_cons.1 hs.2
      simp only [stdUnique]
      split
      · exact ih hs.2
      · next hne =>
        refine List.sorted_cons.2 ⟨?_, ih hs.2⟩
        intro z hz
        rw [mem_stdUnique, List.mem_cons] at hz
        have hlt : a < b := lt_of_le_of_ne hab hne
        rcases hz with hz | hz
        · rw [hz]; exact hlt
        · exact lt_of_lt_of_le hlt (hb.1 z hz)

/-- C11. For two connections whose string fields are what the parsers store in
them (`parsedFields`), the keys are equal exactly when the connections agree on
protocol, local_ip, local_port, remote_ip and remote_port; and pid, state and
process_name do not influence the key. -/
theorem getConnectionKey_eq_iff (c1 c2 : NetworkConnection)
    (h1 : parsedFields c1) (h2 : parsedFields c2) :
    (getConnectionKey c1 = getConnectionKey c2 ↔
      c1.protocol = c2.protocol ∧ c1.local_ip = c2.local_ip ∧
      c1.local_port = c2.local_port ∧ c1.remote_ip = c2.remote_ip ∧
      c1.remote_port = c2.remote_port) ∧
    (∀ (pid : Int) (state process_name : String),
      getConnectionKey { c1 with pid := pid, state := state, process_name := process_name } =
        getConnectionKey c1) := by
  have n1 := parsedFields_no_colon c1 h1
  have n2 := parsedFields_no_colon c2 h2
  refine ⟨⟨?_, ?_⟩, fun _ _ _ => rfl⟩
  · exact getConnectionKey_injective c1 c2 n1.1 n2.1 n1.2.1 n2.2.1 n1.2.2 n2.2.2
  · rintro ⟨e1, e2, e3, e4, e5⟩
    unfold getConnectionKey
    rw [e1, e2, e3, e4, e5]

/-- C11 at a concrete input: two connections of `netBoth`, which differ in the
local port, have different keys, and a connection keeps its key when its pid,
state and process name change. -/
theorem getConnectionKey_eq_iff_witness :
    parsedFields (tcpConn 50000 "10.0.0.7" 22) ∧
    parsedFields (tcpConn 50001 "10.0.0.7" 22) ∧
    getConnectionKey (tcpConn 50000 "10.0.0.7" 22) ≠
        getConnectionKey (tcpConn 50001 "10.0.0.7" 22) ∧
    getConnectionKey { tcpConn 50001 "10.0.0.7" 22 with
        pid := 77, state := "CLOSE_WAIT", process_name := "sshd" } =
      getConnectionKey (tcpConn 50001 "10.0.0.7" 22) := by
  have p1 : parsedFields (tcpConn 50000 "10.0.0.7" 22) :=
    ⟨Or.inl rfl, Or.inr ⟨83994816, by decide⟩, Or.inr ⟨117440522, by decide⟩⟩
  have p2 : parsedFields (tcpConn 50001 "10.0.0.7" 22) :=
    ⟨Or.inl rfl, Or.inr ⟨83994816, by decide⟩, Or.inr ⟨117440522, by decide⟩⟩
  have h := getConnectionKey_eq_iff (tcpConn 50000 "10.0.0.7" 22)
    (tcpConn 50001 "10.0.0.7" 22) p1 p2
  have h' := getConnectionKey_eq_iff (tcpConn 50001 "10.0.0.7" 22)
    (tcpConn 50001 "10.0.0.7" 22) p2 p2
  refine ⟨p1, p2, fun hk => ?_, h'.2 77 "CLOSE_WAIT" "sshd"⟩
  exact absurd (h.1.1 hk).2.2.1 (by decide)

/-- C12. `getListeningPorts` returns, in snapshot order, exactly the current
connections whose state is "LISTEN" or whose protocol is "UDP" with the remote
address "0.0.0.0": it is the filter of the current connections by that test. -/
theorem getListeningPorts_eq_filter (snap : NetSnapshot) :
    getListeningPorts snap =
      (getCurrentConnections snap).filter (fun c =>
        decide (c.state = "LISTEN" ∨ (c.protocol = "UDP" ∧ c.remote_ip = "0.0.0.0"))) ∧
    (∀ c, c ∈ getListeningPorts snap ↔
      c ∈ getCurrentConnections snap ∧
        (c.state = "LISTEN" ∨ (c.protocol = "UDP" ∧ c.remote_ip = "0.0.0.0"))) := by
  refine ⟨getListeningPorts_eq snap, fun c => ?_⟩
  rw [getListeningPorts_eq, List.mem_filter]
  simp

/-- C13. `getOpenPorts` returns a strictly ascending list, hence one without
repeated values, whose elements are exactly the local ports of the connections
returned by `getListeningPorts`. -/
theorem getOpenPorts_sorted_nodup (snap : NetSnapshot) :
    (getOpenPorts snap).Sorted (· < ·) ∧
    (getOpenPorts snap).Nodup ∧
    (∀ p, p ∈ getOpenPorts snap ↔ ∃ c ∈ getListeningPorts snap, c.local_port = p) := by
  have hs : (getOpenPorts snap).Sorted (· < ·) :=
    stdUnique_sorted _ (List.sorted_insertionSort _ _)
  refine ⟨hs, hs.nodup, fun p => ?_⟩
  unfold getOpenPorts
  rw [mem_stdUnique, (List.perm_insertionSort _ _).mem_iff, getOpenPortsLoop_eq]
  simp

/-- C13 at a concrete input: the snapshot `netListening` has listeners on the
local ports 80, 22, 80 and 53, and its open ports are 22, 53 and 80. -/
theorem getOpenPorts_sorted_nodup_witness :
    (getListeningPorts netListening).map NetworkConnection.local_port = [80, 22, 80, 53] ∧
    getOpenPorts netListening = [22, 53, 80] ∧
    (getOpenPorts netListening).Nodup :=
  ⟨by decide, by decide, (getOpenPorts_sorted_nodup netListening).2.1⟩

/-! ## Lemmas on the baselines of AnomalyDetector -/

theorem foldl_add_eq_doubleSum (l : List ℚ) (acc : DoubleResult) :
    l.foldl (fun (acc : DoubleResult) (x : ℚ) => acc.add x) acc = doubleSum acc l := by
  induction l generalizing acc with
  | nil => rfl
  | cons x rest ih =>
    rw [List.foldl_cons, ih]
    rfl

theorem foldl_add_round_eq_doubleSum (l : List Int) (acc : DoubleResult) :
    l.foldl (fun (acc : DoubleResult) (x : Int) => acc.add (roundFinite (x : ℚ))) acc =
      doubleSum acc (toDoubles l) := by
  induction l generalizing acc with
  | nil => rfl
  | cons x rest ih =>
    rw [List.foldl_cons, ih]
    rfl

theorem scanl_head_mem (l : List ℚ) (a : ℚ) :
    a ∈ l.scanl (fun (acc x : ℚ) => acc + x) a := by
  cases l <;> simp [List.scanl]

theorem doubleSum_exact (l : List ℚ) (a : ℚ)
    (h : (l.scanl (fun (acc x : ℚ) => acc + x) a).all isDouble = true) :
    doubleSum (DoubleResult.finite a) l = DoubleResult.finite (a + l.sum) := by
  induction l generalizing a with
  | nil => simp [doubleSum]
  | cons x rest ih =>
    rw [List.scanl, List.all_cons, Bool.and_eq_true] at h
    have hx : isDouble (a + x) = true :=
      List.all_eq_true.1 h.2 _ (scanl_head_mem rest (a + x))
    have hstep : (DoubleResult.finite a).add x = DoubleResult.finite (a + x) :=
      roundToDouble_of_isDouble _ hx
    rw [doubleSum, hstep, ih _ h.2, List.sum_cons, add_assoc]

theorem doubleMean_exact (l : List ℚ) (h : meanIsExact l = true) :
    doubleMean l = DoubleResult.finite (mean l) := by
  unfold meanIsExact at h
  rw [Bool.and_eq_true, Bool.and_eq_true] at h
  unfold doubleMean
  rw [doubleSum_exact l 0 h.1.1, roundFinite_of_isDouble _ h.1.2, zero_add]
  exact roundToDouble_of_isDouble _ h.2

theorem doubleSum_toDoubles_exact (l : List Int) (a : Int) (ha : 0 ≤ a)
    (hl : ∀ v ∈ l, 0 ≤ v) (hs : a + l.sum < 2 ^ 53) :
    doubleSum (DoubleResult.finite (a : ℚ)) (toDoubles l) =
      DoubleResult.finite ((a + l.sum : Int) : ℚ) := by
  induction l generalizing a with
  | nil => simp [toDoubles, doubleSum]
  | cons v rest ih =>
    have hv : 0 ≤ v := hl v (List.mem_cons_self _ _)
    have hrest : ∀ w ∈ rest, 0 ≤ w := fun w hw => hl w (List.mem_cons_of_mem _ hw)
    have hsum : 0 ≤ rest.sum := List.sum_nonneg hrest
    rw [List.sum_cons] at hs
    have hv53 : |v| < 2 ^ 53 := by rw [abs_of_nonneg hv]; omega
    have hav53 : |a + v| < 2 ^ 53 := by rw [abs_of_nonneg (by omega)]; omega
    have hstep : (DoubleResult.finite (a : ℚ)).add (roundFinite (v : ℚ)) =
        DoubleResult.finite ((a + v : Int) : ℚ) := by
      rw [roundFinite_intCast v hv53]
      show roundToDouble ((a : ℚ) + (v : ℚ)) = _
      rw [← Int.cast_add]
      exact roundToDouble_intCast (a + v) hav53
    have e : toDoubles (v :: rest) = roundFinite (v : ℚ) :: toDoubles rest := rfl
    rw [e, doubleSum, hstep, ih (a + v) (by omega) hrest (by omega), List.sum_cons]
    congr 2
    ring

theorem mean_map_cast (h : List Int) :
    mean (h.map (fun (v : Int) => (v : ℚ))) = ((h.sum : Int) : ℚ) / (h.length : ℚ) := by
  unfold mean
  rw [List.length_map]
  congr 1
  induction h with
  | nil => simp
  | cons v rest ih => rw [List.map_cons, List.sum_cons, List.sum_cons, Int.cast_add, ih]

/-- For a history of non-negative samples whose sum is exact in `double`, the
threshold of `isRapidMemoryIncrease` is finite and within the fraction
`2 ^ -51` of 1.5 times the mean. -/
theorem memoryThreshold_bounds (h : List Int) (hlen : 0 < h.length)
    (hlen53 : h.length < 2 ^ 53) (h0 : ∀ v ∈ h, 0 ≤ v) (hs : h.sum < 2 ^ 51) :
    (doubleMean (toDoubles h)).mul (3 / 2) =
      DoubleResult.finite
        (roundFinite (roundFinite (((h.sum : Int) : ℚ) / (h.length : ℚ)) * (3 / 2))) ∧
    (1 - 1 / 2 ^ 51) * (mean (h.map (fun (v : Int) => (v : ℚ))) * (3 / 2)) ≤
      roundFinite (roundFinite (((h.sum : Int) : ℚ) / (h.length : ℚ)) * (3 / 2)) ∧
    roundFinite (roundFinite (((h.sum : Int) : ℚ) / (h.length : ℚ)) * (3 / 2)) ≤
      (1 + 1 / 2 ^ 51) * (mean (h.map (fun (v : Int) => (v : ℚ))) * (3 / 2)) := by
  have hsum0 : 0 ≤ h.sum := List.sum_nonneg h0
  have hlenT : (toDoubles h).length = h.length := by simp [toDoubles]
  have hS := doubleSum_toDoubles_exact h 0 (le_refl 0) h0 (by omega)
  rw [Int.cast_zero, zero_add] at hS
  have hn : roundFinite ((h.length : ℕ) : ℚ) = (h.length : ℚ) := by
    have := roundFinite_intCast (h.length : Int) (by rw [abs_of_nonneg (by omega)]; omega)
    simpa using this
  rw [mean_map_cast]
  unfold doubleMean
  rw [hlenT, hS, hn]
  have hL : (0 : ℚ) < (h.length : ℚ) := by exact_mod_cast hlen
  rcases eq_or_lt_of_le hsum0 with hz | hpos
  · rw [← hz]
    have r0 : roundToDouble 0 = DoubleResult.finite 0 := by decide!
    simp only [DoubleResult.div, DoubleResult.mul, Int.cast_zero, zero_div, r0, zero_mul,
      roundFinite_zero, mul_zero, le_refl, and_self]
  · have hS1 : (1 : ℚ) ≤ ((h.sum : Int) : ℚ) := by exact_mod_cast hpos
    have hS51 : ((h.sum : Int) : ℚ) ≤ 2 ^ 51 := by exact_mod_cast le_of_lt hs
    have hL53 : (h.length : ℚ) ≤ 2 ^ 53 := by exact_mod_cast le_of_lt hlen53
    have hL1 : (1 : ℚ) ≤ (h.length : ℚ) := by exact_mod_cast hlen
    set S : ℚ := ((h.sum : Int) : ℚ) with hSdef
    set L : ℚ := (h.length : ℚ) with hLdef
    have hq : (1 : ℚ) / 2 ^ 53 ≤ S / L := by
      rw [div_le_div_iff₀ (by norm_num) hL]
      have := mul_le_mul_of_nonneg_right hS1 (by norm_num : (0 : ℚ) ≤ 2 ^ 53)
      linarith
    have hqu : S / L ≤ 2 ^ 51 := by
      rw [div_le_iff₀ hL]
      have := mul_le_mul_of_nonneg_left hL1 (by norm_num : (0 : ℚ) ≤ 2 ^ 51)
      linarith
    have hsmall : (2 : ℚ) ^ (-1022 : Int) ≤ 1 / 2 ^ 60 := by
      rw [one_div, ← zpow_natCast (2 : ℚ) 60, ← zpow_neg]
      exact zpow_le_zpow_right₀ (by norm_num) (by norm_num)
    have rb : ∀ q : ℚ, 1 / 2 ^ 60 ≤ q →
        (1 - 1 / 2 ^ 53) * q ≤ roundFinite q ∧ roundFinite q ≤ (1 + 1 / 2 ^ 53) * q :=
      fun q hq => roundFinite_bounds q (le_trans hsmall hq)
    clear hsmall
    obtain ⟨a1, a2⟩ := rb (S / L) (le_trans (by norm_num) hq)
    set avg := roundFinite (S / L) with havg
    have hqpos : 0 < S / L := lt_of_lt_of_le (by norm_num) hq
    have havgpos : 0 < avg := lt_of_lt_of_le (by positivity) a1
    have havgle : avg ≤ 2 ^ 52 := by
      have := mul_le_mul_of_nonneg_left hqu (by norm_num : (0 : ℚ) ≤ 1 + 1 / 2 ^ 53)
      linarith
    have hfin1 : roundToDouble (S / L) = DoubleResult.finite avg := by
      apply roundToDouble_of_abs_le
      rw [abs_of_pos havgpos]
      refine le_trans havgle (le_trans ?_ maxDouble_ge)
      exact pow_le_pow_right₀ (by norm_num) (by norm_num)
    have hlow2 : (1 : ℚ) / 2 ^ 60 ≤ avg * (3 / 2) := by
      have : (1 - 1 / 2 ^ 53 : ℚ) * (1 / 2 ^ 53) ≤ avg :=
        le_trans (mul_le_mul_of_nonneg_left hq (by norm_num)) a1
      have h3 : (1 : ℚ) / 2 ^ 60 ≤ (1 - 1 / 2 ^ 53 : ℚ) * (1 / 2 ^ 53) * (3 / 2) := by norm_num
      linarith
    obtain ⟨b1, b2⟩ := rb (avg * (3 / 2)) hlow2
    set thr := roundFinite (avg * (3 / 2)) with hthr
    have hthrpos : 0 < thr := lt_of_lt_of_le (by positivity) b1
    have hthrle : thr ≤ 2 ^ 54 := by
      have := mul_le_mul_of_nonneg_left (by linarith : avg * (3 / 2) ≤ 2 ^ 53)
        (by norm_num : (0 : ℚ) ≤ 1 + 1 / 2 ^ 53)
      linarith
    have hfin2 : roundToDouble (avg * (3 / 2)) = DoubleResult.finite thr := by
      apply roundToDouble_of_abs_le
      rw [abs_of_pos hthrpos]
      refine le_trans hthrle (le_trans ?_ maxDouble_ge)
      exact pow_le_pow_right₀ (by norm_num) (by norm_num)
    refine ⟨?_, ?_, ?_⟩
    · simp only [DoubleResult.div, hfin1, DoubleResult.mul, hfin2]
    · have s1 : (1 - 1 / 2 ^ 53 : ℚ) * ((1 - 1 / 2 ^ 53) * (S / L) * (3 / 2)) ≤ thr :=
        le_trans (mul_le_mul_of_nonneg_left
          (mul_le_mul_of_nonneg_right a1 (by norm_num)) (by norm_num)) b1
      refine le_trans ?_ s1
      have e : (1 - 1 / 2 ^ 53 : ℚ) * ((1 - 1 / 2 ^ 53) * (S / L) * (3 / 2)) =
          ((1 - 1 / 2 ^ 53) * (1 - 1 / 2 ^ 53)) * (S / L * (3 / 2)) := by ring
      rw [e]
      exact mul_le_mul_of_nonneg_right (by norm_num) (by positivity)
    · have s1 : thr ≤ (1 + 1 / 2 ^ 53 : ℚ) * ((1 + 1 / 2 ^ 53) * (S / L) * (3 / 2)) :=
        le_trans b2 (mul_le_mul_of_nonneg_left
          (mul_le_mul_of_nonneg_right a2 (by norm_num)) (by norm_num))
      refine le_trans s1 ?_
      have e : (1 + 1 / 2 ^ 53 : ℚ) * ((1 + 1 / 2 ^ 53) * (S / L) * (3 / 2)) =
          ((1 + 1 / 2 ^ 53) * (1 + 1 / 2 ^ 53)) * (S / L * (3 / 2)) := by ring
      rw [e]
      exact mul_le_mul_of_nonneg_right (by norm_num) (by positivity)

/-- For a history of non-negative samples with `3 * sum < 2 ^ 51` and a value
below `2 ^ 53` in magnitude, the test of `isRapidMemoryIncrease` holds exactly
when the value is above 1.5 times the mean. -/
theorem memoryThreshold_exact (h : List Int) (m : Int) (hlen : 0 < h.length)
    (hlen53 : h.length < 2 ^ 53) (h0 : ∀ v ∈ h, 0 ≤ v) (hs : 3 * h.sum < 2 ^ 51)
    (hm : |m| < 2 ^ 53) :
    ((doubleMean (toDoubles h)).mul (3 / 2)).lt (roundFinite (m : ℚ)) = true ↔
      (m : ℚ) > mean (h.map (fun (v : Int) => (v : ℚ))) * (3 / 2) := by
  have hsum0 : 0 ≤ h.sum := List.sum_nonneg h0
  obtain ⟨e, lo, hi⟩ := memoryThreshold_bounds h hlen hlen53 h0 (by omega)
  rw [e, roundFinite_intCast m hm]
  rw [mean_map_cast] at lo hi ⊢
  simp only [DoubleResult.lt, decide_eq_true_eq, gt_iff_lt]
  have hL : (0 : ℚ) < (h.length : ℚ) := by exact_mod_cast hlen
  have hL1 : (1 : ℚ) ≤ (h.length : ℚ) := by exact_mod_cast hlen
  have hS0 : (0 : ℚ) ≤ ((h.sum : Int) : ℚ) := by exact_mod_cast hsum0
  have hS51 : 3 * ((h.sum : Int) : ℚ) < 2 ^ 51 := by exact_mod_cast hs
  have hT : ((h.sum : Int) : ℚ) / (h.length : ℚ) * (3 / 2) =
      3 * ((h.sum : Int) : ℚ) / (2 * (h.length : ℚ)) := by
    rw [div_mul_div_comm, mul_comm ((h.sum : Int) : ℚ) 3, mul_comm (h.length : ℚ) 2]
  have h2L : (0 : ℚ) < 2 * (h.length : ℚ) := by positivity
  constructor
  · intro hlt
    have h1 := lt_of_le_of_lt lo hlt
    rw [hT, ← mul_div_assoc, div_lt_iff₀ h2L] at h1
    have hq : 3 * ((h.sum : Int) : ℚ) - 1 < (m : ℚ) * (2 * (h.length : ℚ)) := by
      linarith
    have hint : 3 * h.sum - 1 < m * (2 * (h.length : Int)) := by exact_mod_cast hq
    have hint' : 3 * h.sum ≤ m * (2 * (h.length : Int)) := by omega
    rcases eq_or_lt_of_le hint' with heq | hgt
    · exfalso
      have heqq : 3 * ((h.sum : Int) : ℚ) = (m : ℚ) * (2 * (h.length : ℚ)) := by
        exact_mod_cast heq
      have hq23 : ((h.sum : Int) : ℚ) / (h.length : ℚ) = 2 * (m : ℚ) / 3 := by
        rw [div_eq_div_iff (ne_of_gt hL) (by norm_num)]
        linarith
      rw [hq23] at hlt
      rcases eq_or_lt_of_le hsum0 with hz | hpos
      · have hm0 : m = 0 := by
          have : m * (2 * (h.length : Int)) = 0 := by rw [← heq, ← hz]; ring
          rcases mul_eq_zero.1 this with h' | h'
          · exact h'
          · omega
        rw [hm0] at hlt
        simp [roundFinite_zero] at hlt
      · have hmpos : 0 < m := by
          by_contra hneg
          have : m * (2 * (h.length : Int)) ≤ 0 :=
            mul_nonpos_of_nonpos_of_nonneg (by omega) (by omega)
          omega
        have hm50 : m < 2 ^ 50 := by
          have : m * 2 ≤ m * (2 * (h.length : Int)) := by
            apply mul_le_mul_of_nonneg_left _ (le_of_lt hmpos)
            omega
          omega
        rw [roundFinite_two_thirds m hmpos hm50] at hlt
        exact lt_irrefl _ hlt
    · rw [hT, div_lt_iff₀ h2L]
      exact_mod_cast hgt
  · intro hgt
    rw [hT, div_lt_iff₀ h2L] at hgt
    have hint : 3 * h.sum < m * (2 * (h.length : Int)) := by exact_mod_cast hgt
    have hint' : 3 * h.sum + 1 ≤ m * (2 * (h.length : Int)) := by omega
    have hq : 3 * ((h.sum : Int) : ℚ) + 1 ≤ (m : ℚ) * (2 * (h.length : ℚ)) := by
      exact_mod_cast hint'
    refine lt_of_le_of_lt hi ?_
    rw [hT, ← mul_div_assoc, div_lt_iff₀ h2L]
    linarith

/-- The `double` sum of at most 10 samples, each 0 or between `lo` and `hi`,
where `lo / 2` is in the normal range and `22 * hi` is finite, is finite, and
every addition moves it by at most the fraction `2 ^ -53`. -/
theorem doubleSum_bounds (lo hi : ℚ) (hlo : 0 < lo) (hhi : 0 < hi)
    (hmin : (2 : ℚ) ^ (-1022 : Int) ≤ 1 / 2 * lo) (hmax : 2 * (11 * hi) ≤ maxDouble)
    (l : List ℚ) : ∀ (a s : ℚ) (i : ℕ),
    (∀ v ∈ l, v = 0 ∨ (lo ≤ v ∧ v ≤ hi)) →
    i + l.length ≤ 10 →
    (s = 0 ∨ lo ≤ s) → s ≤ (i : ℚ) * hi →
    (1 - 1 / 2 ^ 53) ^ i * s ≤ a → a ≤ (1 + 1 / 2 ^ 53) ^ i * s →
    ∃ r, doubleSum (DoubleResult.finite a) l = DoubleResult.finite r ∧
      (1 - 1 / 2 ^ 53) ^ (i + l.length) * (s + l.sum) ≤ r ∧
      r ≤ (1 + 1 / 2 ^ 53) ^ (i + l.length) * (s + l.sum) := by
  have rb : ∀ q : ℚ, 1 / 2 * lo ≤ q →
      (1 - 1 / 2 ^ 53) * q ≤ roundFinite q ∧ roundFinite q ≤ (1 + 1 / 2 ^ 53) * q :=
    fun q hq => roundFinite_bounds q (le_trans hmin hq)
  clear hmin
  induction l with
  | nil =>
    intro a s i _ _ _ _ h1 h2
    exact ⟨a, rfl, by simpa using h1, by simpa using h2⟩
  | cons v rest ih =>
    intro a s i hl hlen hs hsu h1 h2
    have hv := hl v (List.mem_cons_self _ _)
    have hrest : ∀ w ∈ rest, w = 0 ∨ (lo ≤ w ∧ w ≤ hi) :=
      fun w hw => hl w (List.mem_cons_of_mem _ hw)
    rw [List.length_cons] at hlen
    have hv0 : 0 ≤ v := by
      rcases hv with h | h
      · rw [h]
      · linarith [h.1]
    have hvhi : v ≤ hi := by
      rcases hv with h | h
      · rw [h]; exact le_of_lt hhi
      · exact h.2
    have hs0 : 0 ≤ s := by
      rcases hs with h | h
      · rw [h]
      · linarith
    have hpL1 : (1 - 1 / 2 ^ 53 : ℚ) ^ i ≤ 1 := pow_le_one₀ (by norm_num) (by norm_num)
    have hpL0 : (1 : ℚ) / 2 ≤ (1 - 1 / 2 ^ 53 : ℚ) ^ i := one_sub_pow_ge i (by omega)
    have hpU1 : (1 : ℚ) ≤ (1 + 1 / 2 ^ 53 : ℚ) ^ i := one_le_pow₀ (by norm_num)
    have hpU2 : (1 + 1 / 2 ^ 53 : ℚ) ^ (i + 1) ≤ 2 :=
      le_trans (one_add_pow_le (i + 1) (by omega)) (by norm_num)
    have hs' : s + v = 0 ∨ lo ≤ s + v := by
      rcases hs with h | h
      · rcases hv with h' | h'
        · left; rw [h, h']; norm_num
        · right; linarith [h'.1]
      · right; linarith
    have hsu' : s + v ≤ ((i + 1 : ℕ) : ℚ) * hi := by
      push_cast
      linarith
    have hlow : (1 - 1 / 2 ^ 53) ^ i * (s + v) ≤ a + v := by
      have : (1 - 1 / 2 ^ 53 : ℚ) ^ i * v ≤ v := by
        have := mul_le_mul_of_nonneg_right hpL1 hv0
        linarith
      linarith [mul_add ((1 - 1 / 2 ^ 53 : ℚ) ^ i) s v]
    have hupp : a + v ≤ (1 + 1 / 2 ^ 53) ^ i * (s + v) := by
      have : v ≤ (1 + 1 / 2 ^ 53 : ℚ) ^ i * v := by
        have := mul_le_mul_of_nonneg_right hpU1 hv0
        linarith
      linarith [mul_add ((1 + 1 / 2 ^ 53 : ℚ) ^ i) s v]
    have hexp : i + (rest.length + 1) = i + 1 + rest.length := by omega
    have hsumeq : s + (v :: rest).sum = s + v + rest.sum := by
      rw [List.sum_cons]; ring
    rw [List.length_cons, hexp, hsumeq]
    rcases hs' with hz | hpos
    · have hav : a + v = 0 := by
        rw [hz, mul_zero] at hlow hupp
        linarith
      have hstep : (DoubleResult.finite a).add v = DoubleResult.finite 0 := by
        show roundToDouble (a + v) = _
        rw [hav]
        exact roundToDouble_zero
      rw [doubleSum, hstep, hz]
      exact ih 0 0 (i + 1) hrest (by omega) (Or.inl rfl)
        (mul_nonneg (Nat.cast_nonneg _) (le_of_lt hhi)) (by simp) (by simp)
    · have hnorm : 1 / 2 * lo ≤ a + v := by
        have h3 : (1 : ℚ) / 2 * lo ≤ (1 - 1 / 2 ^ 53) ^ i * (s + v) :=
          mul_le_mul hpL0 hpos (le_of_lt hlo) (le_trans (by norm_num) hpL0)
        exact le_trans h3 hlow
      obtain ⟨b1, b2⟩ := rb (a + v) hnorm
      have hsv0 : 0 ≤ s + v := by linarith
      have hb0 : 0 ≤ roundFinite (a + v) := by
        have : (0 : ℚ) ≤ (1 - 1 / 2 ^ 53) * (a + v) :=
          mul_nonneg (by norm_num) (by linarith)
        linarith
      have hlow' : (1 - 1 / 2 ^ 53) ^ (i + 1) * (s + v) ≤ roundFinite (a + v) := by
        have := mul_le_mul_of_nonneg_left hlow (by norm_num : (0 : ℚ) ≤ 1 - 1 / 2 ^ 53)
        rw [pow_succ]
        linarith [mul_assoc ((1 - 1 / 2 ^ 53 : ℚ) ^ i) (1 - 1 / 2 ^ 53) (s + v),
          mul_comm ((1 - 1 / 2 ^ 53 : ℚ) ^ i) (1 - 1 / 2 ^ 53)]
      have hupp' : roundFinite (a + v) ≤ (1 + 1 / 2 ^ 53) ^ (i + 1) * (s + v) := by
        have := mul_le_mul_of_nonneg_left hupp (by norm_num : (0 : ℚ) ≤ 1 + 1 / 2 ^ 53)
        rw [pow_succ]
        linarith [mul_assoc ((1 + 1 / 2 ^ 53 : ℚ) ^ i) (1 + 1 / 2 ^ 53) (s + v),
          mul_comm ((1 + 1 / 2 ^ 53 : ℚ) ^ i) (1 + 1 / 2 ^ 53)]
      have hbmax : |roundFinite (a + v)| ≤ maxDouble := by
        rw [abs_of_nonneg hb0]
        refine le_trans hupp' (le_trans ?_ hmax)
        have h11 : s + v ≤ 11 * hi := by
          have : ((i + 1 : ℕ) : ℚ) ≤ 11 := by exact_mod_cast (by omega : i + 1 ≤ 11)
          exact le_trans hsu' (mul_le_mul_of_nonneg_right this (le_of_lt hhi))
        exact mul_le_mul hpU2 h11 hsv0 (by norm_num)
      have hstep : (DoubleResult.finite a).add v = DoubleResult.finite (roundFinite (a + v)) :=
        roundToDouble_of_abs_le _ hbmax
      rw [doubleSum, hstep]
      exact ih (roundFinite (a + v)) (s + v) (i + 1) hrest (by omega) (Or.inr hpos) hsu'
        hlow' hupp'

theorem sum_zero_or_ge (lo hi : ℚ) (hlo : 0 < lo) (hhi : 0 < hi) (l : List ℚ)
    (hl : ∀ v ∈ l, v = 0 ∨ (lo ≤ v ∧ v ≤ hi)) :
    (l.sum = 0 ∨ lo ≤ l.sum) ∧ 0 ≤ l.sum ∧ l.sum ≤ (l.length : ℚ) * hi := by
  induction l with
  | nil => simp
  | cons v rest ih =>
    have hv := hl v (List.mem_cons_self _ _)
    obtain ⟨h1, h2, h3⟩ := ih (fun w hw => hl w (List.mem_cons_of_mem _ hw))
    rw [List.sum_cons, List.length_cons]
    push_cast
    rcases hv with hv | hv
    · rw [hv, zero_add]
      exact ⟨h1, h2, by linarith⟩
    · exact ⟨Or.inr (by linarith [hv.1]), by linarith [hv.1], by linarith [hv.2]⟩

theorem minNormal_le_thirty : (2 : ℚ) ^ (-1022 : Int) ≤ 30 := by
  have h : (2 : ℚ) ^ (-1022 : Int) ≤ (2 : ℚ) ^ (0 : Int) :=
    zpow_le_zpow_right₀ (by norm_num) (by norm_num)
  rw [zpow_zero] at h
  linarith

/-- For a history of at most 10 samples, each 0 or between `lo` and `hi`, where
`lo / 32` is in the normal range and `8 * hi + 60` is finite, the threshold of
`isRapidCpuSpike` is finite and within the fraction `2 ^ -49` of the mean plus
30. -/
theorem cpuThreshold_bounds_of (lo hi : ℚ) (hlo : 0 < lo) (hhi : 0 < hi)
    (hmin : (2 : ℚ) ^ (-1022 : Int) ≤ 1 / 2 * lo / 16)
    (hmax1 : 2 * (11 * hi) ≤ maxDouble) (hmax2 : 2 * (4 * hi + 30) ≤ maxDouble)
    (h : List ℚ) (hlen : 0 < h.length) (hlen10 : h.length ≤ 10)
    (hl : ∀ v ∈ h, v = 0 ∨ (lo ≤ v ∧ v ≤ hi)) :
    ∃ T, (doubleMean h).add 30 = DoubleResult.finite T ∧
      (1 - 1 / 2 ^ 49) * (mean h + 30) ≤ T ∧ T ≤ (1 + 1 / 2 ^ 49) * (mean h + 30) := by
  have hmin1 : (2 : ℚ) ^ (-1022 : Int) ≤ 1 / 2 * lo := by
    refine le_trans hmin ?_
    rw [div_le_iff₀ (by norm_num : (0 : ℚ) < 16)]
    linarith
  obtain ⟨r, hr, r1, r2⟩ := doubleSum_bounds lo hi hlo hhi hmin1 hmax1 h 0 0 0 hl (by omega)
    (Or.inl rfl) (by simp) (by simp) (by simp)
  have rb1 : ∀ q : ℚ, 1 / 2 * lo / 16 ≤ q →
      (1 - 1 / 2 ^ 53) * q ≤ roundFinite q ∧ roundFinite q ≤ (1 + 1 / 2 ^ 53) * q :=
    fun q hq => roundFinite_bounds q (le_trans hmin hq)
  have rb2 : ∀ q : ℚ, 30 ≤ q →
      (1 - 1 / 2 ^ 53) * q ≤ roundFinite q ∧ roundFinite q ≤ (1 + 1 / 2 ^ 53) * q :=
    fun q hq => roundFinite_bounds q (le_trans minNormal_le_thirty hq)
  clear hmin hmin1
  simp only [zero_add] at r1 r2
  obtain ⟨hsumz, hsum0, hsumhi⟩ := sum_zero_or_ge lo hi hlo hhi h hl
  have hn : roundFinite ((h.length : ℕ) : ℚ) = (h.length : ℚ) := by
    have := roundFinite_intCast (h.length : Int) (by rw [abs_of_nonneg (by omega)]; omega)
    simpa using this
  have hL : (0 : ℚ) < (h.length : ℚ) := by exact_mod_cast hlen
  have hL1 : (1 : ℚ) ≤ (h.length : ℚ) := by exact_mod_cast hlen
  have hL16 : (h.length : ℚ) ≤ 16 := by
    have : (h.length : ℚ) ≤ 10 := by exact_mod_cast hlen10
    linarith
  have h30 : roundToDouble 30 = DoubleResult.finite 30 := by
    have := roundToDouble_intCast 30 (by norm_num)
    simpa using this
  unfold doubleMean mean
  rw [hr, hn]
  rcases hsumz with hz | hpos
  · have hr0 : r = 0 := by
      rw [hz, mul_zero] at r1 r2
      linarith
    refine ⟨30, ?_, ?_, ?_⟩
    · simp only [DoubleResult.div, DoubleResult.add, hr0, zero_div, roundToDouble_zero, zero_add,
        h30]
    · rw [hz, zero_div, zero_add]; norm_num
    · rw [hz, zero_div, zero_add]; norm_num
  · have hpL0 := one_sub_pow_ge h.length (by omega)
    have hpU2 : (1 + 1 / 2 ^ 53 : ℚ) ^ h.length ≤ 2 :=
      le_trans (one_add_pow_le h.length (by omega)) (by norm_num)
    have hrlo : 1 / 2 * lo ≤ r :=
      le_trans (mul_le_mul hpL0 hpos (le_of_lt hlo) (le_trans (by norm_num) hpL0)) r1
    have hhalf : (0 : ℚ) < 1 / 2 * lo := by linarith
    have hrpos : 0 < r := lt_of_lt_of_le hhalf hrlo
    have hq1 : (1 - 1 / 2 ^ 53) ^ h.length * (h.sum / (h.length : ℚ)) ≤ r / (h.length : ℚ) := by
      rw [← mul_div_assoc]
      exact div_le_div_of_nonneg_right r1 (le_of_lt hL)
    have hq2 : r / (h.length : ℚ) ≤ (1 + 1 / 2 ^ 53) ^ h.length * (h.sum / (h.length : ℚ)) := by
      rw [← mul_div_assoc]
      exact div_le_div_of_nonneg_right r2 (le_of_lt hL)
    have hqlo : 1 / 2 * lo / 16 ≤ r / (h.length : ℚ) :=
      div_le_div₀ (le_of_lt hrpos) hrlo hL hL16
    have hmu0 : 0 ≤ h.sum / (h.length : ℚ) := div_nonneg hsum0 (le_of_lt hL)
    have hmuhi : h.sum / (h.length : ℚ) ≤ hi := by
      rw [div_le_iff₀ hL, mul_comm]
      exact hsumhi
    obtain ⟨a1, a2⟩ := rb1 (r / (h.length : ℚ)) hqlo
    have hqpos : 0 < r / (h.length : ℚ) := div_pos hrpos hL
    have havg0 : 0 ≤ roundFinite (r / (h.length : ℚ)) :=
      le_trans (mul_nonneg (by norm_num) (le_of_lt hqpos)) a1
    have hqhi : r / (h.length : ℚ) ≤ 2 * hi :=
      le_trans hq2 (mul_le_mul hpU2 hmuhi hmu0 (by norm_num))
    have havghi : roundFinite (r / (h.length : ℚ)) ≤ 4 * hi := by
      have : (1 + 1 / 2 ^ 53 : ℚ) * (r / (h.length : ℚ)) ≤ 2 * (2 * hi) :=
        mul_le_mul (by norm_num) hqhi (le_of_lt hqpos) (by norm_num)
      linarith
    have hfin1 : roundToDouble (r / (h.length : ℚ)) =
        DoubleResult.finite (roundFinite (r / (h.length : ℚ))) := by
      apply roundToDouble_of_abs_le
      rw [abs_of_nonneg havg0]
      linarith
    have hlow1 : (1 - 1 / 2 ^ 53) ^ (h.length + 1) * (h.sum / (h.length : ℚ)) ≤
        roundFinite (r / (h.length : ℚ)) := by
      rw [pow_succ, mul_comm ((1 - 1 / 2 ^ 53 : ℚ) ^ h.length) _, mul_assoc]
      exact le_trans (mul_le_mul_of_nonneg_left hq1 (by norm_num)) a1
    have hupp1 : roundFinite (r / (h.length : ℚ)) ≤
        (1 + 1 / 2 ^ 53) ^ (h.length + 1) * (h.sum / (h.length : ℚ)) := by
      rw [pow_succ, mul_comm ((1 + 1 / 2 ^ 53 : ℚ) ^ h.length) _, mul_assoc]
      exact le_trans a2 (mul_le_mul_of_nonneg_left hq2 (by norm_num))
    obtain ⟨b1, b2⟩ := rb2 (roundFinite (r / (h.length : ℚ)) + 30) (by linarith)
    have hT0 : 0 ≤ roundFinite (roundFinite (r / (h.length : ℚ)) + 30) :=
      le_trans (mul_nonneg (by norm_num) (by linarith)) b1
    have hThi : roundFinite (roundFinite (r / (h.length : ℚ)) + 30) ≤ 2 * (4 * hi + 30) := by
      have h1 : (1 + 1 / 2 ^ 53 : ℚ) * (roundFinite (r / (h.length : ℚ)) + 30) ≤
          2 * (4 * hi + 30) :=
        mul_le_mul (by norm_num) (by linarith) (by linarith) (by norm_num)
      linarith
    have hfin2 : roundToDouble (roundFinite (r / (h.length : ℚ)) + 30) =
        DoubleResult.finite (roundFinite (roundFinite (r / (h.length : ℚ)) + 30)) := by
      apply roundToDouble_of_abs_le
      rw [abs_of_nonneg hT0]
      exact le_trans hThi hmax2
    have hp1 : (1 - 1 / 2 ^ 53 : ℚ) ^ (h.length + 1) ≤ 1 :=
      pow_le_one₀ (by norm_num) (by norm_num)
    have hP1 : (1 : ℚ) ≤ (1 + 1 / 2 ^ 53 : ℚ) ^ (h.length + 1) := one_le_pow₀ (by norm_num)
    have hm30 : (0 : ℚ) ≤ h.sum / (h.length : ℚ) + 30 := by linarith
    refine ⟨roundFinite (roundFinite (r / (h.length : ℚ)) + 30), ?_, ?_, ?_⟩
    · simp only [DoubleResult.div, DoubleResult.add, hfin1, hfin2]
    · have s1 : (1 - 1 / 2 ^ 53) ^ (h.length + 1) * (h.sum / (h.length : ℚ) + 30) ≤
          roundFinite (r / (h.length : ℚ)) + 30 := by
        rw [mul_add]
        have : (1 - 1 / 2 ^ 53 : ℚ) ^ (h.length + 1) * 30 ≤ 1 * 30 :=
          mul_le_mul_of_nonneg_right hp1 (by norm_num)
        linarith
      have s2 : (1 - 1 / 2 ^ 53) ^ (h.length + 2) * (h.sum / (h.length : ℚ) + 30) ≤
          roundFinite (roundFinite (r / (h.length : ℚ)) + 30) := by
        rw [pow_succ, mul_comm ((1 - 1 / 2 ^ 53 : ℚ) ^ (h.length + 1)) _, mul_assoc]
        exact le_trans (mul_le_mul_of_nonneg_left s1 (by norm_num)) b1
      exact le_trans (mul_le_mul_of_nonneg_right
        (one_sub_pow_ge_tol (h.length + 2) (by omega)) hm30) s2
    · have s1 : roundFinite (r / (h.length : ℚ)) + 30 ≤
          (1 + 1 / 2 ^ 53) ^ (h.length + 1) * (h.sum / (h.length : ℚ) + 30) := by
        rw [mul_add]
        have : (1 : ℚ) * 30 ≤ (1 + 1 / 2 ^ 53 : ℚ) ^ (h.length + 1) * 30 :=
          mul_le_mul_of_nonneg_right hP1 (by norm_num)
        linarith
      have s2 : roundFinite (roundFinite (r / (h.length : ℚ)) + 30) ≤
          (1 + 1 / 2 ^ 53) ^ (h.length + 2) * (h.sum / (h.length : ℚ) + 30) := by
        rw [pow_succ, mul_comm ((1 + 1 / 2 ^ 53 : ℚ) ^ (h.length + 1)) _, mul_assoc]
        exact le_trans b2 (mul_le_mul_of_nonneg_left s1 (by norm_num))
      exact le_trans s2 (mul_le_mul_of_nonneg_right
        (one_add_pow_le (h.length + 2) (by omega)) hm30)

/-- For a history of at most 10 samples, each 0 or between `2 ^ -1000` and
`2 ^ 1000`, the threshold of `isRapidCpuSpike` is finite and within the
fraction `2 ^ -49` of the mean plus 30. -/
theorem cpuThreshold_bounds (h : List ℚ) (hlen : 0 < h.length) (hlen10 : h.length ≤ 10)
    (hl : ∀ v ∈ h, v = 0 ∨ (1 / 2 ^ 1000 ≤ v ∧ v ≤ 2 ^ 1000)) :
    ∃ T, (doubleMean h).add 30 = DoubleResult.finite T ∧
      (1 - 1 / 2 ^ 49) * (mean h + 30) ≤ T ∧ T ≤ (1 + 1 / 2 ^ 49) * (mean h + 30) :=
  cpuThreshold_bounds_of (1 / 2 ^ 1000) (2 ^ 1000) (by positivity) (by positivity)
    minNormal_le_sixteenth
    (le_trans (by norm_num) maxDouble_ge_1020) (le_trans (by norm_num) maxDouble_ge_1020)
    h hlen hlen10 hl

theorem capHistory_eq_lastN {α : Type} (l : List α) (x : α) (h : l.length ≤ 10) :
    capHistory (l ++ [x]) = lastN 10 (l ++ [x]) := by
  unfold capHistory lastN
  by_cases h10 : l.length = 10
  · have hlen : (l ++ [x]).length = 11 := by simp [h10]
    rw [hlen]
    simp
  · have hlen : (l ++ [x]).length ≤ 10 := by
      simp only [List.length_append, List.length_singleton]
      omega
    have h0 : (l ++ [x]).length - 10 = 0 := by omega
    rw [if_neg (by omega), h0, List.drop_zero]

theorem lastN_of_length_le {α : Type} (l : List α) (n : Nat) (h : l.length ≤ n) :
    lastN n l = l := by
  unfold lastN
  have h0 : l.length - n = 0 := by omega
  rw [h0, List.drop_zero]

theorem length_lastN_le {α : Type} (l : List α) (n : Nat) : (lastN n l).length ≤ n := by
  unfold lastN
  rw [List.length_drop]
  omega

theorem isRapidCpuSpike_history (d : AnomalyDetector) (x : ℚ) (h : d.cpu_history.length ≤ 10) :
    (isRapidCpuSpike d x).2 = { d with cpu_history := lastN 10 (d.cpu_history ++ [x]) } := by
  unfold isRapidCpuSpike
  split
  · next hlt =>
    rw [lastN_of_length_le]
    simp only [List.length_append, List.length_singleton]
    omega
  · rw [capHistory_eq_lastN _ _ h]

theorem isRapidMemoryIncrease_history (d : AnomalyDetector) (x : Int)
    (h : d.memory_history.length ≤ 10) :
    (isRapidMemoryIncrease d x).2 =
      { d with memory_history := lastN 10 (d.memory_history ++ [x]) } := by
  unfold isRapidMemoryIncrease
  split
  · next hlt =>
    rw [lastN_of_length_le]
    simp only [List.length_append, List.length_singleton]
    omega
  · rw [capHistory_eq_lastN _ _ h]

theorem isRapidCpuSpike_signal (d : AnomalyDetector) (x : ℚ) :
    (isRapidCpuSpike d x).1 = true ↔
      2 ≤ d.cpu_history.length ∧
        ((doubleMean d.cpu_history).add 30).lt x = true ∧ x > 70 := by
  unfold isRapidCpuSpike doubleMean
  split
  · next hlt =>
    constructor
    · intro h; exact absurd h (by simp)
    · intro h; omega
  · next hge =>
    simp only [foldl_add_eq_doubleSum, Bool.and_eq_true, decide_eq_true_eq]
    constructor
    · intro h; exact ⟨by omega, h⟩
    · intro h; exact h.2

theorem isRapidMemoryIncrease_signal (d : AnomalyDetector) (x : Int) :
    (isRapidMemoryIncrease d x).1 = true ↔
      2 ≤ d.memory_history.length ∧
        ((doubleMean (toDoubles d.memory_history)).mul (3 / 2)).lt (roundFinite (x : ℚ)) =
          true := by
  unfold isRapidMemoryIncrease doubleMean
  have hlen : (toDoubles d.memory_history).length = d.memory_history.length := by
    simp [toDoubles]
  split
  · next hlt =>
    constructor
    · intro h; exact absurd h (by simp)
    · intro h; omega
  · next hge =>
    simp only [foldl_add_round_eq_doubleSum, hlen]
    constructor
    · intro h; exact ⟨by omega, h⟩
    · intro h; exact h.2

theorem isRapidCpuSpike_memory_history (d : AnomalyDetector) (x : ℚ) :
    (isRapidCpuSpike d x).2.memory_history = d.memory_history := by
  unfold isRapidCpuSpike
  split <;> rfl

/-- The alerts of `checkSystemAnomalies`: one per test that holds, in the order
of the tests. -/
theorem checkSystemAnomalies_alerts (d : AnomalyDetector) (c : ℚ) (m : Int) :
    (checkSystemAnomalies d c m).1 =
      (if (isRapidCpuSpike d c).1 = true then [cpuSpikeAlert c] else []) ++
      (if (isRapidMemoryIncrease (isRapidCpuSpike d c).2 m).1 = true then
        [memorySpikeAlert m] else []) ++
      (if c > 90 then [systemOverloadAlert c] else []) := by
  unfold checkSystemAnomalies
  dsimp only
  by_cases h1 : (isRapidCpuSpike d c).1 = true <;>
  by_cases h2 : (isRapidMemoryIncrease (isRapidCpuSpike d c).2 m).1 = true <;>
  by_cases h3 : c > 90 <;> simp [h1, h2, h3]

theorem checkSystemAnomalies_state (d : AnomalyDetector) (c : ℚ) (m : Int) :
    (checkSystemAnomalies d c m).2 = (isRapidMemoryIncrease (isRapidCpuSpike d c).2 m).2 := rfl

theorem mem_checkSystemAnomalies (d : AnomalyDetector) (c : ℚ) (m : Int) (a : AnomalyAlert) :
    a ∈ (checkSystemAnomalies d c m).1 ↔
      ((isRapidCpuSpike d c).1 = true ∧ a = cpuSpikeAlert c) ∨
      ((isRapidMemoryIncrease (isRapidCpuSpike d c).2 m).1 = true ∧ a = memorySpikeAlert m) ∨
      (c > 90 ∧ a = systemOverloadAlert c) := by
  rw [checkSystemAnomalies_alerts]
  by_cases h1 : (isRapidCpuSpike d c).1 = true <;>
  by_cases h2 : (isRapidMemoryIncrease (isRapidCpuSpike d c).2 m).1 = true <;>
  by_cases h3 : c > 90 <;> simp [h1, h2, h3]

theorem resetCounters_frame (d : AnomalyDetector) (now : Int) :
    (resetCounters d now).cpu_history = d.cpu_history ∧
    (resetCounters d now).memory_history = d.memory_history ∧
    (resetCounters d now).known_processes = d.known_processes ∧
    (resetCounters d now).high_cpu_threshold = d.high_cpu_threshold ∧
    (resetCounters d now).high_memory_threshold = d.high_memory_threshold := by
  unfold resetCounters
  split <;> exact ⟨rfl, rfl, rfl, rfl, rfl⟩

theorem updateBaselines_frame (d : AnomalyDetector) (ps : List ProcessInfo) :
    (updateBaselines d ps).cpu_history = d.cpu_history ∧
    (updateBaselines d ps).memory_history = d.memory_history := by
  induction ps generalizing d with
  | nil => exact ⟨rfl, rfl⟩
  | cons p rest ih =>
    unfold updateBaselines
    exact ih _

theorem loadKnownProcessesLoop_frame (d : AnomalyDetector) (lines : List String) :
    (loadKnownProcessesLoop d lines).cpu_history = d.cpu_history ∧
    (loadKnownProcessesLoop d lines).memory_history = d.memory_history := by
  induction lines generalizing d with
  | nil => exact ⟨rfl, rfl⟩
  | cons line rest ih =>
    unfold loadKnownProcessesLoop
    split
    · exact ih _
    · exact ih _

theorem checkNetworkAnomalies_frame (d : AnomalyDetector) (cs : List NetworkConnection) :
    (checkNetworkAnomalies d cs).2.cpu_history = d.cpu_history ∧
    (checkNetworkAnomalies d cs).2.memory_history = d.memory_history ∧
    (checkNetworkAnomalies d cs).2.known_processes = d.known_processes := by
  unfold checkNetworkAnomalies
  dsimp only
  split <;> exact ⟨rfl, rfl, rfl⟩

theorem checkSystemAnomalies_histories_of_le (d : AnomalyDetector) (c : ℚ) (m : Int)
    (hc : d.cpu_history.length ≤ 10) (hm : d.memory_history.length ≤ 10) :
    (checkSystemAnomalies d c m).2.cpu_history = lastN 10 (d.cpu_history ++ [c]) ∧
    (checkSystemAnomalies d c m).2.memory_history = lastN 10 (d.memory_history ++ [m]) := by
  rw [checkSystemAnomalies_state]
  have h1 := isRapidCpuSpike_history d c hc
  have hm1 : (isRapidCpuSpike d c).2.memory_history.length ≤ 10 := by
    rw [isRapidCpuSpike_memory_history]; exact hm
  rw [isRapidMemoryIncrease_history _ m hm1, isRapidCpuSpike_memory_history, h1]
  exact ⟨rfl, rfl⟩

theorem applyOp_histories_le (d : AnomalyDetector) (op : EngineOp)
    (hc : d.cpu_history.length ≤ 10) (hm : d.memory_history.length ≤ 10) :
    (applyOp d op).cpu_history.length ≤ 10 ∧ (applyOp d op).memory_history.length ≤ 10 := by
  cases op with
  | checkProcess now ps =>
    simp only [applyOp, checkProcessAnomalies]
    rw [(updateBaselines_frame _ ps).1, (updateBaselines_frame _ ps).2,
      (resetCounters_frame d now).1, (resetCounters_frame d now).2.1]
    exact ⟨hc, hm⟩
  | checkNetwork cs =>
    simp only [applyOp]
    rw [(checkNetworkAnomalies_frame d cs).1, (checkNetworkAnomalies_frame d cs).2.1]
    exact ⟨hc, hm⟩
  | checkSystem c m =>
    simp only [applyOp]
    obtain ⟨e1, e2⟩ := checkSystemAnomalies_histories_of_le d c m hc hm
    rw [e1, e2]
    exact ⟨length_lastN_le _ _, length_lastN_le _ _⟩
  | configure a b p r => exact ⟨hc, hm⟩
  | loadKnown file =>
    cases file with
    | none => exact ⟨hc, hm⟩
    | some lines =>
      simp only [applyOp, loadKnownProcesses]
      rw [(loadKnownProcessesLoop_frame d lines).1, (loadKnownProcessesLoop_frame d lines).2]
      exact ⟨hc, hm⟩

theorem runOps_histories_le (d : AnomalyDetector) (ops : List EngineOp)
    (hc : d.cpu_history.length ≤ 10) (hm : d.memory_history.length ≤ 10) :
    (runOps d ops).cpu_history.length ≤ 10 ∧ (runOps d ops).memory_history.length ≤ 10 := by
  induction ops generalizing d with
  | nil => exact ⟨hc, hm⟩
  | cons op rest ih =>
    have h := applyOp_histories_le d op hc hm
    exact ih (applyOp d op) h.1 h.2

/-! ## AnomalyDetector: system anomalies -/

/-- C14 fails as stated: after three system passes with the CPU readings 40, 40
and 41 the history holds these samples, whose mean is 121 / 3.  The `double`
70.33333333333334 is above the mean plus 30, which is 211 / 3, and above 70,
and `isRapidCpuSpike` does not signal on it, nor does `checkSystemAnomalies`
emit an alert: the threshold the code compares with is the mean plus 30 in
`double` arithmetic, which is this very reading. -/
theorem isRapidCpuSpike_exact_mean_fails :
    unevenEngine.cpu_history = [40, 40, 41] ∧
    isDouble readingAboveThird = true ∧
    readingAboveThird > mean unevenEngine.cpu_history + 30 ∧
    readingAboveThird > 70 ∧
    (doubleMean unevenEngine.cpu_history).add 30 = DoubleResult.finite readingAboveThird ∧
    (isRapidCpuSpike unevenEngine readingAboveThird).1 = false ∧
    (checkSystemAnomalies unevenEngine readingAboveThird 1000).1 = [] := by
  decide!

/-- C14, as the code has it. With at least 2 samples in the CPU history,
`isRapidCpuSpike x` is true, and `checkSystemAnomalies` emits a CPU_SPIKE
alert, exactly when `x` is above 70 and above the threshold the code computes
in `double` arithmetic from the history as it stood before the call: the
samples added from the oldest on, the sum divided by their number, 30 added,
each operation rounding to nearest.  When no operation rounds (`meanIsExact`,
and the mean plus 30 is a `double`) this is: exactly when `x` is above the
mean plus 30 and above 70.  When the history holds at most 10 samples, each 0
or between 2 ^ -1000 and 2 ^ 1000, the threshold is within the fraction
2 ^ -49 of the mean plus 30: a sample above 70 and above the mean plus 30 by
more than that fraction signals, and a sample that signals is above 70 and
not below the mean plus 30 by more than that fraction.  With fewer than 2
samples neither happens.  On a history of ten samples of 50 the sample 90
signals and the sample 75 does not. -/
theorem isRapidCpuSpike_iff (d : AnomalyDetector) (x : ℚ) (m : Int) :
    (2 ≤ d.cpu_history.length →
      ((isRapidCpuSpike d x).1 = true ↔
        ((doubleMean d.cpu_history).add 30).lt x = true ∧ x > 70)) ∧
    (2 ≤ d.cpu_history.length → meanIsExact d.cpu_history = true →
      isDouble (mean d.cpu_history + 30) = true →
      ((isRapidCpuSpike d x).1 = true ↔ x > mean d.cpu_history + 30 ∧ x > 70)) ∧
    (2 ≤ d.cpu_history.length → d.cpu_history.length ≤ 10 →
      (∀ v ∈ d.cpu_history, v = 0 ∨ (1 / 2 ^ 1000 ≤ v ∧ v ≤ 2 ^ 1000)) →
      (x > (1 + 1 / 2 ^ 49) * (mean d.cpu_history + 30) → x > 70 →
        (isRapidCpuSpike d x).1 = true) ∧
      ((isRapidCpuSpike d x).1 = true →
        x > (1 - 1 / 2 ^ 49) * (mean d.cpu_history + 30) ∧ x > 70)) ∧
    (d.cpu_history.length < 2 → (isRapidCpuSpike d x).1 = false) ∧
    ((∃ a ∈ (checkSystemAnomalies d x m).1, a.type = "CPU_SPIKE") ↔
      (isRapidCpuSpike d x).1 = true) ∧
    (isRapidCpuSpike steadyEngine 90).1 = true ∧
    (isRapidCpuSpike steadyEngine 75).1 = false := by
  refine ⟨fun h2 => ?_, fun h2 hex h30 => ?_, fun h2 h10 hl => ?_, fun hlt => ?_, ?_, ?_, ?_⟩
  · rw [isRapidCpuSpike_signal]
    exact ⟨fun h => h.2, fun h => ⟨h2, h⟩⟩
  · rw [isRapidCpuSpike_signal, doubleMean_exact _ hex]
    have hadd : (DoubleResult.finite (mean d.cpu_history)).add 30 =
        DoubleResult.finite (mean d.cpu_history + 30) := roundToDouble_of_isDouble _ h30
    rw [hadd]
    simp only [DoubleResult.lt, decide_eq_true_eq]
    exact ⟨fun h => h.2, fun h => ⟨h2, h⟩⟩
  · obtain ⟨T, hT, t1, t2⟩ := cpuThreshold_bounds d.cpu_history (by omega) h10 hl
    rw [isRapidCpuSpike_signal, hT]
    simp only [DoubleResult.lt, decide_eq_true_eq]
    exact ⟨fun hx h70 => ⟨h2, lt_of_le_of_lt t2 hx, h70⟩,
      fun h => ⟨lt_of_le_of_lt t1 h.2.1, h.2.2⟩⟩
  · cases hs : (isRapidCpuSpike d x).1 with
    | false => rfl
    | true =>
      have := ((isRapidCpuSpike_signal d x).1 hs).1
      omega
  · constructor
    · rintro ⟨a, ha, hty⟩
      rw [mem_checkSystemAnomalies] at ha
      rcases ha with ⟨h, _⟩ | ⟨_, e⟩ | ⟨_, e⟩
      · exact h
      · rw [e] at hty; simp [cpuSpikeAlert, memorySpikeAlert, systemOverloadAlert] at hty
      · rw [e] at hty; simp [cpuSpikeAlert, memorySpikeAlert, systemOverloadAlert] at hty
    · intro h
      exact ⟨cpuSpikeAlert x, (mem_checkSystemAnomalies d x m _).2 (Or.inl ⟨h, rfl⟩), rfl⟩
  · decide!
  · decide!

/-- C14 at a concrete input: on the history of ten samples of 50, whose mean is
50 in `double` arithmetic as well, the sample 90 raises a CPU_SPIKE alert and
the sample 75 raises none. -/
theorem isRapidCpuSpike_iff_witness :
    mean steadyEngine.cpu_history = 50 ∧
    meanIsExact steadyEngine.cpu_history = true ∧
    ((isRapidCpuSpike steadyEngine 90).1 = true ↔
      (90 : ℚ) > mean steadyEngine.cpu_history + 30 ∧ (90 : ℚ) > 70) ∧
    ((isRapidCpuSpike steadyEngine 75).1 = true →
      (75 : ℚ) > (1 - 1 / 2 ^ 49) * (mean steadyEngine.cpu_history + 30) ∧ (75 : ℚ) > 70) ∧
    (checkSystemAnomalies steadyEngine 90 1000).1.map AnomalyAlert.type = ["CPU_SPIKE"] ∧
    (checkSystemAnomalies steadyEngine 75 1000).1.map AnomalyAlert.type = [] :=
  ⟨by decide!, by decide!,
    (isRapidCpuSpike_iff steadyEngine 90 1000).2.1 (by decide) (by decide!) (by decide!),
    ((isRapidCpuSpike_iff steadyEngine 75 1000).2.2.1 (by decide) (by decide)
      (fun v hv => Or.inr (by
        simp only [steadyEngine, AnomalyDetector.init, List.mem_cons, List.mem_singleton,
          List.not_mem_nil, or_false, or_self] at hv
        rw [hv]
        norm_num))).2,
    by decide!, by decide!⟩

/-- C15. In every state reached from the constructor by calls of the public
methods, both histories hold at most 10 samples, and a call
`checkSystemAnomalies c m` leaves `cpu_history` equal to the last 10 elements
of the old `cpu_history` followed by `c`, and `memory_history` equal to the
last 10 elements of the old `memory_history` followed by `m`. -/
theorem checkSystemAnomalies_histories (now : Int) (ops : List EngineOp) (c : ℚ) (m : Int) :
    (runOps (AnomalyDetector.init now) ops).cpu_history.length ≤ 10 ∧
    (runOps (AnomalyDetector.init now) ops).memory_history.length ≤ 10 ∧
    (checkSystemAnomalies (runOps (AnomalyDetector.init now) ops) c m).2.cpu_history =
      lastN 10 ((runOps (AnomalyDetector.init now) ops).cpu_history ++ [c]) ∧
    (checkSystemAnomalies (runOps (AnomalyDetector.init now) ops) c m).2.memory_history =
      lastN 10 ((runOps (AnomalyDetector.init now) ops).memory_history ++ [m]) := by
  have h := runOps_histories_le (AnomalyDetector.init now) ops (by simp [AnomalyDetector.init])
    (by simp [AnomalyDetector.init])
  have h2 := checkSystemAnomalies_histories_of_le _ c m h.1 h.2
  exact ⟨h.1, h.2, h2.1, h2.2⟩

/-- C16 fails as stated: after two system passes with the memory value
2 ^ 53 + 3 = 9007199254740995 the history holds this value twice.  The value
13510798882111494 is strictly greater than 1.5 times the mean, which is
13510798882111492.5, and `checkSystemAnomalies` emits no alert on it: the
samples are converted to `double`, which gives 9007199254740996, so the code
compares with 13510798882111494. -/
theorem memory_spike_exact_mean_fails :
    wideMemoryEngine.memory_history = [9007199254740995, 9007199254740995] ∧
    (13510798882111494 : ℚ) >
      mean (wideMemoryEngine.memory_history.map (fun (v : Int) => (v : ℚ))) * (3 / 2) ∧
    toDoubles wideMemoryEngine.memory_history = [9007199254740996, 9007199254740996] ∧
    (doubleMean (toDoubles wideMemoryEngine.memory_history)).mul (3 / 2) =
      DoubleResult.finite 13510798882111494 ∧
    (checkSystemAnomalies wideMemoryEngine 10 13510798882111494).1 = [] := by
  decide!

/-- C16, as the code has it. With at least 2 samples in the memory history,
`checkSystemAnomalies` emits a MEMORY_SPIKE alert, of severity WARNING, exactly
when the current memory value, converted to `double`, is strictly greater than
the threshold the code computes in `double` arithmetic from the history as it
stood before the call: the samples converted to `double` and added from the
oldest on, the sum divided by their number, the quotient multiplied by 1.5,
each operation rounding to nearest.  When the samples are non-negative with
three times their sum below 2 ^ 51, there are fewer than 2 ^ 53 of them, and
the value is below 2 ^ 53 in magnitude, this is: exactly when the value is
strictly greater than 1.5 times the mean of the history.  With fewer than 2
samples no such alert is emitted. -/
theorem memory_spike_iff (d : AnomalyDetector) (c : ℚ) (m : Int) :
    (2 ≤ d.memory_history.length →
      ((∃ a ∈ (checkSystemAnomalies d c m).1, a.type = "MEMORY_SPIKE") ↔
        ((doubleMean (toDoubles d.memory_history)).mul (3 / 2)).lt (roundFinite (m : ℚ)) =
          true)) ∧
    (2 ≤ d.memory_history.length → d.memory_history.length < 2 ^ 53 →
      (∀ v ∈ d.memory_history, 0 ≤ v) → 3 * d.memory_history.sum < 2 ^ 51 →
      |m| < 2 ^ 53 →
      ((∃ a ∈ (checkSystemAnomalies d c m).1, a.type = "MEMORY_SPIKE") ↔
        (m : ℚ) > mean (d.memory_history.map (fun (v : Int) => (v : ℚ))) * (3 / 2))) ∧
    (d.memory_history.length < 2 →
      ∀ a ∈ (checkSystemAnomalies d c m).1, a.type ≠ "MEMORY_SPIKE") ∧
    (∀ a ∈ (checkSystemAnomalies d c m).1, a.type = "MEMORY_SPIKE" →
      a = memorySpikeAlert m ∧ a.severity = "WARNING") := by
  have hsig : (isRapidMemoryIncrease (isRapidCpuSpike d c).2 m).1 = true ↔
      2 ≤ d.memory_history.length ∧
        ((doubleMean (toDoubles d.memory_history)).mul (3 / 2)).lt (roundFinite (m : ℚ)) =
          true := by
    rw [isRapidMemoryIncrease_signal, isRapidCpuSpike_memory_history]
  have hty : ∀ a ∈ (checkSystemAnomalies d c m).1, a.type = "MEMORY_SPIKE" →
      (isRapidMemoryIncrease (isRapidCpuSpike d c).2 m).1 = true ∧ a = memorySpikeAlert m := by
    intro a ha hty
    rw [mem_checkSystemAnomalies] at ha
    rcases ha with ⟨_, e⟩ | ⟨h, e⟩ | ⟨_, e⟩
    · rw [e] at hty; simp [cpuSpikeAlert, memorySpikeAlert, systemOverloadAlert] at hty
    · exact ⟨h, e⟩
    · rw [e] at hty; simp [cpuSpikeAlert, memorySpikeAlert, systemOverloadAlert] at hty
  have hiff : 2 ≤ d.memory_history.length →
      ((∃ a ∈ (checkSystemAnomalies d c m).1, a.type = "MEMORY_SPIKE") ↔
        ((doubleMean (toDoubles d.memory_history)).mul (3 / 2)).lt (roundFinite (m : ℚ)) =
          true) := by
    intro h2
    constructor
    · rintro ⟨a, ha, hta⟩
      exact (hsig.1 (hty a ha hta).1).2
    · intro h
      exact ⟨memorySpikeAlert m,
        (mem_checkSystemAnomalies d c m _).2 (Or.inr (Or.inl ⟨hsig.2 ⟨h2, h⟩, rfl⟩)), rfl⟩
  refine ⟨hiff, ?_, ?_, ?_⟩
  · intro h2 hlen h0 hs hm
    rw [hiff h2]
    exact memoryThreshold_exact d.memory_history m (by omega) hlen h0 hs hm
  · intro hlt a ha hta
    have := (hsig.1 (hty a ha hta).1).1
    omega
  · intro a ha hta
    have e := (hty a ha hta).2
    exact ⟨e, by rw [e]; rfl⟩

/-- C16 at a concrete input: on a memory history of two samples of 1000 KB the
value 1501 raises a MEMORY_SPIKE alert and the value 1500, which is exactly
1.5 times the mean, raises none. -/
theorem memory_spike_iff_witness :
    (∃ a ∈ (checkSystemAnomalies steadyEngine 50 1501).1, a.type = "MEMORY_SPIKE") ∧
    (checkSystemAnomalies steadyEngine 50 1500).1 = [] :=
  ⟨((memory_spike_iff steadyEngine 50 1501).2.1 (by decide) (by decide) (by decide)
      (by decide) (by decide)).2 (by decide!),
   by decide!⟩

/-- C17. Whatever the histories hold, the SYSTEM_OVERLOAD alerts emitted by
`checkSystemAnomalies` are one alert, of severity CRITICAL, when
`cpu_usage > 90` and none otherwise; and on the engine `steadyEngine` the call
with a CPU value of 95 emits both CPU_SPIKE and SYSTEM_OVERLOAD. -/
theorem system_overload_iff (d : AnomalyDetector) (c : ℚ) (m : Int) :
    (checkSystemAnomalies d c m).1.filter (fun a => decide (a.type = "SYSTEM_OVERLOAD")) =
      (if c > 90 then [systemOverloadAlert c] else []) ∧
    (systemOverloadAlert c).severity = "CRITICAL" ∧
    ((∃ a ∈ (checkSystemAnomalies d c m).1, a.type = "SYSTEM_OVERLOAD") ↔ c > 90) ∧
    (checkSystemAnomalies steadyEngine 95 1000).1.map AnomalyAlert.type =
      ["CPU_SPIKE", "SYSTEM_OVERLOAD"] := by
  have hfilter : (checkSystemAnomalies d c m).1.filter
      (fun a => decide (a.type = "SYSTEM_OVERLOAD")) =
      (if c > 90 then [systemOverloadAlert c] else []) := by
    rw [checkSystemAnomalies_alerts]
    by_cases h1 : (isRapidCpuSpike d c).1 = true <;>
    by_cases h2 : (isRapidMemoryIncrease (isRapidCpuSpike d c).2 m).1 = true <;>
    by_cases h3 : c > 90 <;>
    simp [h1, h2, h3, List.filter_cons, cpuSpikeAlert, memorySpikeAlert, systemOverloadAlert]
  refine ⟨hfilter, rfl, ?_, by decide!⟩
  constructor
  · rintro ⟨a, ha, hta⟩
    rw [mem_checkSystemAnomalies] at ha
    rcases ha with ⟨_, e⟩ | ⟨_, e⟩ | ⟨h, _⟩
    · rw [e] at hta; simp [cpuSpikeAlert, memorySpikeAlert, systemOverloadAlert] at hta
    · rw [e] at hta; simp [cpuSpikeAlert, memorySpikeAlert, systemOverloadAlert] at hta
    · exact h
  · intro h
    exact ⟨systemOverloadAlert c, (mem_checkSystemAnomalies d c m _).2 (Or.inr (Or.inr ⟨h, rfl⟩)),
      rfl⟩

/-! ## Lemmas on the process pass of AnomalyDetector -/

theorem knownFind_eq_none_iff (m : List (String × Int)) (key : String) :
    knownFind m key = none ↔ key ∉ knownKeys m := by
  induction m with
  | nil => simp [knownFind, knownKeys]
  | cons kv rest ih =>
    obtain ⟨k, v⟩ := kv
    by_cases h : k = key
    · simp [knownFind, knownKeys, h]
    · have h2 : ¬ key = k := fun e => h e.symm
      simp [knownFind, h, h2, ih, knownKeys]

theorem mem_knownKeys_knownSet (m : List (String × Int)) (key : String) (v : Int)
    (k : String) :
    k ∈ knownKeys (knownSet m key v) ↔ k = key ∨ k ∈ knownKeys m := by
  induction m with
  | nil => simp [knownSet, knownKeys]
  | cons kv rest ih =>
    obtain ⟨k0, w⟩ := kv
    by_cases h : k0 = key
    · subst h
      simp [knownSet, knownKeys]
    · simp only [knownSet, h, if_false, knownKeys, List.map_cons, List.mem_cons] at ih ⊢
      rw [ih]
      tauto

theorem mem_knownKeys_knownIncr (m : List (String × Int)) (key k : String) :
    k ∈ knownKeys (knownIncr m key) ↔ k = key ∨ k ∈ knownKeys m := by
  unfold knownIncr
  cases knownFind m key <;> exact mem_knownKeys_knownSet _ _ _ _

theorem mem_knownKeys_updateBaselines (d : AnomalyDetector) (ps : List ProcessInfo)
    (k : String) :
    k ∈ knownKeys (updateBaselines d ps).known_processes ↔
      k ∈ ps.map ProcessInfo.name ∨ k ∈ knownKeys d.known_processes := by
  induction ps generalizing d with
  | nil => simp [updateBaselines]
  | cons p rest ih =>
    unfold updateBaselines
    rw [ih, mem_knownKeys_knownIncr]
    simp only [List.map_cons, List.mem_cons]
    tauto

theorem knownKeys_loadKnownProcessesLoop_mono (d : AnomalyDetector) (lines : List String)
    (k : String) (hk : k ∈ knownKeys d.known_processes) :
    k ∈ knownKeys (loadKnownProcessesLoop d lines).known_processes := by
  induction lines generalizing d with
  | nil => exact hk
  | cons line rest ih =>
    unfold loadKnownProcessesLoop
    split
    · exact ih _ ((mem_knownKeys_knownSet _ _ _ _).2 (Or.inr hk))
    · exact ih _ hk

theorem checkSystemAnomalies_known_processes (d : AnomalyDetector) (c : ℚ) (m : Int) :
    (checkSystemAnomalies d c m).2.known_processes = d.known_processes := by
  rw [checkSystemAnomalies_state]
  unfold isRapidMemoryIncrease isRapidCpuSpike
  split <;> split <;> rfl

theorem checkProcessAnomalies_known_keys (d : AnomalyDetector) (now : Int)
    (ps : List ProcessInfo) (k : String) :
    k ∈ knownKeys (checkProcessAnomalies d now ps).2.known_processes ↔
      k ∈ ps.map ProcessInfo.name ∨ k ∈ knownKeys d.known_processes := by
  unfold checkProcessAnomalies
  dsimp only
  rw [mem_knownKeys_updateBaselines, (resetCounters_frame d now).2.2.1]

theorem knownKeys_applyOp_mono (d : AnomalyDetector) (op : EngineOp) (k : String)
    (hk : k ∈ knownKeys d.known_processes) :
    k ∈ knownKeys (applyOp d op).known_processes := by
  cases op with
  | checkProcess now ps =>
    exact (checkProcessAnomalies_known_keys d now ps k).2 (Or.inr hk)
  | checkNetwork cs =>
    simp only [applyOp]
    rw [(checkNetworkAnomalies_frame d cs).2.2]
    exact hk
  | checkSystem c m =>
    simp only [applyOp]
    rw [checkSystemAnomalies_known_processes]
    exact hk
  | configure a b p r => exact hk
  | loadKnown file =>
    cases file with
    | none => exact hk
    | some lines => exact knownKeys_loadKnownProcessesLoop_mono d lines k hk

theorem knownKeys_runOps_mono (d : AnomalyDetector) (ops : List EngineOp) (k : String)
    (hk : k ∈ knownKeys d.known_processes) :
    k ∈ knownKeys (runOps d ops).known_processes := by
  induction ops generalizing d with
  | nil => exact hk
  | cons op rest ih => exact ih (applyOp d op) (knownKeys_applyOp_mono d op k hk)

theorem strContains_iff (haystack needle : String) :
    strContains haystack needle = true ↔ needle.data <:+: haystack.data := by
  unfold strContains
  rw [List.any_eq_true, List.infix_iff_prefix_suffix]
  constructor
  · rintro ⟨t, ht, hp⟩
    exact ⟨t, List.isPrefixOf_iff_prefix.1 hp, (List.mem_tails _ _).1 ht⟩
  · rintro ⟨t, hp, hs⟩
    exact ⟨t, (List.mem_tails _ _).2 hs, List.isPrefixOf_iff_prefix.2 hp⟩

theorem isUnknownProcessLoop_iff (d : AnomalyDetector) (p : ProcessInfo) (toks : List String) :
    isUnknownProcessLoop d p toks = true ↔
      (∀ tok ∈ toks, ¬ tok.data <:+: p.name.data) ∧
        p.name ∉ knownKeys d.known_processes := by
  induction toks with
  | nil =>
    simp only [isUnknownProcessLoop, List.not_mem_nil, false_implies, implies_true, true_and,
      Option.isNone_iff_eq_none]
    exact knownFind_eq_none_iff _ _
  | cons tok rest ih =>
    unfold isUnknownProcessLoop
    by_cases h : strContains p.name tok = true
    · rw [if_pos h]
      have hin := (strContains_iff p.name tok).1 h
      constructor
      · intro hf; exact absurd hf (by simp)
      · intro hall; exact absurd hin (hall.1 tok (List.mem_cons_self _ _))
    · rw [if_neg h, ih]
      have hnin : ¬ tok.data <:+: p.name.data := fun hi => h ((strContains_iff p.name tok).2 hi)
      constructor
      · rintro ⟨h1, h2⟩
        refine ⟨?_, h2⟩
        intro t ht
        rcases List.mem_cons.1 ht with e | e
        · rw [e]; exact hnin
        · exact h1 t e
      · rintro ⟨h1, h2⟩
        exact ⟨fun t ht => h1 t (List.mem_cons_of_mem _ ht), h2⟩

theorem isUnknownProcess_iff (d : AnomalyDetector) (p : ProcessInfo) :
    isUnknownProcess d p = true ↔
      (∀ tok ∈ common_processes, ¬ tok.data <:+: p.name.data) ∧
        p.name ∉ knownKeys d.known_processes :=
  isUnknownProcessLoop_iff d p common_processes

theorem isUnknownProcess_congr (d d' : AnomalyDetector) (p : ProcessInfo)
    (h : d'.known_processes = d.known_processes) :
    isUnknownProcess d' p = isUnknownProcess d p := by
  have h1 := isUnknownProcess_iff d p
  have h2 := isUnknownProcess_iff d' p
  rw [h] at h2
  rw [Bool.eq_iff_iff, h1, h2]

theorem checkProcessAnomaliesStep_eq (d : AnomalyDetector) (acc : List AnomalyAlert)
    (p : ProcessInfo) :
    checkProcessAnomaliesStep d acc p = acc ++ alertsOfProcess d p := by
  unfold checkProcessAnomaliesStep alertsOfProcess
  by_cases h1 : p.cpu_usage > d.high_cpu_threshold <;>
  by_cases h2 : p.memory_usage > d.high_memory_threshold <;>
  by_cases h3 : isUnknownProcess d p = true <;> simp [h1, h2, h3]

theorem checkProcessAnomaliesLoop_eq (d : AnomalyDetector) (ps : List ProcessInfo)
    (acc : List AnomalyAlert) :
    checkProcessAnomaliesLoop d ps acc = acc ++ ps.flatMap (alertsOfProcess d) := by
  induction ps generalizing acc with
  | nil => simp [checkProcessAnomaliesLoop]
  | cons p rest ih =>
    unfold checkProcessAnomaliesLoop
    rw [ih, checkProcessAnomaliesStep_eq]
    simp [List.flatMap_cons]

theorem alertsOfProcess_resetCounters (d : AnomalyDetector) (now : Int) (p : ProcessInfo) :
    alertsOfProcess (resetCounters d now) p = alertsOfProcess d p := by
  unfold alertsOfProcess
  rw [isUnknownProcess_congr d (resetCounters d now) p (resetCounters_frame d now).2.2.1,
    (resetCounters_frame d now).2.2.2.1, (resetCounters_frame d now).2.2.2.2]

/-- The alerts of `checkProcessAnomalies`: those of each process of the batch,
in batch order, evaluated on the engine as it stood before the call. -/
theorem checkProcessAnomalies_alerts (d : AnomalyDetector) (now : Int) (ps : List ProcessInfo) :
    (checkProcessAnomalies d now ps).1 = ps.flatMap (alertsOfProcess d) := by
  unfold checkProcessAnomalies
  dsimp only
  rw [checkProcessAnomaliesLoop_eq, List.nil_append]
  congr 1
  funext p
  exact alertsOfProcess_resetCounters d now p

theorem flatMap_ite_singleton {α β : Type} (l : List α) (c : α → Prop) [DecidablePred c]
    (f : α → β) :
    l.flatMap (fun a => if c a then [f a] else []) = (l.filter (fun a => decide (c a))).map f := by
  induction l with
  | nil => rfl
  | cons a rest ih =>
    rw [List.flatMap_cons, ih]
    by_cases h : c a
    · simp [h]
    · simp [h]

theorem filter_type_alertsOfProcess (d : AnomalyDetector) (p : ProcessInfo) :
    (alertsOfProcess d p).filter (fun a => decide (a.type = "HIGH_CPU")) =
        (if p.cpu_usage > d.high_cpu_threshold then [highCpuAlert p] else []) ∧
    (alertsOfProcess d p).filter (fun a => decide (a.type = "HIGH_MEMORY")) =
        (if p.memory_usage > d.high_memory_threshold then [highMemoryAlert p] else []) ∧
    (alertsOfProcess d p).filter (fun a => decide (a.type = "UNKNOWN_PROCESS")) =
        (if isUnknownProcess d p = true then [unknownProcessAlert p] else []) := by
  unfold alertsOfProcess
  by_cases h1 : p.cpu_usage > d.high_cpu_threshold <;>
  by_cases h2 : p.memory_usage > d.high_memory_threshold <;>
  by_cases h3 : isUnknownProcess d p = true <;>
  simp [h1, h2, h3, List.filter_cons, highCpuAlert, highMemoryAlert, unknownProcessAlert]

theorem unknownProcessAlert_message_injective (p q : ProcessInfo)
    (h : (unknownProcessAlert p).message = "Unknown process detected: " ++ q.name) :
    p.name = q.name := by
  have hd := congrArg String.data h
  simp only [unknownProcessAlert, String.data_append] at hd
  exact String.ext (List.append_cancel_left hd)

/-! ## AnomalyDetector: process anomalies -/

/-- C18. Among the alerts of `checkProcessAnomalies` the HIGH_CPU alerts are, in
batch order, those of the processes with `cpu_usage > high_cpu_threshold`, and
the HIGH_MEMORY alerts those of the processes with
`memory_usage > high_memory_threshold`; both are of severity WARNING.  The
constructor sets the thresholds to 80 and 1048576, so on a fresh engine a
process at exactly 80 raises no HIGH_CPU alert and one at exactly 1048576 KB no
HIGH_MEMORY alert. -/
theorem high_cpu_memory_alerts (d : AnomalyDetector) (now : Int) (B : List ProcessInfo) :
    (checkProcessAnomalies d now B).1.filter (fun a => decide (a.type = "HIGH_CPU")) =
      (B.filter (fun p => decide (p.cpu_usage > d.high_cpu_threshold))).map highCpuAlert ∧
    (checkProcessAnomalies d now B).1.filter (fun a => decide (a.type = "HIGH_MEMORY")) =
      (B.filter (fun p => decide (p.memory_usage > d.high_memory_threshold))).map
        highMemoryAlert ∧
    (∀ p, (highCpuAlert p).severity = "WARNING" ∧ (highMemoryAlert p).severity = "WARNING") ∧
    (AnomalyDetector.init now).high_cpu_threshold = 80 ∧
    (AnomalyDetector.init now).high_memory_threshold = 1048576 ∧
    (checkProcessAnomalies (AnomalyDetector.init now) now B).1.filter
        (fun a => decide (a.type = "HIGH_CPU")) =
      (B.filter (fun p => decide (p.cpu_usage > 80))).map highCpuAlert ∧
    (checkProcessAnomalies (AnomalyDetector.init now) now B).1.filter
        (fun a => decide (a.type = "HIGH_MEMORY")) =
      (B.filter (fun p => decide (p.memory_usage > 1048576))).map highMemoryAlert ∧
    (∀ p, p.cpu_usage = 80 → p.memory_usage = 1048576 →
      ∀ a ∈ (checkProcessAnomalies (AnomalyDetector.init now) now [p]).1,
        a.type ≠ "HIGH_CPU" ∧ a.type ≠ "HIGH_MEMORY") := by
  have hcpu : ∀ (e : AnomalyDetector) (t : Int) (L : List ProcessInfo),
      (checkProcessAnomalies e t L).1.filter (fun a => decide (a.type = "HIGH_CPU")) =
      (L.filter (fun p => decide (p.cpu_usage > e.high_cpu_threshold))).map highCpuAlert := by
    intro e t L
    rw [checkProcessAnomalies_alerts, List.filter_flatMap]
    simp only [(filter_type_alertsOfProcess e _).1]
    exact flatMap_ite_singleton L (fun p => p.cpu_usage > e.high_cpu_threshold) highCpuAlert
  have hmem : ∀ (e : AnomalyDetector) (t : Int) (L : List ProcessInfo),
      (checkProcessAnomalies e t L).1.filter (fun a => decide (a.type = "HIGH_MEMORY")) =
      (L.filter (fun p => decide (p.memory_usage > e.high_memory_threshold))).map
        highMemoryAlert := by
    intro e t L
    rw [checkProcessAnomalies_alerts, List.filter_flatMap]
    simp only [(filter_type_alertsOfProcess e _).2.1]
    exact flatMap_ite_singleton L (fun p => p.memory_usage > e.high_memory_threshold)
      highMemoryAlert
  refine ⟨hcpu d now B, hmem d now B, fun _ => ⟨rfl, rfl⟩, rfl, rfl,
    hcpu (AnomalyDetector.init now) now B, hmem (AnomalyDetector.init now) now B, ?_⟩
  · intro p h80 hm a ha
    constructor
    · intro hty
      have hmemf : a ∈ (checkProcessAnomalies (AnomalyDetector.init now) now [p]).1.filter
          (fun a => decide (a.type = "HIGH_CPU")) :=
        List.mem_filter.2 ⟨ha, by simpa using hty⟩
      rw [hcpu] at hmemf
      have hthr : (AnomalyDetector.init now).high_cpu_threshold = 80 := rfl
      simp [hthr, h80] at hmemf
    · intro hty
      have hmemf : a ∈ (checkProcessAnomalies (AnomalyDetector.init now) now [p]).1.filter
          (fun a => decide (a.type = "HIGH_MEMORY")) :=
        List.mem_filter.2 ⟨ha, by simpa using hty⟩
      rw [hmem] at hmemf
      have hthr : (AnomalyDetector.init now).high_memory_threshold = 1048576 := rfl
      simp [hthr, hm] at hmemf

/-- C18 at a concrete input: on a fresh engine, of three processes at 80, at
80.5 and at 10 percent CPU, holding 1048576, 2048 and 1048577 KB, only the
second raises HIGH_CPU and only the third raises HIGH_MEMORY. -/
theorem high_cpu_memory_alerts_witness :
    (checkProcessAnomalies (AnomalyDetector.init 0) 0
        [procOf 10 "bash" 80 1048576, procOf 11 "sshd" (161 / 2) 2048,
         procOf 12 "cron" 10 1048577]).1 =
      [highCpuAlert (procOf 11 "sshd" (161 / 2) 2048),
       highMemoryAlert (procOf 12 "cron" 10 1048577)] ∧
    ∀ a ∈ (checkProcessAnomalies (AnomalyDetector.init 0) 0 [procOf 10 "bash" 80 1048576]).1,
      a.type ≠ "HIGH_CPU" ∧ a.type ≠ "HIGH_MEMORY" :=
  ⟨by decide!,
   (high_cpu_memory_alerts (AnomalyDetector.init 0) 0 []).2.2.2.2.2.2.2
     (procOf 10 "bash" 80 1048576) rfl rfl⟩

/-- C19. Among the alerts of `checkProcessAnomalies` the UNKNOWN_PROCESS alerts,
of severity INFO, are in batch order those of the processes for which
`isUnknownProcess` holds on the engine as it stood before the call; and
`isUnknownProcess` holds exactly when none of the fifteen fixed tokens occurs
in the name as a substring and the name is not a key of the known-process map.
A process named "flash", which contains "sh", never raises the alert. -/
theorem unknown_process_iff (d : AnomalyDetector) (now : Int) (B : List ProcessInfo) :
    (checkProcessAnomalies d now B).1.filter (fun a => decide (a.type = "UNKNOWN_PROCESS")) =
      (B.filter (fun p => isUnknownProcess d p)).map unknownProcessAlert ∧
    (∀ p, isUnknownProcess d p = true ↔
      (∀ tok ∈ common_processes, ¬ tok.data <:+: p.name.data) ∧
        p.name ∉ knownKeys d.known_processes) ∧
    common_processes =
      ["init", "kthreadd", "ksoftirqd", "systemd", "bash", "sh", "ssh", "sshd",
       "dbus", "networkd", "resolved", "cron", "rsyslog", "kernel", "migration"] ∧
    (∀ p, (unknownProcessAlert p).severity = "INFO") ∧
    (∀ p, p.name = "flash" → isUnknownProcess d p = false) := by
  refine ⟨?_, isUnknownProcess_iff d, rfl, fun _ => rfl, ?_⟩
  · rw [checkProcessAnomalies_alerts, List.filter_flatMap]
    simp only [(filter_type_alertsOfProcess d _).2.2]
    have h := flatMap_ite_singleton B (fun p => isUnknownProcess d p = true) unknownProcessAlert
    simpa using h
  · intro p hp
    cases hu : isUnknownProcess d p with
    | false => rfl
    | true =>
      have h := ((isUnknownProcess_iff d p).1 hu).1 "sh" (by decide)
      rw [hp] at h
      exact absurd ((strContains_iff "flash" "sh").1 (by decide)) h

/-- C19 at a concrete input: on a fresh engine the process "flash" raises no
alert, and the process "mystery", which contains no token and is not known,
raises UNKNOWN_PROCESS. -/
theorem unknown_process_iff_witness :
    (checkProcessAnomalies (AnomalyDetector.init 0) 0
        [procOf 20 "flash" 1 100, procOf 21 "mystery" 1 100]).1 =
      [unknownProcessAlert (procOf 21 "mystery" 1 100)] ∧
    isUnknownProcess (AnomalyDetector.init 0) (procOf 20 "flash" 1 100) = false :=
  ⟨by decide!,
   (unknown_process_iff (AnomalyDetector.init 0) 0 []).2.2.2.2 (procOf 20 "flash" 1 100) rfl⟩

/-- C20. The keys of the known-process map are never removed: every public
method keeps them, and `checkProcessAnomalies` adds the name of every process
of its batch.  So after `checkProcessAnomalies` on a batch `B`, and after any
further sequence of calls, `isUnknownProcess` is false for every process whose
name occurred in `B`, and no UNKNOWN_PROCESS alert of a later
`checkProcessAnomalies` carries the message built from such a name. -/
theorem unknown_process_once (d : AnomalyDetector) (now : Int) (B : List ProcessInfo)
    (ops : List EngineOp) (now' : Int) (B' : List ProcessInfo) :
    (∀ k ∈ knownKeys d.known_processes, k ∈ knownKeys (runOps d ops).known_processes) ∧
    (∀ p ∈ B, p.name ∈ knownKeys (checkProcessAnomalies d now B).2.known_processes) ∧
    (∀ q : ProcessInfo, q.name ∈ B.map ProcessInfo.name →
      isUnknownProcess (runOps (checkProcessAnomalies d now B).2 ops) q = false) ∧
    (∀ a ∈ (checkProcessAnomalies (runOps (checkProcessAnomalies d now B).2 ops) now' B').1,
      a.type = "UNKNOWN_PROCESS" →
      ∀ p ∈ B, a.message ≠ "Unknown process detected: " ++ p.name) := by
  have hadd : ∀ p ∈ B, p.name ∈ knownKeys (checkProcessAnomalies d now B).2.known_processes := by
    intro p hp
    exact (checkProcessAnomalies_known_keys d now B p.name).2
      (Or.inl (List.mem_map_of_mem ProcessInfo.name hp))
  have hknown : ∀ q : ProcessInfo, q.name ∈ B.map ProcessInfo.name →
      isUnknownProcess (runOps (checkProcessAnomalies d now B).2 ops) q = false := by
    intro q hq
    cases hu : isUnknownProcess (runOps (checkProcessAnomalies d now B).2 ops) q with
    | false => rfl
    | true =>
      have hnot := ((isUnknownProcess_iff _ q).1 hu).2
      have hin := knownKeys_runOps_mono (checkProcessAnomalies d now B).2 ops q.name
        ((checkProcessAnomalies_known_keys d now B q.name).2 (Or.inl hq))
      exact absurd hin hnot
  refine ⟨fun k hk => knownKeys_runOps_mono d ops k hk, hadd, hknown, ?_⟩
  intro a ha hty p hp hmsg
  have hfil : a ∈ (checkProcessAnomalies (runOps (checkProcessAnomalies d now B).2 ops)
      now' B').1.filter (fun a => decide (a.type = "UNKNOWN_PROCESS")) :=
    List.mem_filter.2 ⟨ha, by simpa using hty⟩
  rw [checkProcessAnomalies_alerts, List.filter_flatMap, List.mem_flatMap] at hfil
  obtain ⟨q, _, hq⟩ := hfil
  rw [(filter_type_alertsOfProcess _ q).2.2] at hq
  by_cases hu : isUnknownProcess (runOps (checkProcessAnomalies d now B).2 ops) q = true
  · rw [if_pos hu, List.mem_singleton] at hq
    rw [hq] at hmsg
    have hname := unknownProcessAlert_message_injective q p hmsg
    have := hknown q (by rw [hname]; exact List.mem_map_of_mem ProcessInfo.name hp)
    rw [this] at hu
    exact absurd hu (by simp)
  · rw [if_neg hu] at hq
    exact absurd hq (List.not_mem_nil _)

/-- C20 at a concrete input: the process "mystery" raises UNKNOWN_PROCESS in a
first batch and, after a network pass and a system pass, raises nothing in a
second batch. -/
theorem unknown_process_once_witness :
    (checkProcessAnomalies (AnomalyDetector.init 0) 0 [procOf 21 "mystery" 1 100]).1 =
      [unknownProcessAlert (procOf 21 "mystery" 1 100)] ∧
    isUnknownProcess
      (runOps (checkProcessAnomalies (AnomalyDetector.init 0) 0 [procOf 21 "mystery" 1 100]).2
        [EngineOp.checkNetwork [tcpListener 80], EngineOp.checkSystem 50 1000])
      (procOf 21 "mystery" 1 100) = false :=
  ⟨by decide!,
   (unknown_process_once (AnomalyDetector.init 0) 0 [procOf 21 "mystery" 1 100]
      [EngineOp.checkNetwork [tcpListener 80], EngineOp.checkSystem 50 1000] 1 []).2.2.1
      (procOf 21 "mystery" 1 100) (by decide)⟩

/-! ## Lemmas on the network pass of AnomalyDetector -/

theorem checkNetworkAnomaliesStep_eq (acc : List AnomalyAlert) (c : NetworkConnection) :
    checkNetworkAnomaliesStep acc c = acc ++ alertsOfConnection c := by
  unfold checkNetworkAnomaliesStep alertsOfConnection
  by_cases h1 : isSuspiciousPort c.local_port = true <;>
  by_cases h2 : isSuspiciousPort c.remote_port = true <;>
  by_cases h3 : (substr0 c.remote_ip 3 ≠ "127" ∧ substr0 c.remote_ip 3 ≠ "192" ∧
      substr0 c.remote_ip 2 ≠ "10" ∧ substr0 c.local_ip 3 = "192") <;>
  simp [h1, h2, h3]

theorem checkNetworkAnomaliesLoop_eq (cs : List NetworkConnection) (acc : List AnomalyAlert) :
    checkNetworkAnomaliesLoop cs acc = acc ++ cs.flatMap alertsOfConnection := by
  induction cs generalizing acc with
  | nil => simp [checkNetworkAnomaliesLoop]
  | cons c rest ih =>
    unfold checkNetworkAnomaliesLoop
    rw [ih, checkNetworkAnomaliesStep_eq]
    simp [List.flatMap_cons]

/-- The alerts of `checkNetworkAnomalies`: those of each connection in batch
order, followed by the RAPID_CONNECTIONS alert when the counter exceeds the
maximum. -/
theorem checkNetworkAnomalies_alerts (d : AnomalyDetector) (cs : List NetworkConnection) :
    (checkNetworkAnomalies d cs).1 =
      cs.flatMap alertsOfConnection ++
      (if wrapInt32 (d.new_connections_count + cs.length) > d.max_new_connections_per_minute
        then [rapidConnectionsAlert (wrapInt32 (d.new_connections_count + cs.length))]
        else []) := by
  unfold checkNetworkAnomalies
  dsimp only
  rw [checkNetworkAnomaliesLoop_eq, List.nil_append]
  split <;> simp

theorem checkNetworkAnomalies_state (d : AnomalyDetector) (cs : List NetworkConnection) :
    (checkNetworkAnomalies d cs).2 =
      { d with new_connections_count := wrapInt32 (d.new_connections_count + cs.length) } := by
  unfold checkNetworkAnomalies
  dsimp only
  split <;> rfl

theorem wrapInt32_of_range (x : Int) (h1 : -2147483648 ≤ x) (h2 : x < 2147483648) :
    wrapInt32 x = x := by
  unfold wrapInt32
  norm_num
  omega

theorem filter_type_alertsOfConnection (c : NetworkConnection) :
    (alertsOfConnection c).filter (fun a => decide (a.type = "SUSPICIOUS_PORT")) =
        (if isSuspiciousPort c.local_port = true then [suspiciousLocalPortAlert c] else []) ++
        (if isSuspiciousPort c.remote_port = true then [suspiciousRemotePortAlert c] else []) ∧
    (alertsOfConnection c).filter (fun a => decide (a.type = "EXTERNAL_CONNECTION")) =
        (if substr0 c.remote_ip 3 ≠ "127" ∧ substr0 c.remote_ip 3 ≠ "192" ∧
            substr0 c.remote_ip 2 ≠ "10" ∧ substr0 c.local_ip 3 = "192" then
          [externalConnectionAlert c] else []) ∧
    (alertsOfConnection c).filter (fun a => decide (a.type = "RAPID_CONNECTIONS")) = [] := by
  unfold alertsOfConnection
  by_cases h1 : isSuspiciousPort c.local_port = true <;>
  by_cases h2 : isSuspiciousPort c.remote_port = true <;>
  by_cases h3 : (substr0 c.remote_ip 3 ≠ "127" ∧ substr0 c.remote_ip 3 ≠ "192" ∧
      substr0 c.remote_ip 2 ≠ "10" ∧ substr0 c.local_ip 3 = "192") <;>
  simp [h1, h2, h3, List.filter_cons, suspiciousLocalPortAlert, suspiciousRemotePortAlert,
    externalConnectionAlert]

theorem filter_type_flatMap_alertsOfConnection (cs : List NetworkConnection) :
    (cs.flatMap alertsOfConnection).filter (fun a => decide (a.type = "RAPID_CONNECTIONS")) =
      [] := by
  rw [List.filter_flatMap]
  simp only [(filter_type_alertsOfConnection _).2.2]
  induction cs with
  | nil => rfl
  | cons c rest ih => rw [List.flatMap_cons, ih]; rfl

theorem isSuspiciousPort_iff (p : Int) :
    isSuspiciousPort p = true ↔
      p ∈ [4444, 5555, 6666, 7777, 8888, 9999, 1234, 12345, 54321, 31337, 1337,
           6667, 6668, 6669, 8080, 9000, 9001] := by
  unfold isSuspiciousPort suspicious_ports
  simp only [List.contains_eq_any_beq, List.any_eq_true, beq_iff_eq, List.mem_cons,
    List.mem_singleton, List.not_mem_nil, or_false]
  constructor
  · rintro ⟨x, hx, rfl⟩
    tauto
  · intro h
    exact ⟨p, by tauto, rfl⟩

theorem mem_alertsOfConnection (c : NetworkConnection) (a : AnomalyAlert)
    (ha : a ∈ alertsOfConnection c) :
    (isSuspiciousPort c.local_port = true ∧ a = suspiciousLocalPortAlert c) ∨
    (isSuspiciousPort c.remote_port = true ∧ a = suspiciousRemotePortAlert c) ∨
    a = externalConnectionAlert c := by
  unfold alertsOfConnection at ha
  rw [List.mem_append, List.mem_append] at ha
  rcases ha with (h | h) | h
  · split at h
    · next hs => exact Or.inl ⟨hs, List.mem_singleton.1 h⟩
    · exact absurd h (List.not_mem_nil _)
  · split at h
    · next hs => exact Or.inr (Or.inl ⟨hs, List.mem_singleton.1 h⟩)
    · exact absurd h (List.not_mem_nil _)
  · split at h
    · exact Or.inr (Or.inr (List.mem_singleton.1 h))
    · exact absurd h (List.not_mem_nil _)

theorem filter_suspicious_checkNetworkAnomalies (d : AnomalyDetector)
    (cs : List NetworkConnection) :
    (checkNetworkAnomalies d cs).1.filter (fun a => decide (a.type = "SUSPICIOUS_PORT")) =
      cs.flatMap (fun c =>
        (if isSuspiciousPort c.local_port = true then [suspiciousLocalPortAlert c] else []) ++
        (if isSuspiciousPort c.remote_port = true then [suspiciousRemotePortAlert c]
          else [])) := by
  rw [checkNetworkAnomalies_alerts, List.filter_append, List.filter_flatMap]
  simp only [(filter_type_alertsOfConnection _).1]
  split <;> simp [rapidConnectionsAlert]

/-! ## AnomalyDetector: network anomalies -/

/-- C21, as the code has it. Every connection of the batch with local_port 4444
raises the SUSPICIOUS_PORT alert of its local port.  No alert of any result is
the local-port alert of port 443, and a connection with local_port 443 raises
a SUSPICIOUS_PORT alert, the one of its remote port, exactly when its
remote_port is on the list. -/
theorem suspicious_port_4444_443 (d : AnomalyDetector) (cs : List NetworkConnection) :
    (∀ c ∈ cs, c.local_port = 4444 →
      suspiciousLocalPortAlert c ∈ (checkNetworkAnomalies d cs).1 ∧
      (suspiciousLocalPortAlert c).type = "SUSPICIOUS_PORT") ∧
    (∀ a ∈ (checkNetworkAnomalies d cs).1, a.message ≠ "Suspicious port detected: 443") ∧
    (∀ c : NetworkConnection, c.local_port = 443 →
      (checkNetworkAnomalies d [c]).1.filter (fun a => decide (a.type = "SUSPICIOUS_PORT")) =
        (if isSuspiciousPort c.remote_port = true then [suspiciousRemotePortAlert c]
          else [])) := by
  refine ⟨?_, ?_, ?_⟩
  · intro c hc h4444
    refine ⟨?_, rfl⟩
    rw [checkNetworkAnomalies_alerts, List.mem_append, List.mem_flatMap]
    refine Or.inl ⟨c, hc, ?_⟩
    unfold alertsOfConnection
    have hs : isSuspiciousPort c.local_port = true := by rw [h4444]; decide
    simp [hs]
  · intro a ha hmsg
    rw [checkNetworkAnomalies_alerts, List.mem_append, List.mem_flatMap] at ha
    rcases ha with ⟨c, _, hc⟩ | hr
    · rcases mem_alertsOfConnection c a hc with ⟨hs, e⟩ | ⟨_, e⟩ | e
      · rw [e] at hmsg
        have hm : (suspiciousLocalPortAlert c).message =
            "Suspicious port detected: " ++ toString c.local_port := rfl
        have h443 : "Suspicious port detected: 443" =
            "Suspicious port detected: " ++ toString (443 : Int) := by decide
        rw [hm, h443] at hmsg
        have hd := congrArg String.data hmsg
        rw [String.data_append, String.data_append] at hd
        have hp := toString_int_injective _ _ (String.ext (List.append_cancel_left hd))
        rw [hp] at hs
        exact absurd hs (by decide)
      · rw [e] at hmsg
        have hd := congrArg String.data hmsg
        simp [suspiciousRemotePortAlert, String.data_append] at hd
      · rw [e] at hmsg
        simp [externalConnectionAlert] at hmsg
    · split at hr
      · rw [List.mem_singleton] at hr
        rw [hr] at hmsg
        simp [rapidConnectionsAlert] at hmsg
      · exact absurd hr (List.not_mem_nil _)
  · intro c h443
    rw [filter_suspicious_checkNetworkAnomalies]
    have hs : ¬ isSuspiciousPort c.local_port = true := by rw [h443]; decide
    simp [hs]

/-- C21 at a concrete input: a connection from local port 4444 raises the alert,
one from local port 443 to remote port 443 raises nothing. -/
theorem suspicious_port_4444_443_witness :
    suspiciousLocalPortAlert (tcpConn 4444 "10.0.0.7" 22) ∈
      (checkNetworkAnomalies (AnomalyDetector.init 0)
        [tcpConn 4444 "10.0.0.7" 22, tcpConn 443 "10.0.0.7" 443]).1 ∧
    (checkNetworkAnomalies (AnomalyDetector.init 0) [tcpConn 443 "10.0.0.7" 443]).1.filter
      (fun a => decide (a.type = "SUSPICIOUS_PORT")) = [] :=
  ⟨((suspicious_port_4444_443 (AnomalyDetector.init 0)
      [tcpConn 4444 "10.0.0.7" 22, tcpConn 443 "10.0.0.7" 443]).1
      (tcpConn 4444 "10.0.0.7" 22) (by decide) rfl).1,
   (suspicious_port_4444_443 (AnomalyDetector.init 0) []).2.2
      (tcpConn 443 "10.0.0.7" 443) rfl⟩

/-- C21 fails as stated: a connection with local_port 443 and remote_port 4444
raises a SUSPICIOUS_PORT alert. -/
theorem suspicious_port_443_remote_4444 :
    (tcpConn 443 "10.0.0.7" 4444).local_port = 443 ∧
    (checkNetworkAnomalies (AnomalyDetector.init 0) [tcpConn 443 "10.0.0.7" 4444]).1 =
      [suspiciousRemotePortAlert (tcpConn 443 "10.0.0.7" 4444)] ∧
    (suspiciousRemotePortAlert (tcpConn 443 "10.0.0.7" 4444)).type = "SUSPICIOUS_PORT" := by
  decide

/-- C22. `isSuspiciousPort` is true exactly for the seventeen listed ports, and
the SUSPICIOUS_PORT alerts of a call, all of severity WARNING, are in batch
order one for the local port of each connection whose local port is listed and
one for the remote port of each connection whose remote port is listed; their
number is the sum of the two indicators over the batch, so a connection with
both ports on the list raises two. -/
theorem suspicious_port_alert_count (d : AnomalyDetector) (cs : List NetworkConnection) :
    (∀ p, isSuspiciousPort p = true ↔
      p ∈ [4444, 5555, 6666, 7777, 8888, 9999, 1234, 12345, 54321, 31337, 1337,
           6667, 6668, 6669, 8080, 9000, 9001]) ∧
    (checkNetworkAnomalies d cs).1.filter (fun a => decide (a.type = "SUSPICIOUS_PORT")) =
      cs.flatMap (fun c =>
        (if isSuspiciousPort c.local_port = true then [suspiciousLocalPortAlert c] else []) ++
        (if isSuspiciousPort c.remote_port = true then [suspiciousRemotePortAlert c]
          else [])) ∧
    ((checkNetworkAnomalies d cs).1.filter
        (fun a => decide (a.type = "SUSPICIOUS_PORT"))).length =
      (cs.map (fun c =>
        (if isSuspiciousPort c.local_port = true then 1 else 0) +
        (if isSuspiciousPort c.remote_port = true then 1 else 0))).sum ∧
    (∀ c, (suspiciousLocalPortAlert c).severity = "WARNING" ∧
      (suspiciousRemotePortAlert c).severity = "WARNING") ∧
    (∀ c : NetworkConnection, isSuspiciousPort c.local_port = true →
      isSuspiciousPort c.remote_port = true →
      (checkNetworkAnomalies d [c]).1.filter (fun a => decide (a.type = "SUSPICIOUS_PORT")) =
        [suspiciousLocalPortAlert c, suspiciousRemotePortAlert c]) := by
  refine ⟨isSuspiciousPort_iff, filter_suspicious_checkNetworkAnomalies d cs, ?_,
    fun _ => ⟨rfl, rfl⟩, ?_⟩
  · rw [filter_suspicious_checkNetworkAnomalies]
    induction cs with
    | nil => rfl
    | cons c rest ih =>
      rw [List.flatMap_cons, List.length_append, ih, List.map_cons, List.sum_cons]
      by_cases h1 : isSuspiciousPort c.local_port = true <;>
      by_cases h2 : isSuspiciousPort c.remote_port = true <;> simp [h1, h2]
  · intro c h1 h2
    rw [filter_suspicious_checkNetworkAnomalies]
    simp [h1, h2]

/-- C22 at a concrete input: a connection from local port 8080 to remote port
4444 raises two SUSPICIOUS_PORT alerts. -/
theorem suspicious_port_alert_count_witness :
    (checkNetworkAnomalies (AnomalyDetector.init 0) [tcpConn 8080 "10.0.0.7" 4444]).1.filter
        (fun a => decide (a.type = "SUSPICIOUS_PORT")) =
      [suspiciousLocalPortAlert (tcpConn 8080 "10.0.0.7" 4444),
       suspiciousRemotePortAlert (tcpConn 8080 "10.0.0.7" 4444)] :=
  (suspicious_port_alert_count (AnomalyDetector.init 0) []).2.2.2.2
    (tcpConn 8080 "10.0.0.7" 4444) (by decide) (by decide)

theorem filter_external_checkNetworkAnomalies (d : AnomalyDetector)
    (cs : List NetworkConnection) :
    (checkNetworkAnomalies d cs).1.filter (fun a => decide (a.type = "EXTERNAL_CONNECTION")) =
      (cs.filter (fun c => decide (substr0 c.remote_ip 3 ≠ "127" ∧
          substr0 c.remote_ip 3 ≠ "192" ∧ substr0 c.remote_ip 2 ≠ "10" ∧
          substr0 c.local_ip 3 = "192"))).map externalConnectionAlert := by
  rw [checkNetworkAnomalies_alerts, List.filter_append, List.filter_flatMap]
  simp only [(filter_type_alertsOfConnection _).2.1]
  have hr : (if wrapInt32 (d.new_connections_count + cs.length) >
        d.max_new_connections_per_minute
      then [rapidConnectionsAlert (wrapInt32 (d.new_connections_count + cs.length))]
      else []).filter (fun a => decide (a.type = "EXTERNAL_CONNECTION")) = [] := by
    split <;> simp [rapidConnectionsAlert]
  rw [hr, List.append_nil]
  exact flatMap_ite_singleton cs
    (fun c => substr0 c.remote_ip 3 ≠ "127" ∧ substr0 c.remote_ip 3 ≠ "192" ∧
      substr0 c.remote_ip 2 ≠ "10" ∧ substr0 c.local_ip 3 = "192") externalConnectionAlert

theorem filter_rapid_checkNetworkAnomalies (d : AnomalyDetector)
    (cs : List NetworkConnection) :
    (checkNetworkAnomalies d cs).1.filter (fun a => decide (a.type = "RAPID_CONNECTIONS")) =
      (if wrapInt32 (d.new_connections_count + cs.length) > d.max_new_connections_per_minute
        then [rapidConnectionsAlert (wrapInt32 (d.new_connections_count + cs.length))]
        else []) := by
  rw [checkNetworkAnomalies_alerts, List.filter_append, filter_type_flatMap_alertsOfConnection,
    List.nil_append]
  split <;> simp [rapidConnectionsAlert]

theorem checkNetworkAnomalies_max (d : AnomalyDetector) (cs : List NetworkConnection) :
    (checkNetworkAnomalies d cs).2.max_new_connections_per_minute =
      d.max_new_connections_per_minute := by
  rw [checkNetworkAnomalies_state]

theorem runOps_checkNetwork_count (d : AnomalyDetector) (batches : List (List NetworkConnection))
    (hlo : 0 ≤ d.new_connections_count)
    (hhi : d.new_connections_count + ((batches.map List.length).sum : Nat) < 2147483648) :
    (runOps d (batches.map EngineOp.checkNetwork)).new_connections_count =
        d.new_connections_count + ((batches.map List.length).sum : Nat) ∧
    (runOps d (batches.map EngineOp.checkNetwork)).max_new_connections_per_minute =
        d.max_new_connections_per_minute := by
  induction batches generalizing d with
  | nil => simp [runOps]
  | cons B rest ih =>
    simp only [List.map_cons, List.sum_cons, Nat.cast_add] at hhi ⊢
    have hstep : (applyOp d (EngineOp.checkNetwork B)).new_connections_count =
        d.new_connections_count + (B.length : Int) := by
      simp only [applyOp]
      rw [checkNetworkAnomalies_state]
      exact wrapInt32_of_range _ (by omega) (by omega)
    have hmax : (applyOp d (EngineOp.checkNetwork B)).max_new_connections_per_minute =
        d.max_new_connections_per_minute := checkNetworkAnomalies_max d B
    have h := ih (applyOp d (EngineOp.checkNetwork B)) (by rw [hstep]; omega)
      (by rw [hstep]; omega)
    simp only [runOps, List.foldl_cons] at h ⊢
    rw [h.1, h.2, hstep, hmax]
    exact ⟨by ring, rfl⟩

/-- C23. The EXTERNAL_CONNECTION alerts of a call, of severity INFO, are in
batch order those of the connections for which the first three characters of
remote_ip are neither "127" nor "192", the first two characters of remote_ip
are not "10", and the first three characters of local_ip are "192"; a string
shorter than the requested length is compared whole.  From local 192.168.1.5
the remote 100.64.0.1 raises none and the remote 8.8.8.8 raises one. -/
theorem external_connection_iff (d : AnomalyDetector) (cs : List NetworkConnection) :
    (checkNetworkAnomalies d cs).1.filter (fun a => decide (a.type = "EXTERNAL_CONNECTION")) =
      (cs.filter (fun c => decide (substr0 c.remote_ip 3 ≠ "127" ∧
          substr0 c.remote_ip 3 ≠ "192" ∧ substr0 c.remote_ip 2 ≠ "10" ∧
          substr0 c.local_ip 3 = "192"))).map externalConnectionAlert ∧
    (∀ c, (externalConnectionAlert c).severity = "INFO") ∧
    (∀ (s : String) (n : Nat), (substr0 s n).data = s.data.take n) ∧
    (∀ (s : String) (n : Nat), s.data.length ≤ n → substr0 s n = s) ∧
    (checkNetworkAnomalies d [tcpConn 50000 "100.64.0.1" 443]).1.filter
      (fun a => decide (a.type = "EXTERNAL_CONNECTION")) = [] ∧
    (checkNetworkAnomalies d [tcpConn 50000 "8.8.8.8" 443]).1.filter
      (fun a => decide (a.type = "EXTERNAL_CONNECTION")) =
      [externalConnectionAlert (tcpConn 50000 "8.8.8.8" 443)] := by
  refine ⟨filter_external_checkNetworkAnomalies d cs, fun _ => rfl, fun _ _ => rfl, ?_, ?_, ?_⟩
  · intro s n h
    unfold substr0
    rw [List.take_of_length_le h]
  · rw [filter_external_checkNetworkAnomalies]
    decide
  · rw [filter_external_checkNetworkAnomalies]
    decide

/-- C23 at a concrete input: on a fresh engine, of the remotes 100.64.0.1,
8.8.8.8, 127.0.0.1 and the empty address reached from 192.168.1.5, the second
and the fourth raise EXTERNAL_CONNECTION. -/
theorem external_connection_iff_witness :
    (checkNetworkAnomalies (AnomalyDetector.init 0)
        [tcpConn 50000 "100.64.0.1" 443, tcpConn 50001 "8.8.8.8" 443,
         tcpConn 50002 "127.0.0.1" 443, tcpConn 50003 "" 443]).1 =
      [externalConnectionAlert (tcpConn 50001 "8.8.8.8" 443),
       externalConnectionAlert (tcpConn 50003 "" 443)] ∧
    substr0 "" 3 = "" :=
  ⟨by decide, (external_connection_iff (AnomalyDetector.init 0) []).2.2.2.1 "" 3 (by decide)⟩

/-- C24, as the code has it. While the connection counter plus the size of the
batch stays below 2 ^ 31, a call of `checkNetworkAnomalies` adds the size of
its batch to the counter and returns the alerts of the connections followed by
one RAPID_CONNECTIONS alert, of severity WARNING, when the new count is
strictly greater than `max_new_connections_per_minute`, and by none otherwise.
The constructor sets the maximum to 50 and the counter to 0, so after any
batches given to consecutive calls on a fresh engine the counter is their
total size and the next call raises the alert exactly when the total
including its batch is at least 51. -/
theorem rapid_connections_in_range (d : AnomalyDetector) (cs : List NetworkConnection)
    (hlo : -2147483648 ≤ d.new_connections_count)
    (hhi : d.new_connections_count + cs.length < 2147483648) :
    (checkNetworkAnomalies d cs).2.new_connections_count =
        d.new_connections_count + cs.length ∧
    (checkNetworkAnomalies d cs).1 =
        cs.flatMap alertsOfConnection ++
        (if d.new_connections_count + cs.length > d.max_new_connections_per_minute
          then [rapidConnectionsAlert (d.new_connections_count + cs.length)] else []) ∧
    (checkNetworkAnomalies d cs).1.filter (fun a => decide (a.type = "RAPID_CONNECTIONS")) =
        (if d.new_connections_count + cs.length > d.max_new_connections_per_minute
          then [rapidConnectionsAlert (d.new_connections_count + cs.length)] else []) ∧
    (∀ n, (rapidConnectionsAlert n).severity = "WARNING" ∧
      (rapidConnectionsAlert n).type = "RAPID_CONNECTIONS") ∧
    (∀ (now : Int) (batches : List (List NetworkConnection)) (B : List NetworkConnection),
      (batches.map List.length).sum + B.length < 2147483648 →
      (runOps (AnomalyDetector.init now)
          (batches.map EngineOp.checkNetwork)).new_connections_count =
        ((batches.map List.length).sum : Nat) ∧
      ((∃ a ∈ (checkNetworkAnomalies
            (runOps (AnomalyDetector.init now) (batches.map EngineOp.checkNetwork)) B).1,
          a.type = "RAPID_CONNECTIONS") ↔
        51 ≤ (batches.map List.length).sum + B.length)) := by
  have hw : wrapInt32 (d.new_connections_count + cs.length) =
      d.new_connections_count + cs.length := wrapInt32_of_range _ (by omega) hhi
  refine ⟨?_, ?_, ?_, fun _ => ⟨rfl, rfl⟩, ?_⟩
  · rw [checkNetworkAnomalies_state]
    exact hw
  · rw [checkNetworkAnomalies_alerts, hw]
  · rw [filter_rapid_checkNetworkAnomalies, hw]
  · intro now batches B hsum
    have hrun := runOps_checkNetwork_count (AnomalyDetector.init now) batches (le_refl _)
      (by
        have h0 : (AnomalyDetector.init now).new_connections_count = 0 := rfl
        rw [h0]
        omega)
    have h0 : (AnomalyDetector.init now).new_connections_count = 0 := rfl
    have h50 : (AnomalyDetector.init now).max_new_connections_per_minute = 50 := rfl
    rw [h0, zero_add] at hrun
    rw [h50] at hrun
    refine ⟨hrun.1, ?_⟩
    have hfil := filter_rapid_checkNetworkAnomalies
      (runOps (AnomalyDetector.init now) (batches.map EngineOp.checkNetwork)) B
    rw [hrun.1, hrun.2, wrapInt32_of_range _ (by omega) (by omega)] at hfil
    constructor
    · rintro ⟨a, ha, hty⟩
      have hmem : a ∈ (checkNetworkAnomalies
          (runOps (AnomalyDetector.init now) (batches.map EngineOp.checkNetwork)) B).1.filter
          (fun a => decide (a.type = "RAPID_CONNECTIONS")) :=
        List.mem_filter.2 ⟨ha, by simpa using hty⟩
      rw [hfil] at hmem
      split at hmem
      · omega
      · exact absurd hmem (List.not_mem_nil _)
    · intro h51
      have hgt : ((((batches.map List.length).sum : Nat) : Int) + (B.length : Int)) > 50 := by
        omega
      rw [if_pos hgt] at hfil
      have hmem : rapidConnectionsAlert ((((batches.map List.length).sum : Nat) : Int) +
          (B.length : Int)) ∈ (checkNetworkAnomalies
          (runOps (AnomalyDetector.init now) (batches.map EngineOp.checkNetwork)) B).1.filter
          (fun a => decide (a.type = "RAPID_CONNECTIONS")) := by
        rw [hfil]; exact List.mem_singleton.2 rfl
      exact ⟨_, (List.mem_filter.1 hmem).1, rfl⟩

/-- C24 at a concrete input: on a fresh engine a batch of 51 connections brings
the counter to 51 and raises RAPID_CONNECTIONS, and so does the empty batch
that follows. -/
theorem rapid_connections_in_range_witness :
    (checkNetworkAnomalies (AnomalyDetector.init 0)
        (List.replicate 51 (tcpListener 80))).2.new_connections_count = 51 ∧
    (checkNetworkAnomalies (AnomalyDetector.init 0) (List.replicate 50 (tcpListener 80))).1 =
      [] ∧
    (checkNetworkAnomalies (AnomalyDetector.init 0) (List.replicate 51 (tcpListener 80))).1 =
      [rapidConnectionsAlert 51] ∧
    (checkNetworkAnomalies
        (checkNetworkAnomalies (AnomalyDetector.init 0) (List.replicate 51 (tcpListener 80))).2
        []).1 = [rapidConnectionsAlert 51] := by
  have h := rapid_connections_in_range (AnomalyDetector.init 0)
    (List.replicate 51 (tcpListener 80)) (by decide) (by decide)
  refine ⟨?_, by decide, by decide, by decide⟩
  rw [h.1]
  decide

/-- C24 fails as stated: on an engine whose counter holds 2147483647, which one
call on a fresh engine with that many connections produces, a call with a
batch of one connection leaves the counter at -2147483648 instead of adding 1,
and returns no RAPID_CONNECTIONS alert although the count including the batch
exceeds the maximum of 50. -/
theorem rapid_connections_counter_wraps :
    (checkNetworkAnomalies (AnomalyDetector.init 0)
        (List.replicate 2147483647 (tcpListener 80))).2.new_connections_count =
      saturatedEngine.new_connections_count ∧
    saturatedEngine.new_connections_count + 1 > saturatedEngine.max_new_connections_per_minute ∧
    (checkNetworkAnomalies saturatedEngine [tcpListener 80]).2.new_connections_count =
      -2147483648 ∧
    (checkNetworkAnomalies saturatedEngine [tcpListener 80]).1 = [] := by
  refine ⟨?_, by decide, by decide, by decide⟩
  rw [checkNetworkAnomalies_state]
  show wrapInt32 (0 + ((List.replicate 2147483647 (tcpListener 80)).length : Int)) = 2147483647
  rw [List.length_replicate]
  decide

/-! ## AnomalyDetector: counters, configuration and allowlist -/

theorem updateBaselines_eq (d : AnomalyDetector) (ps : List ProcessInfo) :
    updateBaselines d ps =
      { d with known_processes := (updateBaselines d ps).known_processes } := by
  induction ps generalizing d with
  | nil => rfl
  | cons p rest ih =>
    unfold updateBaselines
    exact ih _

theorem loadKnownProcessesLoop_eq (d : AnomalyDetector) (lines : List String) :
    loadKnownProcessesLoop d lines =
      { d with known_processes := (loadKnownProcessesLoop d lines).known_processes } := by
  induction lines generalizing d with
  | nil => rfl
  | cons line rest ih =>
    unfold loadKnownProcessesLoop
    split
    · exact ih _
    · exact ih _

theorem mem_knownKeys_loadKnownProcessesLoop (d : AnomalyDetector) (lines : List String)
    (k : String) :
    k ∈ knownKeys (loadKnownProcessesLoop d lines).known_processes ↔
      k ∈ knownKeys d.known_processes ∨
        (k ∈ lines ∧ k ≠ "" ∧ k.data.head? ≠ some '#') := by
  induction lines generalizing d with
  | nil => simp [loadKnownProcessesLoop]
  | cons line rest ih =>
    unfold loadKnownProcessesLoop
    by_cases h : line ≠ "" ∧ line.data.head? ≠ some '#'
    · rw [if_pos h, ih, mem_knownKeys_knownSet]
      constructor
      · rintro ((e | hk) | ⟨hk, hne⟩)
        · right; rw [e]; exact ⟨List.mem_cons_self _ _, h⟩
        · exact Or.inl hk
        · exact Or.inr ⟨List.mem_cons_of_mem _ hk, hne⟩
      · rintro (hk | ⟨hk, hne⟩)
        · exact Or.inl (Or.inr hk)
        · rcases List.mem_cons.1 hk with e | hk'
          · exact Or.inl (Or.inl e)
          · exact Or.inr ⟨hk', hne⟩
    · rw [if_neg h, ih]
      constructor
      · rintro (hk | ⟨hk, hne⟩)
        · exact Or.inl hk
        · exact Or.inr ⟨List.mem_cons_of_mem _ hk, hne⟩
      · rintro (hk | ⟨hk, hne⟩)
        · exact Or.inl hk
        · rcases List.mem_cons.1 hk with e | hk'
          · rw [e] at hne; exact absurd hne h
          · exact Or.inr ⟨hk', hne⟩

theorem checkProcessAnomalies_state (d : AnomalyDetector) (now : Int) (ps : List ProcessInfo) :
    (checkProcessAnomalies d now ps).2 =
      { resetCounters d now with
        known_processes := (checkProcessAnomalies d now ps).2.known_processes } := by
  unfold checkProcessAnomalies
  exact updateBaselines_eq _ ps

theorem checkSystemAnomalies_counters (d : AnomalyDetector) (c : ℚ) (m : Int) :
    (checkSystemAnomalies d c m).2.new_processes_count = d.new_processes_count ∧
    (checkSystemAnomalies d c m).2.new_connections_count = d.new_connections_count ∧
    (checkSystemAnomalies d c m).2.last_reset_time = d.last_reset_time := by
  rw [checkSystemAnomalies_state]
  unfold isRapidMemoryIncrease isRapidCpuSpike
  split <;> split <;> exact ⟨rfl, rfl, rfl⟩

theorem filter_high_cpu_checkProcessAnomalies (d : AnomalyDetector) (now : Int)
    (B : List ProcessInfo) :
    (checkProcessAnomalies d now B).1.filter (fun a => decide (a.type = "HIGH_CPU")) =
      (B.filter (fun p => decide (p.cpu_usage > d.high_cpu_threshold))).map highCpuAlert := by
  rw [checkProcessAnomalies_alerts, List.filter_flatMap]
  simp only [(filter_type_alertsOfProcess d _).1]
  exact flatMap_ite_singleton B (fun p => p.cpu_usage > d.high_cpu_threshold) highCpuAlert

theorem filter_high_memory_checkProcessAnomalies (d : AnomalyDetector) (now : Int)
    (B : List ProcessInfo) :
    (checkProcessAnomalies d now B).1.filter (fun a => decide (a.type = "HIGH_MEMORY")) =
      (B.filter (fun p => decide (p.memory_usage > d.high_memory_threshold))).map
        highMemoryAlert := by
  rw [checkProcessAnomalies_alerts, List.filter_flatMap]
  simp only [(filter_type_alertsOfProcess d _).2.1]
  exact flatMap_ite_singleton B (fun p => p.memory_usage > d.high_memory_threshold)
    highMemoryAlert

/-- C25. With the clock value read by `resetCounters` as the argument `now`:
`checkProcessAnomalies` sets both counters to 0 and `last_reset_time` to `now`
when `now - last_reset_time ≥ 60` and leaves all three unchanged otherwise.
`checkNetworkAnomalies` leaves `new_processes_count` and `last_reset_time`
unchanged and only adds its batch size to `new_connections_count`;
`checkSystemAnomalies`, `updateConfiguration` and `loadKnownProcesses` leave
all three unchanged. -/
theorem counters_reset_by_process_pass_only (d : AnomalyDetector) (now : Int)
    (ps : List ProcessInfo) (cs : List NetworkConnection) (c : ℚ) (m : Int)
    (cpu_thresh : ℚ) (mem_thresh proc_rate conn_rate : Int) (file : Option (List String)) :
    (now - d.last_reset_time ≥ 60 →
      (checkProcessAnomalies d now ps).2.new_processes_count = 0 ∧
      (checkProcessAnomalies d now ps).2.new_connections_count = 0 ∧
      (checkProcessAnomalies d now ps).2.last_reset_time = now) ∧
    (¬ (now - d.last_reset_time ≥ 60) →
      (checkProcessAnomalies d now ps).2.new_processes_count = d.new_processes_count ∧
      (checkProcessAnomalies d now ps).2.new_connections_count = d.new_connections_count ∧
      (checkProcessAnomalies d now ps).2.last_reset_time = d.last_reset_time) ∧
    ((checkNetworkAnomalies d cs).2.new_processes_count = d.new_processes_count ∧
      (checkNetworkAnomalies d cs).2.new_connections_count =
        wrapInt32 (d.new_connections_count + cs.length) ∧
      (checkNetworkAnomalies d cs).2.last_reset_time = d.last_reset_time) ∧
    ((checkSystemAnomalies d c m).2.new_processes_count = d.new_processes_count ∧
      (checkSystemAnomalies d c m).2.new_connections_count = d.new_connections_count ∧
      (checkSystemAnomalies d c m).2.last_reset_time = d.last_reset_time) ∧
    ((updateConfiguration d cpu_thresh mem_thresh proc_rate conn_rate).new_processes_count =
        d.new_processes_count ∧
      (updateConfiguration d cpu_thresh mem_thresh proc_rate conn_rate).new_connections_count =
        d.new_connections_count ∧
      (updateConfiguration d cpu_thresh mem_thresh proc_rate conn_rate).last_reset_time =
        d.last_reset_time) ∧
    ((loadKnownProcesses d file).new_processes_count = d.new_processes_count ∧
      (loadKnownProcesses d file).new_connections_count = d.new_connections_count ∧
      (loadKnownProcesses d file).last_reset_time = d.last_reset_time) := by
  refine ⟨fun h => ?_, fun h => ?_, ?_, checkSystemAnomalies_counters d c m, ⟨rfl, rfl, rfl⟩, ?_⟩
  · rw [checkProcessAnomalies_state]
    show (resetCounters d now).new_processes_count = 0 ∧
      (resetCounters d now).new_connections_count = 0 ∧
      (resetCounters d now).last_reset_time = now
    unfold resetCounters
    rw [if_pos h]
    exact ⟨rfl, rfl, rfl⟩
  · rw [checkProcessAnomalies_state]
    show (resetCounters d now).new_processes_count = d.new_processes_count ∧
      (resetCounters d now).new_connections_count = d.new_connections_count ∧
      (resetCounters d now).last_reset_time = d.last_reset_time
    unfold resetCounters
    rw [if_neg h]
    exact ⟨rfl, rfl, rfl⟩
  · rw [checkNetworkAnomalies_state]
    exact ⟨rfl, rfl, rfl⟩
  · cases file with
    | none => exact ⟨rfl, rfl, rfl⟩
    | some lines =>
      simp only [loadKnownProcesses]
      rw [loadKnownProcessesLoop_eq]
      exact ⟨rfl, rfl, rfl⟩

/-- C25 at a concrete input: on an engine last reset at time 0 whose connection
counter holds 51, a process pass at time 59 keeps the counter and the reset
time, and a process pass at time 60 sets the counter to 0 and the reset time
to 60. -/
theorem counters_reset_by_process_pass_only_witness :
    (checkProcessAnomalies
        (checkNetworkAnomalies (AnomalyDetector.init 0) (List.replicate 51 (tcpListener 80))).2
        59 []).2.new_connections_count = 51 ∧
    (checkProcessAnomalies
        (checkNetworkAnomalies (AnomalyDetector.init 0) (List.replicate 51 (tcpListener 80))).2
        60 []).2.new_connections_count = 0 ∧
    (checkProcessAnomalies
        (checkNetworkAnomalies (AnomalyDetector.init 0) (List.replicate 51 (tcpListener 80))).2
        60 []).2.last_reset_time = 60 := by
  have h := counters_reset_by_process_pass_only
    (checkNetworkAnomalies (AnomalyDetector.init 0) (List.replicate 51 (tcpListener 80))).2
    60 [] [] 0 0 0 0 0 0 none
  have h60 := h.1 (by decide)
  exact ⟨by decide, h60.2.1, h60.2.2⟩

/-- C26. `updateConfiguration c m p r` sets the four thresholds to `c`, `m`, `p`
and `r` and changes no other field; the next `checkProcessAnomalies` raises
HIGH_CPU and HIGH_MEMORY against `c` and `m`, and the next
`checkNetworkAnomalies` raises RAPID_CONNECTIONS against `r`. -/
theorem updateConfiguration_effect (d : AnomalyDetector) (c : ℚ) (m p r : Int) (now : Int)
    (B : List ProcessInfo) (cs : List NetworkConnection) :
    updateConfiguration d c m p r =
      { d with high_cpu_threshold := c, high_memory_threshold := m,
               max_new_processes_per_minute := p, max_new_connections_per_minute := r } ∧
    ((updateConfiguration d c m p r).cpu_history = d.cpu_history ∧
      (updateConfiguration d c m p r).memory_history = d.memory_history ∧
      (updateConfiguration d c m p r).known_processes = d.known_processes ∧
      (updateConfiguration d c m p r).port_usage_history = d.port_usage_history ∧
      (updateConfiguration d c m p r).new_processes_count = d.new_processes_count ∧
      (updateConfiguration d c m p r).new_connections_count = d.new_connections_count ∧
      (updateConfiguration d c m p r).last_reset_time = d.last_reset_time) ∧
    (checkProcessAnomalies (updateConfiguration d c m p r) now B).1.filter
        (fun a => decide (a.type = "HIGH_CPU")) =
      (B.filter (fun q => decide (q.cpu_usage > c))).map highCpuAlert ∧
    (checkProcessAnomalies (updateConfiguration d c m p r) now B).1.filter
        (fun a => decide (a.type = "HIGH_MEMORY")) =
      (B.filter (fun q => decide (q.memory_usage > m))).map highMemoryAlert ∧
    (checkNetworkAnomalies (updateConfiguration d c m p r) cs).1.filter
        (fun a => decide (a.type = "RAPID_CONNECTIONS")) =
      (if wrapInt32 (d.new_connections_count + cs.length) > r
        then [rapidConnectionsAlert (wrapInt32 (d.new_connections_count + cs.length))]
        else []) :=
  ⟨rfl, ⟨rfl, rfl, rfl, rfl, rfl, rfl, rfl⟩,
   filter_high_cpu_checkProcessAnomalies _ now B,
   filter_high_memory_checkProcessAnomalies _ now B,
   filter_rapid_checkNetworkAnomalies _ cs⟩

/-- C27. With the file as an optional list of lines: `loadKnownProcesses` on a
file that cannot be opened returns the engine unchanged, so the allowlist of a
fresh engine stays empty; on a readable file it changes only the known-process
map, whose keys become the old keys together with the lines that are not empty
and do not start with the character #. -/
theorem loadKnownProcesses_effect (d : AnomalyDetector) (now : Int) (lines : List String) :
    loadKnownProcesses d none = d ∧
    (loadKnownProcesses (AnomalyDetector.init now) none).known_processes = [] ∧
    loadKnownProcesses d (some lines) =
      { d with known_processes := (loadKnownProcesses d (some lines)).known_processes } ∧
    (∀ k, k ∈ knownKeys (loadKnownProcesses d (some lines)).known_processes ↔
      k ∈ knownKeys d.known_processes ∨
        (k ∈ lines ∧ k ≠ "" ∧ k.data.head? ≠ some '#')) :=
  ⟨rfl, rfl, loadKnownProcessesLoop_eq d lines, mem_knownKeys_loadKnownProcessesLoop d lines⟩

/-- C27 at a concrete input: on a fresh engine the file `allowlistLines` adds
exactly the names "backupd" and "metricsd". -/
theorem loadKnownProcesses_effect_witness :
    knownKeys (loadKnownProcesses (AnomalyDetector.init 0) (some allowlistLines)).known_processes
      = ["backupd", "metricsd"] ∧
    ("backupd" ∈ knownKeys
        (loadKnownProcesses (AnomalyDetector.init 0) (some allowlistLines)).known_processes ↔
      "backupd" ∈ knownKeys (AnomalyDetector.init 0).known_processes ∨
        ("backupd" ∈ allowlistLines ∧ "backupd" ≠ "" ∧ "backupd".data.head? ≠ some '#')) :=
  ⟨by decide, (loadKnownProcesses_effect (AnomalyDetector.init 0) 0 allowlistLines).2.2.2 "backupd"⟩

/-! ## Lemmas on the process-rate setting -/

theorem resetCounters_setProcRate (x : Int) (d : AnomalyDetector) (now : Int) :
    resetCounters (setProcRate x d) now = setProcRate x (resetCounters d now) := by
  unfold resetCounters setProcRate
  dsimp only
  split <;> rfl

theorem updateBaselines_setProcRate (x : Int) (d : AnomalyDetector) (ps : List ProcessInfo) :
    updateBaselines (setProcRate x d) ps = setProcRate x (updateBaselines d ps) := by
  induction ps generalizing d with
  | nil => rfl
  | cons p rest ih =>
    unfold updateBaselines
    exact ih { d with known_processes := knownIncr d.known_processes p.name }

theorem loadKnownProcessesLoop_setProcRate (x : Int) (d : AnomalyDetector)
    (lines : List String) :
    loadKnownProcessesLoop (setProcRate x d) lines =
      setProcRate x (loadKnownProcessesLoop d lines) := by
  induction lines generalizing d with
  | nil => rfl
  | cons line rest ih =>
    unfold loadKnownProcessesLoop
    split
    · exact ih { d with known_processes := knownSet d.known_processes line 1 }
    · exact ih d

theorem alertsOfProcess_setProcRate (x : Int) (d : AnomalyDetector) (p : ProcessInfo) :
    alertsOfProcess (setProcRate x d) p = alertsOfProcess d p := by
  unfold alertsOfProcess
  rw [isUnknownProcess_congr d (setProcRate x d) p rfl]
  rfl

theorem checkProcessAnomalies_setProcRate (x : Int) (d : AnomalyDetector) (now : Int)
    (ps : List ProcessInfo) :
    (checkProcessAnomalies (setProcRate x d) now ps).1 = (checkProcessAnomalies d now ps).1 ∧
    (checkProcessAnomalies (setProcRate x d) now ps).2 =
      setProcRate x (checkProcessAnomalies d now ps).2 := by
  constructor
  · rw [checkProcessAnomalies_alerts, checkProcessAnomalies_alerts]
    exact congrArg (fun f => ps.flatMap f) (funext (alertsOfProcess_setProcRate x d))
  · unfold checkProcessAnomalies
    dsimp only
    rw [resetCounters_setProcRate, updateBaselines_setProcRate]

theorem checkNetworkAnomalies_setProcRate (x : Int) (d : AnomalyDetector)
    (cs : List NetworkConnection) :
    (checkNetworkAnomalies (setProcRate x d) cs).1 = (checkNetworkAnomalies d cs).1 ∧
    (checkNetworkAnomalies (setProcRate x d) cs).2 =
      setProcRate x (checkNetworkAnomalies d cs).2 := by
  constructor
  · rw [checkNetworkAnomalies_alerts, checkNetworkAnomalies_alerts]
    rfl
  · rw [checkNetworkAnomalies_state, checkNetworkAnomalies_state]
    rfl

theorem isRapidCpuSpike_setProcRate (x : Int) (d : AnomalyDetector) (c : ℚ) :
    (isRapidCpuSpike (setProcRate x d) c).1 = (isRapidCpuSpike d c).1 ∧
    (isRapidCpuSpike (setProcRate x d) c).2 = setProcRate x (isRapidCpuSpike d c).2 := by
  unfold isRapidCpuSpike setProcRate
  dsimp only
  split <;> exact ⟨rfl, rfl⟩

theorem isRapidMemoryIncrease_setProcRate (x : Int) (d : AnomalyDetector) (m : Int) :
    (isRapidMemoryIncrease (setProcRate x d) m).1 = (isRapidMemoryIncrease d m).1 ∧
    (isRapidMemoryIncrease (setProcRate x d) m).2 =
      setProcRate x (isRapidMemoryIncrease d m).2 := by
  unfold isRapidMemoryIncrease setProcRate
  dsimp only
  split <;> exact ⟨rfl, rfl⟩

theorem checkSystemAnomalies_setProcRate (x : Int) (d : AnomalyDetector) (c : ℚ) (m : Int) :
    (checkSystemAnomalies (setProcRate x d) c m).1 = (checkSystemAnomalies d c m).1 ∧
    (checkSystemAnomalies (setProcRate x d) c m).2 =
      setProcRate x (checkSystemAnomalies d c m).2 := by
  constructor
  · rw [checkSystemAnomalies_alerts, checkSystemAnomalies_alerts,
      (isRapidCpuSpike_setProcRate x d c).1, (isRapidCpuSpike_setProcRate x d c).2,
      (isRapidMemoryIncrease_setProcRate x _ m).1]
  · rw [checkSystemAnomalies_state, checkSystemAnomalies_state,
      (isRapidCpuSpike_setProcRate x d c).2, (isRapidMemoryIncrease_setProcRate x _ m).2]

/-- One call on two engines that differ in the process rate only, with
arguments that differ in `proc_rate` only: same alerts, and engines that again
differ in the process rate only. -/
theorem applyOp_setProcRate (x : Int) (d : AnomalyDetector) (op op' : EngineOp)
    (h : eraseProcRate op = eraseProcRate op') :
    opAlerts (setProcRate x d) op' = opAlerts d op ∧
    ∃ y, applyOp (setProcRate x d) op' = setProcRate y (applyOp d op) := by
  cases op with
  | checkProcess now ps =>
    cases op' with
    | checkProcess now' ps' =>
      simp only [eraseProcRate, EngineOp.checkProcess.injEq] at h
      obtain ⟨rfl, rfl⟩ := h
      exact ⟨(checkProcessAnomalies_setProcRate x d now ps).1,
        x, (checkProcessAnomalies_setProcRate x d now ps).2⟩
    | checkNetwork _ => simp [eraseProcRate] at h
    | checkSystem _ _ => simp [eraseProcRate] at h
    | configure _ _ _ _ => simp [eraseProcRate] at h
    | loadKnown _ => simp [eraseProcRate] at h
  | checkNetwork cs =>
    cases op' with
    | checkNetwork cs' =>
      simp only [eraseProcRate, EngineOp.checkNetwork.injEq] at h
      subst h
      exact ⟨(checkNetworkAnomalies_setProcRate x d cs).1,
        x, (checkNetworkAnomalies_setProcRate x d cs).2⟩
    | checkProcess _ _ => simp [eraseProcRate] at h
    | checkSystem _ _ => simp [eraseProcRate] at h
    | configure _ _ _ _ => simp [eraseProcRate] at h
    | loadKnown _ => simp [eraseProcRate] at h
  | checkSystem c m =>
    cases op' with
    | checkSystem c' m' =>
      simp only [eraseProcRate, EngineOp.checkSystem.injEq] at h
      obtain ⟨rfl, rfl⟩ := h
      exact ⟨(checkSystemAnomalies_setProcRate x d c m).1,
        x, (checkSystemAnomalies_setProcRate x d c m).2⟩
    | checkProcess _ _ => simp [eraseProcRate] at h
    | checkNetwork _ => simp [eraseProcRate] at h
    | configure _ _ _ _ => simp [eraseProcRate] at h
    | loadKnown _ => simp [eraseProcRate] at h
  | configure a b p r =>
    cases op' with
    | configure a' b' p' r' =>
      simp only [eraseProcRate, EngineOp.configure.injEq] at h
      obtain ⟨rfl, rfl, _, rfl⟩ := h
      exact ⟨rfl, p', rfl⟩
    | checkProcess _ _ => simp [eraseProcRate] at h
    | checkNetwork _ => simp [eraseProcRate] at h
    | checkSystem _ _ => simp [eraseProcRate] at h
    | loadKnown _ => simp [eraseProcRate] at h
  | loadKnown file =>
    cases op' with
    | loadKnown file' =>
      simp only [eraseProcRate, EngineOp.loadKnown.injEq] at h
      subst h
      refine ⟨rfl, x, ?_⟩
      cases file with
      | none => rfl
      | some lines => exact loadKnownProcessesLoop_setProcRate x d lines
    | checkProcess _ _ => simp [eraseProcRate] at h
    | checkNetwork _ => simp [eraseProcRate] at h
    | checkSystem _ _ => simp [eraseProcRate] at h
    | configure _ _ _ _ => simp [eraseProcRate] at h

theorem runOps_setProcRate (x : Int) (d : AnomalyDetector) (ops ops' : List EngineOp)
    (h : ops.map eraseProcRate = ops'.map eraseProcRate) :
    runAlerts (setProcRate x d) ops' = runAlerts d ops ∧
    ∃ y, runOps (setProcRate x d) ops' = setProcRate y (runOps d ops) := by
  induction ops generalizing ops' d x with
  | nil =>
    cases ops' with
    | nil => exact ⟨rfl, x, rfl⟩
    | cons _ _ => simp at h
  | cons op rest ih =>
    cases ops' with
    | nil => simp at h
    | cons op' rest' =>
      simp only [List.map_cons, List.cons.injEq] at h
      obtain ⟨ha, y, hy⟩ := applyOp_setProcRate x d op op' h.1
      obtain ⟨hra, z, hz⟩ := ih y (applyOp d op) rest' h.2
      refine ⟨?_, z, ?_⟩
      · simp only [runAlerts]
        rw [ha, hy, hra]
      · simp only [runOps, List.foldl_cons] at hz ⊢
        rw [hy, hz]

theorem applyOp_new_processes_count (d : AnomalyDetector) (op : EngineOp)
    (h : d.new_processes_count = 0) : (applyOp d op).new_processes_count = 0 := by
  cases op with
  | checkProcess now ps =>
    simp only [applyOp]
    rw [checkProcessAnomalies_state]
    show (resetCounters d now).new_processes_count = 0
    unfold resetCounters
    split
    · rfl
    · exact h
  | checkNetwork cs =>
    simp only [applyOp]
    rw [checkNetworkAnomalies_state]
    exact h
  | checkSystem c m =>
    simp only [applyOp]
    rw [(checkSystemAnomalies_counters d c m).1]
    exact h
  | configure a b p r => exact h
  | loadKnown file =>
    cases file with
    | none => exact h
    | some lines =>
      simp only [applyOp, loadKnownProcesses]
      rw [loadKnownProcessesLoop_eq]
      exact h

theorem runOps_new_processes_count (d : AnomalyDetector) (ops : List EngineOp)
    (h : d.new_processes_count = 0) : (runOps d ops).new_processes_count = 0 := by
  induction ops generalizing d with
  | nil => exact h
  | cons op rest ih => exact ih (applyOp d op) (applyOp_new_processes_count d op h)

/-! ## AnomalyDetector: the process rate, and the order of learning -/

/-- C28. Two engines that differ only in `max_new_processes_per_minute`, given
call sequences that differ at most in the `proc_rate` arguments of
`updateConfiguration`, return the same alert list from every call and still
differ only in `max_new_processes_per_minute` afterwards; and
`new_processes_count` is 0 in every state reached from the constructor. -/
theorem process_rate_has_no_effect (d : AnomalyDetector) (x : Int) (ops ops' : List EngineOp)
    (now : Int) :
    (ops.map eraseProcRate = ops'.map eraseProcRate →
      runAlerts (setProcRate x d) ops' = runAlerts d ops ∧
      ∃ y, runOps (setProcRate x d) ops' = setProcRate y (runOps d ops)) ∧
    (runOps (AnomalyDetector.init now) ops).new_processes_count = 0 ∧
    setProcRate d.max_new_processes_per_minute d = d :=
  ⟨runOps_setProcRate x d ops ops', runOps_new_processes_count _ ops rfl, rfl⟩

/-- C28 at a concrete input: a fresh engine and one with the process rate 3 set
return the same alerts from the sequences `sampleOps` and `sampleOpsOtherRate`,
which configure the process rates 10 and 1. -/
theorem process_rate_has_no_effect_witness :
    runAlerts (setProcRate 3 (AnomalyDetector.init 0)) sampleOpsOtherRate =
      runAlerts (AnomalyDetector.init 0) sampleOps ∧
    (runOps (AnomalyDetector.init 0) sampleOps).max_new_processes_per_minute = 10 ∧
    (runOps (setProcRate 3 (AnomalyDetector.init 0))
      sampleOpsOtherRate).max_new_processes_per_minute = 1 :=
  ⟨((process_rate_has_no_effect (AnomalyDetector.init 0) 3 sampleOps sampleOpsOtherRate 0).1
      rfl).1, by decide!, by decide!⟩

theorem pidsOf_getCurrentProcesses (m : ProcessMonitor) (S : ProcSnapshot) :
    pidsOf (getCurrentProcesses m S).1 = (S.filter entryResolved).map ProcEntry.pid := by
  rw [getCurrentProcesses_eq_filter, pidsOf_parsedInfos_filter]

/-- C29. In one iteration of the monitoring loop during which the provider
returns the same process enumeration and the same connection list to every
call, `new_processes`, `terminated_processes` and `new_connections` are empty,
whatever the monitors tracked before the iteration. -/
theorem steady_cycle_reports_nothing (pm : ProcessMonitor) (nm : NetworkMonitor)
    (S : ProcSnapshot) (L : NetSnapshot) :
    (monitorCycleTracking pm nm (steadyReads S L)).1.new_processes = [] ∧
    (monitorCycleTracking pm nm (steadyReads S L)).1.terminated_processes = [] ∧
    (monitorCycleTracking pm nm (steadyReads S L)).1.new_connections = [] := by
  have htbl : ∀ k, k ∈ mapKeys
      (getCurrentProcesses (updateProcessList pm S) S).2.previous_processes ↔
      k ∈ (S.filter entryResolved).map ProcEntry.pid := by
    intro k
    rw [getCurrentProcesses_previous_processes, mem_tracked_updateProcessList,
      pidsOf_getCurrentProcesses]
  refine ⟨?_, ?_, ?_⟩
  · show (getNewProcesses (getCurrentProcesses (updateProcessList pm S) S).2 S).1 = []
    rw [getNewProcesses_fst, List.filter_eq_nil_iff]
    intro p hp
    have hpid : p.pid ∈ pidsOf
        (getCurrentProcesses (getCurrentProcesses (updateProcessList pm S) S).2 S).1 :=
      List.mem_map_of_mem ProcessInfo.pid hp
    rw [pidsOf_getCurrentProcesses] at hpid
    simp only [decide_eq_true_eq, not_not]
    exact (htbl p.pid).2 hpid
  · show getTerminatedProcesses
      (getNewProcesses (getCurrentProcesses (updateProcessList pm S) S).2 S).2 S = []
    rw [List.eq_nil_iff_forall_not_mem]
    intro k hk
    rw [mem_getTerminatedProcesses] at hk
    have hprev : (getNewProcesses (getCurrentProcesses (updateProcessList pm S) S).2
        S).2.previous_processes =
        (getCurrentProcesses (updateProcessList pm S) S).2.previous_processes :=
      getCurrentProcesses_previous_processes _ S
    rw [hprev, htbl] at hk
    apply hk.2
    have hsub := hk.1
    rw [List.mem_map] at hsub
    obtain ⟨e, he, hpid⟩ := hsub
    rw [← hpid]
    exact List.mem_map_of_mem ProcEntry.pid (List.mem_filter.1 he).1
  · show getNewConnections (updateConnectionList nm L) L = []
    rw [getNewConnections_eq, List.filter_eq_nil_iff]
    intro c hc
    simp only [decide_eq_true_eq, not_not, mem_updateConnectionList]
    exact List.mem_map_of_mem getConnectionKey hc

/-- C29 at a concrete input: monitors that tracked `cycleOne` and `netOne` go
through an iteration on `cycleChurn`, where pid 3 is new and pid 2 is gone,
and on `netBoth`, which has one more connection; the iteration reports
nothing. -/
theorem steady_cycle_reports_nothing_witness :
    (3 : Int) ∉ mapKeys (updateProcessList ProcessMonitor.init cycleOne).previous_processes ∧
    (monitorCycleTracking (updateProcessList ProcessMonitor.init cycleOne)
        (updateConnectionList { previous_connections := [] } netOne)
        (steadyReads cycleChurn netBoth)).1.new_processes = [] ∧
    (monitorCycleTracking (updateProcessList ProcessMonitor.init cycleOne)
        (updateConnectionList { previous_connections := [] } netOne)
        (steadyReads cycleChurn netBoth)).1.terminated_processes = [] ∧
    (monitorCycleTracking (updateProcessList ProcessMonitor.init cycleOne)
        (updateConnectionList { previous_connections := [] } netOne)
        (steadyReads cycleChurn netBoth)).1.new_connections = [] :=
  ⟨by decide!, steady_cycle_reports_nothing _ _ cycleChurn netBoth⟩

theorem filter_unknown_checkProcessAnomalies (d : AnomalyDetector) (now : Int)
    (B : List ProcessInfo) :
    (checkProcessAnomalies d now B).1.filter (fun a => decide (a.type = "UNKNOWN_PROCESS")) =
      (B.filter (fun p => isUnknownProcess d p)).map unknownProcessAlert := by
  rw [checkProcessAnomalies_alerts, List.filter_flatMap]
  simp only [(filter_type_alertsOfProcess d _).2.2]
  have h := flatMap_ite_singleton B (fun p => isUnknownProcess d p = true) unknownProcessAlert
  simpa using h

/-- C30. The alerts of `checkProcessAnomalies` are those of the processes in
batch order, each process giving HIGH_CPU, then HIGH_MEMORY, then
UNKNOWN_PROCESS, all evaluated on the known-process map as it stood before the
call.  So for a name that contains no fixed token and is not known before the
call, the call returns as many UNKNOWN_PROCESS alerts for that name as the
batch has entries with that name. -/
theorem unknown_alert_per_entry (d : AnomalyDetector) (now : Int) (B : List ProcessInfo) :
    (checkProcessAnomalies d now B).1 =
      B.flatMap (fun p =>
        (if p.cpu_usage > d.high_cpu_threshold then [highCpuAlert p] else []) ++
        (if p.memory_usage > d.high_memory_threshold then [highMemoryAlert p] else []) ++
        (if isUnknownProcess d p = true then [unknownProcessAlert p] else [])) ∧
    (∀ n : String, (∀ tok ∈ common_processes, ¬ tok.data <:+: n.data) →
      n ∉ knownKeys d.known_processes →
      (((checkProcessAnomalies d now B).1.filter
          (fun a => decide (a.type = "UNKNOWN_PROCESS"))).filter
          (fun a => decide (a.message = "Unknown process detected: " ++ n))).length =
        (B.filter (fun p => decide (p.name = n))).length) := by
  refine ⟨checkProcessAnomalies_alerts d now B, ?_⟩
  intro n htok hunk
  rw [filter_unknown_checkProcessAnomalies, List.filter_map, List.length_map,
    List.filter_filter]
  congr 1
  apply List.filter_congr
  intro p _
  by_cases hn : p.name = n
  · have hu : isUnknownProcess d p = true := by
      rw [isUnknownProcess_iff, hn]
      exact ⟨htok, hunk⟩
    have hm : (unknownProcessAlert p).message = "Unknown process detected: " ++ n := by
      rw [← hn]; rfl
    simp [hn, hu, hm]
  · have hm : ¬ (unknownProcessAlert p).message = "Unknown process detected: " ++ n := by
      intro hmsg
      have hq : (unknownProcessAlert p).message =
          "Unknown process detected: " ++ ({ p with name := n } : ProcessInfo).name := hmsg
      exact hn (unknownProcessAlert_message_injective p _ hq)
    simp [hn, hm]

/-- C30 at a concrete input: a batch with three entries named "mystery", one of
them over the CPU threshold, and one entry named "bash" gives three
UNKNOWN_PROCESS alerts, and the alerts come in batch order with HIGH_CPU
before UNKNOWN_PROCESS. -/
theorem unknown_alert_per_entry_witness :
    (checkProcessAnomalies (AnomalyDetector.init 0) 0
        [procOf 21 "mystery" 1 100, procOf 22 "mystery" 95 100, procOf 23 "bash" 1 100,
         procOf 24 "mystery" 1 100]).1.map AnomalyAlert.type =
      ["UNKNOWN_PROCESS", "HIGH_CPU", "UNKNOWN_PROCESS", "UNKNOWN_PROCESS"] ∧
    (((checkProcessAnomalies (AnomalyDetector.init 0) 0
        [procOf 21 "mystery" 1 100, procOf 22 "mystery" 95 100, procOf 23 "bash" 1 100,
         procOf 24 "mystery" 1 100]).1.filter
          (fun a => decide (a.type = "UNKNOWN_PROCESS"))).filter
          (fun a => decide (a.message = "Unknown process detected: " ++ "mystery"))).length =
      ([procOf 21 "mystery" 1 100, procOf 22 "mystery" 95 100, procOf 23 "bash" 1 100,
         procOf 24 "mystery" 1 100].filter (fun p => decide (p.name = "mystery"))).length :=
  ⟨by decide!,
   (unknown_alert_per_entry (AnomalyDetector.init 0) 0
      [procOf 21 "mystery" 1 100, procOf 22 "mystery" 95 100, procOf 23 "bash" 1 100,
       procOf 24 "mystery" 1 100]).2 "mystery" (by decide) (by decide)⟩

end SentinelTrack
